import Mathlib

/-!
ReliableSocket: a shallow embedding of `src/ReliableSocket.cpp`.

The socket is an explicit state record.  The network is an oracle: every
operation consumes a trace of `recv` results (one entry per call of `recv`)
and appends what it hands to `send` to a log kept in the state.  A blocking
loop that uses up the trace ends in `Outcome.blocked`: the call has not
returned and is waiting in `recv`.

Reading of the source where it does not compile as written:
* `send_data` closes neither the `if (hdr->type == RDT_ACK)` block nor the
  `while`; the braces are placed as the indentation shows, so that
  `this->sequence_number++` follows the loop.
* `send_data` fills in and first transmits `segment`, a buffer it does not
  declare, and passes its own zero-initialised `send_seg` to `reliable_send`;
  the two names are kept apart, as in the source.
* `hdr->seqeuence_number` and `nthol` in `receive_data` are read as
  `sequence_number` and `ntohl`.
Header fields are kept in host order (`htonl` followed by `ntohl` is the
identity), and `send` is taken to succeed.

The RTT statistics are C++ `double`s: a `Double` carries the rational value of a
binary64 number and every operation on it rounds to nearest, ties to even.
-/

namespace RDT

/-- Modelled from the spec: the message types are declared in `ReliableSocket.h`,
which is absent; the spec lists them as CONN=0, SYNACK, ACK, DATA, CLOSE. -/
abbrev RDT_CONN : Nat := 0

/-- Modelled from the spec: second message type of the list CONN=0, SYNACK, ACK, DATA, CLOSE. -/
abbrev RDT_SYNACK : Nat := 1

/-- Modelled from the spec: third message type of the list CONN=0, SYNACK, ACK, DATA, CLOSE. -/
abbrev RDT_ACK : Nat := 2

/-- Modelled from the spec: fourth message type of the list CONN=0, SYNACK, ACK, DATA, CLOSE. -/
abbrev RDT_DATA : Nat := 3

/-- Modelled from the spec: fifth message type of the list CONN=0, SYNACK, ACK, DATA, CLOSE. -/
abbrev RDT_CLOSE : Nat := 4

/-- Modelled from the spec: `MAX_SEG_SIZE` is declared in `ReliableSocket.h` (absent);
the spec gives 1400 bytes, header included, and `accept_connection` sizes its
buffers with the literal 1400. -/
abbrev MAX_SEG_SIZE : Nat := 1400

/-- Modelled from the spec: `sizeof(RDTHeader)`; the struct is declared in
`ReliableSocket.h` (absent) and the spec lists a 1-byte type and two 4-byte numbers. -/
abbrev RDT_HEADER_SIZE : Nat := 9

/-- Modelled from the spec: `MAX_DATA_SIZE` (declared in `ReliableSocket.h`, absent) is
the room a segment of maximum size leaves after the header. -/
abbrev MAX_DATA_SIZE : Nat := MAX_SEG_SIZE - RDT_HEADER_SIZE

/-- The values of `this->state` used by the source. -/
inductive connection_status where
  | INIT
  | ESTABLISHED
  | FIN
  | CLOSED
  deriving DecidableEq, Repr

/-- A segment as laid out in a buffer: the three `RDTHeader` fields, then the bytes after the header. -/
structure Segment where
  type : Nat
  sequence_number : Nat
  ack_number : Nat
  data : List Nat
  deriving DecidableEq, Repr

/-- One result of `recv`: a timeout (`errno == EAGAIN`), another error, or a datagram.
`elapsed` is the number of milliseconds `current_msec()` advanced since the
preceding `send`; `recv_count` is the byte count `recv` returned and `seg` is the
receive buffer read through `RDTHeader` afterwards (fields a short datagram
does not reach are as `memset` left them). -/
inductive RecvResult where
  | timeout (elapsed : Nat)
  | error (elapsed : Nat)
  | datagram (elapsed : Nat) (recv_count : Nat) (seg : Segment)
  deriving DecidableEq, Repr

/-- Whether `recv` delivered a datagram (it returned a byte count, not -1). -/
def RecvResult.isDatagram : RecvResult → Bool
  | .datagram _ _ _ => true
  | _ => false

/-- Whether `recv` delivered an ACK segment whose ack number is `n`. -/
def RecvResult.isAckFor (n : Nat) : RecvResult → Bool
  | .datagram _ _ seg => seg.type = RDT_ACK ∧ seg.ack_number = n
  | _ => false

/-- The event `recv` yields when `seg` arrives whole: header plus payload bytes. -/
def RecvResult.arrival (elapsed : Nat) (seg : Segment) : RecvResult :=
  .datagram elapsed (RDT_HEADER_SIZE + seg.data.length) seg

/-- Rounding to the nearest integer, a tie to the even one. -/
def round_half_even (q : ℚ) : Int :=
  if q - Rat.floor q < 1 / 2 then Rat.floor q
  else if 1 / 2 < q - Rat.floor q then Rat.floor q + 1
  else if Rat.floor q % 2 = 0 then Rat.floor q else Rat.floor q + 1

/-- The exponent of the unit in the last place of the binary64 numbers of the size of `q`:
53 significant bits, and no finer than 2^-1074 (the subnormal numbers). -/
def ulp_exponent (q : ℚ) : Int :=
  max (Int.log 2 |q| - 52) (-1074)

/-- Rounding of a real value to binary64: to the nearest multiple of the unit in the last
place, a tie to the even one. -/
def to_double (q : ℚ) : ℚ :=
  round_half_even (q / 2 ^ ulp_exponent q) * 2 ^ ulp_exponent q

/-- Modelled from the spec: the RTT statistics are floating point; their declaration is in
`ReliableSocket.h`, which is absent, and they are taken as C++ `double` (IEEE 754 binary64,
rounding to nearest, ties to even).  A value is the rational number it denotes and every
operation rounds its exact result with `to_double`.  Infinities and NaN are not part of
the model: it describes the program as long as all magnitudes stay below 2^1024. -/
structure Double where
  val : ℚ
  deriving DecidableEq

/-- The sum of two `double`s, rounded. -/
instance : Add Double := ⟨fun a b => ⟨to_double (a.val + b.val)⟩⟩

/-- The difference of two `double`s, rounded. -/
instance : Sub Double := ⟨fun a b => ⟨to_double (a.val - b.val)⟩⟩

/-- The product of two `double`s, rounded. -/
instance : Mul Double := ⟨fun a b => ⟨to_double (a.val * b.val)⟩⟩

/-- An integer literal converted to `double`: itself below 2^53, where every integer is a
binary64 number. -/
instance (n : Nat) : OfNat Double n := ⟨⟨if n < 2 ^ 53 then (n : ℚ) else to_double n⟩⟩

/-- A floating-point literal such as `0.125`. -/
instance : OfScientific Double :=
  ⟨fun m s e => ⟨to_double (OfScientific.ofScientific m s e)⟩⟩

/-- The conversion of an `int` operand to `double`. -/
instance : IntCast Double := ⟨fun z => ⟨to_double z⟩⟩

/-- The fields of the class, followed by what the socket has done to the transport:
`sent` lists the segments handed to `send` (oldest first), `timeouts` the values
passed to `set_timeout_length`, and `fd_closed` counts calls of `close(sock_fd)`.
Modelled from the spec: the field types are declared in `ReliableSocket.h` (absent);
the counters are 32-bit (they go through `htonl`) and the RTT statistics are `double`s
for the spec's floating-point values. -/
structure ReliableSocket where
  sequence_number : Nat
  expected_sequence_number : Nat
  estimated_rtt : Double
  dev_rtt : Double
  current_rtt : Int
  state : connection_status
  sent : List Segment
  timeouts : List Nat
  fd_closed : Nat
  deriving DecidableEq

/-- The constructor `ReliableSocket::ReliableSocket()`. -/
def ReliableSocket.new : ReliableSocket :=
  { sequence_number := 0, expected_sequence_number := 0, estimated_rtt := 100, dev_rtt := 10,
    current_rtt := 0, state := .INIT, sent := [], timeouts := [], fd_closed := 0 }

/-- How a blocking call ends on a given trace: it returned (with the unread rest of the
trace), it is still blocked in `recv` when the trace ends, it called
`exit(EXIT_FAILURE)`, or it ran into behaviour that the source does not determine
(undefined behaviour, a test of a stale `errno`). -/
inductive Outcome (α : Type) where
  | returned (value : α) (sock : ReliableSocket) (rest : List RecvResult)
  | blocked (sock : ReliableSocket)
  | exited (sock : ReliableSocket)
  | undefined (sock : ReliableSocket)
  deriving DecidableEq

/-- The socket state an outcome ends in. -/
def Outcome.sock {α : Type} : Outcome α → ReliableSocket
  | .returned _ s _ => s
  | .blocked s => s
  | .exited s => s
  | .undefined s => s

/-- Whether the call returned to its caller. -/
def Outcome.hasReturned {α : Type} : Outcome α → Bool
  | .returned _ _ _ => true
  | _ => false

/-- A call of `send(this->sock_fd, seg, ...)`. -/
def ReliableSocket.sock_send (sock : ReliableSocket) (seg : Segment) : ReliableSocket :=
  { sock with sent := sock.sent ++ [seg] }

/-- Conversion of a non-negative `double` to `uint32_t`: truncation, modulo 2^32. -/
def to_uint32 (q : Double) : Nat :=
  (Rat.floor q.val).toNat % 2 ^ 32

/-- Conversion of a `double` to `int`: truncation toward zero. -/
def to_int (q : Double) : Int :=
  if 0 ≤ q.val then Rat.floor q.val else -Rat.floor (-q.val)

/-- `ReliableSocket::set_timeout_length`: the value is applied with `setsockopt`. -/
def set_timeout_length (sock : ReliableSocket) (timeout_length_ms : Nat) : ReliableSocket :=
  { sock with timeouts := sock.timeouts ++ [timeout_length_ms] }

/-- `ReliableSocket::set_estimated_rtt`.  The statistics are `double`s, so every operation
on them rounds; `current_rtt` and `abs_dev` are integers and are converted. -/
def set_estimated_rtt (sock : ReliableSocket) : ReliableSocket :=
  let estimated_rtt := sock.estimated_rtt * (1 - 0.125)
  let estimated_rtt := estimated_rtt + sock.current_rtt * 0.125
  let dev_rtt := sock.dev_rtt * (1 - 0.25)
  let abs_dev : Int := to_int (sock.current_rtt - estimated_rtt)
  let abs_dev : Int := if abs_dev < 0 then abs_dev * -1 else abs_dev
  let dev_rtt := dev_rtt + abs_dev * 0.25
  set_timeout_length { sock with estimated_rtt := estimated_rtt, dev_rtt := dev_rtt }
    (to_uint32 (estimated_rtt + 4 * dev_rtt))

/-- The `do ... while (true)` of `reliable_send`; `doubled_timeout` is `none` while
`previous_timeout` is false. -/
def reliable_send_loop (send_seg : Segment) :
    Option Nat → ReliableSocket → List RecvResult → Outcome (Nat × Segment)
  | _, sock, [] => .blocked (sock.sock_send send_seg)
  | doubled_timeout, sock, ev :: rest =>
    let sock := sock.sock_send send_seg
    match ev with
    | .timeout _ =>
      let doubled : Nat :=
        match doubled_timeout with
        | some d => (d * 2) % 2 ^ 32
        | none => to_uint32 (2 * (sock.estimated_rtt + 4 * sock.dev_rtt))
      reliable_send_loop send_seg (some doubled) (set_timeout_length sock doubled) rest
    | .error _ => .exited sock
    | .datagram elapsed recv_count seg =>
      .returned (recv_count, seg) (set_estimated_rtt { sock with current_rtt := elapsed }) rest

/-- `ReliableSocket::reliable_send`; the value returned is what `recv` left in `recv_data`. -/
def reliable_send (send_seg : Segment) (sock : ReliableSocket) (trace : List RecvResult) :
    Outcome (Nat × Segment) :=
  reliable_send_loop send_seg none
    (set_timeout_length sock (to_uint32 (sock.estimated_rtt + 4 * sock.dev_rtt))) trace

/-- `ReliableSocket::timeout_send`: send, and send again after every reply, until a `recv` times out. -/
def timeout_send (send_seg : Segment) : ReliableSocket → List RecvResult → Outcome Unit
  | sock, [] =>
    .blocked (set_timeout_length (sock.sock_send send_seg)
      (to_uint32 (sock.estimated_rtt + sock.dev_rtt * 4)))
  | sock, ev :: rest =>
    let sock := set_timeout_length (sock.sock_send send_seg)
      (to_uint32 (sock.estimated_rtt + sock.dev_rtt * 4))
    match ev with
    | .timeout _ => .returned () sock rest
    | .error _ => .exited sock
    | .datagram _ _ _ => timeout_send send_seg sock rest

/-- The `while(true)` of `send_data`.  Every round reads at least one entry of the trace,
so `send_data` starts it with more fuel than the trace has entries. -/
def send_data_loop (send_seg : Segment) :
    Nat → ReliableSocket → List RecvResult → Outcome Unit
  | 0, sock, _ => .blocked sock
  | fuel + 1, sock, trace =>
    match reliable_send send_seg sock trace with
    | .returned reply sock rest =>
      if reply.2.type = RDT_ACK then
        -- `if (this->sequence_number = ntohl(hdr->ack_number))`: an assignment
        let sock := { sock with sequence_number := reply.2.ack_number }
        if sock.sequence_number ≠ 0 then
          .returned () { sock with sequence_number := (sock.sequence_number + 1) % 2 ^ 32 } rest
        else
          send_data_loop send_seg fuel sock rest
      else
        send_data_loop send_seg fuel sock rest
    | .blocked sock => .blocked sock
    | .exited sock => .exited sock
    | .undefined sock => .undefined sock

/-- The buffer `segment` of `send_data` once header and payload are written: the DATA segment. -/
def data_segment (sequence_number : Nat) (data : List Nat) : Segment :=
  { type := RDT_DATA, sequence_number := sequence_number, ack_number := 0, data := data }

/-- The buffer `send_seg` of `send_data`, `char send_seg[MAX_SEG_SIZE] = {0}`, which is never
written: read as a segment of `sizeof(RDTHeader) + length` bytes it is all zero. -/
def zero_segment (length : Nat) : Segment :=
  { type := 0, sequence_number := 0, ack_number := 0, data := List.replicate length 0 }

/-- `ReliableSocket::send_data(data, length)` with `length = data.length`.  A payload that
does not fit a segment overruns the buffers. -/
def send_data (sock : ReliableSocket) (data : List Nat) (trace : List RecvResult) :
    Outcome Unit :=
  if sock.state ≠ .ESTABLISHED then .returned () sock trace
  else if MAX_SEG_SIZE < RDT_HEADER_SIZE + data.length then .undefined sock
  else
    let sock := sock.sock_send (data_segment sock.sequence_number data)
    send_data_loop (zero_segment data.length) (trace.length + 1) sock trace

/-- The ACK `receive_data` builds in `send_seg` for a segment it takes for data. -/
def ack_segment (seqnum : Nat) : Segment :=
  { type := RDT_ACK, sequence_number := seqnum, ack_number := seqnum, data := [] }

/-- The ACK `receive_data` builds in `send_seg` in reply to RDT_CLOSE. -/
def close_ack_segment : Segment :=
  { type := RDT_ACK, sequence_number := 0, ack_number := 0, data := [] }

/-- The call `memcpy(buffer, data, n)` where `data` points past the header of the zero-filled
receive buffer: the first `n` bytes of the caller's buffer are overwritten. -/
def memcpy_into (buffer : List Nat) (data : List Nat) (n : Nat) : List Nat :=
  (data ++ List.replicate n 0).take n ++ buffer.drop n

/-- The `while (true)` of `receive_data`; the value returned is `recv_data_size` and the
caller's buffer. -/
def receive_data_loop (buffer : List Nat) :
    ReliableSocket → List RecvResult → Outcome (Int × List Nat)
  | sock, [] => .blocked sock
  | sock, ev :: rest =>
    match ev with
    | .timeout _ => .exited sock
    | .error _ => .exited sock
    | .datagram _ recv_count seg =>
      let seqnum := seg.sequence_number
      if seg.type = RDT_ACK then
        receive_data_loop buffer sock rest
      else if seg.type = RDT_CLOSE then
        match timeout_send close_ack_segment sock rest with
        | .returned _ sock rest => .returned (0, buffer) { sock with state := .FIN } rest
        | .blocked sock => .blocked sock
        | .exited sock => .exited sock
        | .undefined sock => .undefined sock
      else
        let sock := sock.sock_send (ack_segment seqnum)
        if seqnum = sock.sequence_number then
          let recv_data_size : Int := (recv_count : Int) - (RDT_HEADER_SIZE : Int)
          let sock := { sock with sequence_number := (sock.sequence_number + 1) % 2 ^ 32 }
          if recv_data_size < 0 then .undefined sock
          else .returned (recv_data_size, memcpy_into buffer seg.data recv_data_size.toNat) sock rest
        else
          receive_data_loop buffer sock rest

/-- `ReliableSocket::receive_data(buffer)`. -/
def receive_data (sock : ReliableSocket) (buffer : List Nat) (trace : List RecvResult) :
    Outcome (Int × List Nat) :=
  if sock.state ≠ .ESTABLISHED then .returned (0, buffer) sock trace
  else receive_data_loop buffer sock trace

/-- A connection fresh out of the handshake: the constructor's values, state ESTABLISHED. -/
def established : ReliableSocket :=
  { ReliableSocket.new with state := .ESTABLISHED }

/-- An established connection whose `estimated_rtt` is the `double` that follows 1, with
the sample 0 ms recorded: the first product of `set_estimated_rtt` has to be rounded. -/
def next_after_one : ReliableSocket :=
  { established with estimated_rtt := ⟨1 + 1 / 2 ^ 52⟩, current_rtt := 0 }

/-- A SYNACK as `accept_connection` builds it: numbers 0, no payload. -/
def stray_synack : Segment :=
  { type := RDT_SYNACK, sequence_number := 0, ack_number := 0, data := [] }

/-- A segment of type CONN, numbered 9, without payload. -/
def stray_conn : Segment :=
  { type := RDT_CONN, sequence_number := 9, ack_number := 0, data := [] }

/-- A CLOSE as `close_connection` builds it: numbers 0, no payload. -/
def close_segment : Segment :=
  { type := RDT_CLOSE, sequence_number := 0, ack_number := 0, data := [] }

/-- Successive calls of `send_data`, one per payload, on one connection. -/
def send_all : List (List Nat) → ReliableSocket → List RecvResult → Outcome Unit
  | [], sock, trace => .returned () sock trace
  | data :: more, sock, trace =>
    match send_data sock data trace with
    | .returned _ sock rest => send_all more sock rest
    | .blocked sock => .blocked sock
    | .exited sock => .exited sock
    | .undefined sock => .undefined sock

/-- Successive calls of `receive_data` on one connection, each with a fresh buffer of
`MAX_DATA_SIZE` bytes: the payloads handed to the application (the first `recv_data_size`
bytes of the buffer after each call that returned), and the socket at the end. -/
def receive_all : Nat → ReliableSocket → List RecvResult → List (List Nat) × ReliableSocket
  | 0, sock, _ => ([], sock)
  | calls + 1, sock, trace =>
    match receive_data sock (List.replicate MAX_DATA_SIZE 0) trace with
    | .returned value sock rest =>
      ((value.2.take value.1.toNat) :: (receive_all calls sock rest).1,
        (receive_all calls sock rest).2)
    | .blocked sock => ([], sock)
    | .exited sock => ([], sock)
    | .undefined sock => ([], sock)

/-- Two established endpoints joined by a transport that delivers every segment exactly
once, whole and in order, in both directions, with no timeout: the sender calls `send_data`
for each payload, the receiver calls `receive_data` `calls` times.  Round `r + 1` hands
the receiver everything the sender transmits on the replies of round `r`, and hands the
sender everything the receiver transmits in answer.  The result is the pair of traces
(sender's, receiver's) read so far. -/
def exchange (payloads : List (List Nat)) (calls : Nat) :
    Nat → List RecvResult × List RecvResult
  | 0 => ([], [])
  | r + 1 =>
    let to_receiver : List RecvResult :=
      (send_all payloads established (exchange payloads calls r).1).sock.sent.map
        (RecvResult.arrival 0)
    let to_sender : List RecvResult :=
      (receive_all calls established to_receiver).2.sent.map (RecvResult.arrival 0)
    (to_sender, to_receiver)

/-- The order Init < Established < Closing (FIN) < Closed on `this->state`. -/
def connection_status.rank : connection_status → Nat
  | .INIT => 0
  | .ESTABLISHED => 1
  | .FIN => 2
  | .CLOSED => 3

/-- Whether `recv` timed out (`errno == EAGAIN`). -/
def RecvResult.isTimeout : RecvResult → Bool
  | .timeout _ => true
  | _ => false

/-- Whether a `recv` result lets a loop around `reliable_send` go on: a timeout, or a
datagram whose type fails the loop's test `stop`. -/
def RecvResult.retried (stop : Nat → Bool) : RecvResult → Bool
  | .timeout _ => true
  | .error _ => false
  | .datagram _ _ seg => !stop seg.type

/-- Whether a `recv` result is a datagram whose type passes the test `stop`. -/
def RecvResult.stops (stop : Nat → Bool) : RecvResult → Bool
  | .datagram _ _ seg => stop seg.type
  | _ => false

/-- The CONN `connect_to_remote` builds in `segment`. -/
def conn_segment : Segment :=
  { type := RDT_CONN, sequence_number := 0, ack_number := 0, data := [] }

/-- The SYNACK `accept_connection` builds in `send_seg`. -/
def synack_segment : Segment :=
  { type := RDT_SYNACK, sequence_number := 0, ack_number := 0, data := [] }

/-- The ACK `connect_to_remote` builds in `segment`. -/
def handshake_ack_segment : Segment :=
  { type := RDT_ACK, sequence_number := 0, ack_number := 0, data := [] }

/-- The buffer `send_seg` of `send_close_connection` after `hdr->type = RDT_ACK`. -/
def final_ack_segment : Segment :=
  { type := RDT_ACK, sequence_number := 0, ack_number := 0, data := [] }

/-- The test `hdr->type == RDT_ACK` that ends the loops of `accept_connection` and
`receive_close_connection`. -/
def stop_on_ack (type : Nat) : Bool :=
  type = RDT_ACK

/-- The tests `hdr->type == RDT_ACK` and `hdr->type == RDT_CLOSE` that end the first loop of
`send_close_connection`. -/
def stop_on_ack_or_close (type : Nat) : Bool :=
  type = RDT_ACK ∨ type = RDT_CLOSE

/-- Whether `recv` returned a positive byte count. -/
def RecvResult.hasBytes : RecvResult → Bool
  | .datagram _ recv_count _ => 0 < recv_count
  | _ => false

/-- The test `hdr->type == RDT_CLOSE` that ends the second loop of `send_close_connection`. -/
def stop_on_close (type : Nat) : Bool :=
  type = RDT_CLOSE

/-- What a loop `while (true) { reliable_send(...); ...; if (<test>) break; }` does once
`reliable_send` is back: `after` is the code between the call and the test, `stop` the test
on the reply's type, `again` the next round of the loop. -/
def after_reply (stop : Nat → Bool) (after : ReliableSocket → ReliableSocket)
    (again : ReliableSocket → List RecvResult → Outcome (Nat × Segment)) :
    Outcome (Nat × Segment) → Outcome (Nat × Segment)
  | .returned reply sock rest =>
    if stop reply.2.type then .returned reply (after sock) rest else again (after sock) rest
  | .blocked sock => .blocked sock
  | .exited sock => .exited sock
  | .undefined sock => .undefined sock

/-- The loop `while (true) { reliable_send(send_seg, ...); ...; if (<test>) break; }` of
`accept_connection`, `send_close_connection` and `receive_close_connection`.  Every round
reads at least one entry of the trace, so the callers start it with more fuel than the
trace has entries. -/
def reliable_send_until (send_seg : Segment) (stop : Nat → Bool)
    (after : ReliableSocket → ReliableSocket) :
    Nat → ReliableSocket → List RecvResult → Outcome (Nat × Segment)
  | 0, sock, _ => .blocked sock
  | fuel + 1, sock, trace =>
    after_reply stop after (reliable_send_until send_seg stop after fuel)
      (reliable_send send_seg sock trace)

/-- The call `set_timeout_length(this->estimated_rtt + (4 * this->dev_rtt))`. -/
def set_smoothed_timeout (sock : ReliableSocket) : ReliableSocket :=
  set_timeout_length sock (to_uint32 (sock.estimated_rtt + 4 * sock.dev_rtt))

/-- `ReliableSocket::accept_connection`; `bind` and `connect` are taken to succeed.  The
first entry of the trace is the result of `recvfrom`. -/
def accept_connection (sock : ReliableSocket) (trace : List RecvResult) : Outcome Unit :=
  if sock.state ≠ .INIT then .exited sock
  else
    match trace with
    | [] => .blocked sock
    | .timeout _ :: _ => .exited sock
    | .error _ :: _ => .exited sock
    | .datagram _ _ seg :: rest =>
      if seg.type ≠ RDT_CONN then .exited sock
      else
        match reliable_send_until synack_segment stop_on_ack
            set_smoothed_timeout (rest.length + 1) sock rest with
        | .returned _ sock rest => .returned () { sock with state := .ESTABLISHED } rest
        | .blocked sock => .blocked sock
        | .exited sock => .exited sock
        | .undefined sock => .undefined sock

/-- `ReliableSocket::connect_to_remote`; `connect` is taken to succeed.  Between the CONN
and the ACK the source zeroes `segment` and tests `recv_data`, into which nothing has been
received, only to print a message. -/
def connect_to_remote (sock : ReliableSocket) (trace : List RecvResult) : Outcome Unit :=
  if sock.state ≠ .INIT then .returned () sock trace
  else
    match timeout_send handshake_ack_segment (sock.sock_send conn_segment) trace with
    | .returned _ sock rest => .returned () { sock with state := .ESTABLISHED } rest
    | .blocked sock => .blocked sock
    | .exited sock => .exited sock
    | .undefined sock => .undefined sock

/-- The second loop of `send_close_connection`: `recv` until a CLOSE arrives; a negative
`recv_count`, timeout or not, only makes it `continue`. -/
def wait_for_close : ReliableSocket → List RecvResult → Outcome Unit
  | sock, [] => .blocked sock
  | sock, ev :: rest =>
    match ev with
    | .timeout _ => wait_for_close sock rest
    | .error _ => wait_for_close sock rest
    | .datagram _ _ seg =>
      if seg.type = RDT_CLOSE then .returned () sock rest else wait_for_close sock rest

/-- The third loop of `send_close_connection`: send the final ACK and listen for
`TIME_WAIT` ms, again after every datagram, until a `recv` times out.  When `recv` returns
0 the loop tests an `errno` that this `recv` has not set: the source does not determine
the outcome. -/
def time_wait_loop (TIME_WAIT : Nat) : ReliableSocket → List RecvResult → Outcome Unit
  | sock, [] => .blocked (set_timeout_length (sock.sock_send final_ack_segment) TIME_WAIT)
  | sock, ev :: rest =>
    let sock := set_timeout_length (sock.sock_send final_ack_segment) TIME_WAIT
    match ev with
    | .timeout _ => .returned () sock rest
    | .error _ => .exited sock
    | .datagram _ recv_count _ =>
      if 0 < recv_count then time_wait_loop TIME_WAIT sock rest else .undefined sock

/-- `ReliableSocket::send_close_connection`; `TIME_WAIT` is declared in a header that is
absent and is taken as a parameter. -/
def send_close_connection (TIME_WAIT : Nat) (sock : ReliableSocket)
    (trace : List RecvResult) : Outcome Unit :=
  match reliable_send_until close_segment stop_on_ack_or_close
      id (trace.length + 1) sock trace with
  | .returned _ sock rest =>
    match wait_for_close sock rest with
    | .returned _ sock rest => time_wait_loop TIME_WAIT sock rest
    | .blocked sock => .blocked sock
    | .exited sock => .exited sock
    | .undefined sock => .undefined sock
  | .blocked sock => .blocked sock
  | .exited sock => .exited sock
  | .undefined sock => .undefined sock

/-- `ReliableSocket::receive_close_connection`. -/
def receive_close_connection (sock : ReliableSocket) (trace : List RecvResult) :
    Outcome Unit :=
  match reliable_send_until close_segment stop_on_ack id
      (trace.length + 1) (set_smoothed_timeout sock) trace with
  | .returned _ sock rest => .returned () sock rest
  | .blocked sock => .blocked sock
  | .exited sock => .exited sock
  | .undefined sock => .undefined sock

/-- `ReliableSocket::close_connection`; `close(this->sock_fd)` is counted in `fd_closed`. -/
def close_connection (TIME_WAIT : Nat) (sock : ReliableSocket) (trace : List RecvResult) :
    Outcome Unit :=
  match
    (if sock.state ≠ .FIN then
      send_close_connection TIME_WAIT (sock.sock_send close_segment) trace
    else receive_close_connection (sock.sock_send close_segment) trace) with
  | .returned _ sock rest =>
    .returned () { sock with state := .CLOSED, fd_closed := sock.fd_closed + 1 } rest
  | .blocked sock => .blocked sock
  | .exited sock => .exited sock
  | .undefined sock => .undefined sock

/-- The timeouts `reliable_send` applies after the first, second, ... of `n` consecutive
timeouts when the first of them is `first`: `doubled_timeout` is a `uint32_t` that is
doubled each time. -/
def backoff (first : Nat) (n : Nat) : List Nat :=
  (List.range n).map (fun i => (first * 2 ^ i) % 2 ^ 32)

/-- What the code between `reliable_send` and the test of a loop may do: it leaves the
counters, the state, the segments sent and the socket alone. -/
def keeps_connection (after : ReliableSocket → ReliableSocket) : Prop :=
  ∀ s, (after s).sequence_number = s.sequence_number
    ∧ (after s).expected_sequence_number = s.expected_sequence_number
    ∧ (after s).state = s.state ∧ (after s).fd_closed = s.fd_closed ∧ (after s).sent = s.sent

/-! ## Lemmas: the loops, one round at a time, and what they leave alone -/

theorem memcpy_into_whole (buffer data : List Nat) :
    memcpy_into buffer data data.length = data ++ buffer.drop data.length := by
  simp [memcpy_into, List.take_append_eq_append_take]

theorem recv_size_arrival (n : Nat) :
    ((RDT_HEADER_SIZE + n : Nat) : Int) - (RDT_HEADER_SIZE : Int) = (n : Int) := by
  push_cast
  ring

theorem receive_data_of_established (sock : ReliableSocket) (buffer : List Nat)
    (trace : List RecvResult) (h : sock.state = .ESTABLISHED) :
    receive_data sock buffer trace = receive_data_loop buffer sock trace := by
  simp [receive_data, h]

theorem receive_data_loop_accept (sock : ReliableSocket) (buffer : List Nat) (elapsed : Nat)
    (seg : Segment) (rest : List RecvResult)
    (hack : seg.type ≠ RDT_ACK) (hclose : seg.type ≠ RDT_CLOSE)
    (hseq : seg.sequence_number = sock.sequence_number) :
    receive_data_loop buffer sock (.arrival elapsed seg :: rest)
      = .returned ((seg.data.length : Int), seg.data ++ buffer.drop seg.data.length)
          { sock with
            sequence_number := (sock.sequence_number + 1) % 2 ^ 32,
            sent := sock.sent ++ [ack_segment seg.sequence_number] } rest := by
  have hsz := recv_size_arrival seg.data.length
  simp only [receive_data_loop, RecvResult.arrival, if_neg hack, if_neg hclose,
    ReliableSocket.sock_send, hseq, if_true, hsz]
  have hnn : ¬ ((seg.data.length : Int) < 0) := by omega
  simp [hnn, memcpy_into_whole]

theorem receive_data_loop_reject (sock : ReliableSocket) (buffer : List Nat)
    (elapsed count : Nat) (seg : Segment) (rest : List RecvResult)
    (hack : seg.type ≠ RDT_ACK) (hclose : seg.type ≠ RDT_CLOSE)
    (hseq : seg.sequence_number ≠ sock.sequence_number) :
    receive_data_loop buffer sock (.datagram elapsed count seg :: rest)
      = receive_data_loop buffer (sock.sock_send (ack_segment seg.sequence_number)) rest := by
  simp only [receive_data_loop, if_neg hack, if_neg hclose]
  simp [ReliableSocket.sock_send, hseq]

theorem receive_data_loop_skip_ack (sock : ReliableSocket) (buffer : List Nat)
    (elapsed count : Nat) (seg : Segment) (rest : List RecvResult)
    (hack : seg.type = RDT_ACK) :
    receive_data_loop buffer sock (.datagram elapsed count seg :: rest)
      = receive_data_loop buffer sock rest := by
  simp [receive_data_loop, hack]

/-- The socket after `timeout_send` has sent `send_seg` and set the timeout `k` times. -/
theorem timeout_send_until_quiet (send_seg : Segment) (replies : List RecvResult)
    (hrep : ∀ ev ∈ replies, ev.isDatagram = true) (sock : ReliableSocket) (elapsed : Nat)
    (rest : List RecvResult) :
    timeout_send send_seg sock (replies ++ .timeout elapsed :: rest)
      = .returned ()
          { sock with
            sent := sock.sent ++ List.replicate (replies.length + 1) send_seg,
            timeouts := sock.timeouts ++ List.replicate (replies.length + 1)
              (to_uint32 (sock.estimated_rtt + sock.dev_rtt * 4)) } rest := by
  induction replies generalizing sock with
  | nil => simp [timeout_send, ReliableSocket.sock_send, set_timeout_length]
  | cons ev replies ih =>
    have hev : ev.isDatagram = true := hrep ev (List.mem_cons_self _ _)
    have hrep' : ∀ e ∈ replies, e.isDatagram = true :=
      fun e he => hrep e (List.mem_cons_of_mem _ he)
    cases ev with
    | timeout e => simp [RecvResult.isDatagram] at hev
    | error e => simp [RecvResult.isDatagram] at hev
    | datagram e c s =>
      simp only [List.cons_append, timeout_send, List.append_eq]
      rw [ih hrep']
      simp [ReliableSocket.sock_send, set_timeout_length, List.replicate_succ]


/-- What `reliable_send` leaves alone, and what it sends: `send_seg`, at least once. -/
theorem reliable_send_loop_frame (send_seg : Segment) (trace : List RecvResult) :
    ∀ (doubled : Option Nat) (sock : ReliableSocket),
      (reliable_send_loop send_seg doubled sock trace).sock.sequence_number = sock.sequence_number
      ∧ (reliable_send_loop send_seg doubled sock trace).sock.expected_sequence_number
          = sock.expected_sequence_number
      ∧ (reliable_send_loop send_seg doubled sock trace).sock.state = sock.state
      ∧ (reliable_send_loop send_seg doubled sock trace).sock.fd_closed = sock.fd_closed
      ∧ ∃ j, (reliable_send_loop send_seg doubled sock trace).sock.sent
          = sock.sent ++ List.replicate (j + 1) send_seg := by
  induction trace with
  | nil =>
    intro doubled sock
    refine ⟨rfl, rfl, rfl, rfl, 0, ?_⟩
    simp [reliable_send_loop, Outcome.sock, ReliableSocket.sock_send]
  | cons ev rest ih =>
    intro doubled sock
    cases ev with
    | timeout e =>
      simp only [reliable_send_loop]
      obtain ⟨h1, h2, h3, h4, j, h5⟩ := ih
        (some (match doubled with
          | some d => (d * 2) % 2 ^ 32
          | none => to_uint32 (2 * ((sock.sock_send send_seg).estimated_rtt
              + 4 * (sock.sock_send send_seg).dev_rtt))))
        (set_timeout_length (sock.sock_send send_seg)
          (match doubled with
          | some d => (d * 2) % 2 ^ 32
          | none => to_uint32 (2 * ((sock.sock_send send_seg).estimated_rtt
              + 4 * (sock.sock_send send_seg).dev_rtt))))
      refine ⟨h1, h2, h3, h4, j + 1, ?_⟩
      rw [h5]
      simp [set_timeout_length, ReliableSocket.sock_send, List.replicate_succ]
    | error e =>
      refine ⟨rfl, rfl, rfl, rfl, 0, ?_⟩
      simp [reliable_send_loop, Outcome.sock, ReliableSocket.sock_send]
    | datagram e c s =>
      refine ⟨rfl, rfl, rfl, rfl, 0, ?_⟩
      simp [reliable_send_loop, Outcome.sock, ReliableSocket.sock_send, set_estimated_rtt,
        set_timeout_length]

/-- When `reliable_send` returns, the reply is a datagram of the trace and the trace got shorter. -/
theorem reliable_send_loop_returned (send_seg : Segment) (trace : List RecvResult) :
    ∀ (doubled : Option Nat) (sock sock1 : ReliableSocket) (count : Nat) (seg : Segment)
      (rest : List RecvResult),
      reliable_send_loop send_seg doubled sock trace = .returned (count, seg) sock1 rest →
      rest.length < trace.length ∧ (∀ ev ∈ rest, ev ∈ trace)
      ∧ ∃ elapsed, RecvResult.datagram elapsed count seg ∈ trace := by
  induction trace with
  | nil =>
    intro doubled sock sock1 count seg rest h
    simp [reliable_send_loop] at h
  | cons ev tail ih =>
    intro doubled sock sock1 count seg rest h
    cases ev with
    | timeout e =>
      simp only [reliable_send_loop] at h
      obtain ⟨hlen, hsub, el, hmem⟩ := ih _ _ _ _ _ _ h
      exact ⟨by simp; omega, fun ev hev => List.mem_cons_of_mem _ (hsub ev hev), el,
        List.mem_cons_of_mem _ hmem⟩
    | error e => simp [reliable_send_loop] at h
    | datagram e c s =>
      simp only [reliable_send_loop, Outcome.returned.injEq, Prod.mk.injEq] at h
      obtain ⟨⟨hc, hs⟩, _, hr⟩ := h
      subst hc hs hr
      exact ⟨by simp, fun ev hev => List.mem_cons_of_mem _ hev, e, List.mem_cons_self _ _⟩


theorem send_data_loop_succ (send_seg : Segment) (fuel : Nat) (sock : ReliableSocket)
    (trace : List RecvResult) :
    send_data_loop send_seg (fuel + 1) sock trace =
      match reliable_send send_seg sock trace with
      | .returned reply sock rest =>
        if reply.2.type = RDT_ACK then
          if reply.2.ack_number ≠ 0 then
            .returned () { sock with sequence_number := (reply.2.ack_number + 1) % 2 ^ 32 } rest
          else
            send_data_loop send_seg fuel { sock with sequence_number := reply.2.ack_number } rest
        else
          send_data_loop send_seg fuel sock rest
      | .blocked sock => .blocked sock
      | .exited sock => .exited sock
      | .undefined sock => .undefined sock := by
  simp only [send_data_loop]

/-- The outcome of the loop of `send_data` does not depend on the fuel once it exceeds the
length of the trace: the loop never stops for lack of fuel. -/
theorem send_data_loop_fuel (send_seg : Segment) :
    ∀ (fuel : Nat) (trace : List RecvResult) (sock : ReliableSocket), trace.length < fuel →
      send_data_loop send_seg fuel sock trace
        = send_data_loop send_seg (trace.length + 1) sock trace := by
  intro fuel
  induction fuel using Nat.strong_induction_on with
  | _ fuel ih =>
    intro trace sock hlt
    cases fuel with
    | zero => omega
    | succ f =>
      rw [send_data_loop_succ, send_data_loop_succ]
      cases h : reliable_send send_seg sock trace with
      | returned reply sock1 rest =>
        obtain ⟨count, seg⟩ := reply
        have hlen : rest.length < trace.length :=
          (reliable_send_loop_returned send_seg trace _ _ _ _ _ _ h).1
        simp only
        rw [ih f (by omega) rest _ (by omega), ih f (by omega) rest _ (by omega)]
        by_cases hl : trace.length = f
        · subst hl
          rw [ih _ (by omega) rest _ hlen, ih _ (by omega) rest _ hlen]
        · rw [ih trace.length (by omega) rest _ hlen, ih trace.length (by omega) rest _ hlen]
      | blocked s => rfl
      | exited s => rfl
      | undefined s => rfl


/-- What the loop of `send_data` leaves alone, and what it sends: only `send_seg`. -/
theorem send_data_loop_frame (send_seg : Segment) :
    ∀ (fuel : Nat) (sock : ReliableSocket) (trace : List RecvResult),
      (send_data_loop send_seg fuel sock trace).sock.expected_sequence_number
          = sock.expected_sequence_number
      ∧ (send_data_loop send_seg fuel sock trace).sock.state = sock.state
      ∧ (send_data_loop send_seg fuel sock trace).sock.fd_closed = sock.fd_closed
      ∧ ∃ k, (fuel ≠ 0 → 1 ≤ k) ∧ (send_data_loop send_seg fuel sock trace).sock.sent
          = sock.sent ++ List.replicate k send_seg := by
  intro fuel
  induction fuel with
  | zero =>
    intro sock trace
    exact ⟨rfl, rfl, rfl, 0, by simp, by simp [send_data_loop, Outcome.sock]⟩
  | succ f ih =>
    intro sock trace
    have hfr := reliable_send_loop_frame send_seg trace none
      (set_timeout_length sock (to_uint32 (sock.estimated_rtt + 4 * sock.dev_rtt)))
    rw [send_data_loop_succ]
    unfold reliable_send
    cases h : reliable_send_loop send_seg none
        (set_timeout_length sock (to_uint32 (sock.estimated_rtt + 4 * sock.dev_rtt))) trace with
    | returned reply sock1 rest =>
      rw [h] at hfr
      obtain ⟨_, h2, h3, h4, j, h5⟩ := hfr
      simp only [Outcome.sock, set_timeout_length] at h2 h3 h4 h5
      simp only
      split
      · split
        · exact ⟨h2, h3, h4, j + 1, by simp, by simp [Outcome.sock, h5]⟩
        · obtain ⟨g2, g3, g4, k, _, g5⟩ :=
            ih { sock1 with sequence_number := reply.2.ack_number } rest
          refine ⟨g2.trans h2, g3.trans h3, g4.trans h4, j + 1 + k, by simp; omega, ?_⟩
          rw [g5]
          simp only [h5, List.append_assoc, List.replicate_add]
      · obtain ⟨g2, g3, g4, k, _, g5⟩ := ih sock1 rest
        refine ⟨g2.trans h2, g3.trans h3, g4.trans h4, j + 1 + k, by simp; omega, ?_⟩
        rw [g5]
        simp only [h5, List.append_assoc, List.replicate_add]
    | blocked s =>
      rw [h] at hfr
      obtain ⟨_, h2, h3, h4, j, h5⟩ := hfr
      exact ⟨h2, h3, h4, j + 1, by simp, h5⟩
    | exited s =>
      rw [h] at hfr
      obtain ⟨_, h2, h3, h4, j, h5⟩ := hfr
      exact ⟨h2, h3, h4, j + 1, by simp, h5⟩
    | undefined s =>
      rw [h] at hfr
      obtain ⟨_, h2, h3, h4, j, h5⟩ := hfr
      exact ⟨h2, h3, h4, j + 1, by simp, h5⟩

/-- The loop of `send_data` can only return on an ACK whose ack number is not zero. -/
theorem send_data_loop_no_return (send_seg : Segment) :
    ∀ (fuel : Nat) (sock : ReliableSocket) (trace : List RecvResult),
      (∀ elapsed count seg, RecvResult.datagram elapsed count seg ∈ trace →
        seg.type = RDT_ACK → seg.ack_number = 0) →
      (send_data_loop send_seg fuel sock trace).hasReturned = false
      ∧ ((send_data_loop send_seg fuel sock trace).sock.sequence_number = sock.sequence_number
        ∨ (send_data_loop send_seg fuel sock trace).sock.sequence_number = 0) := by
  intro fuel
  induction fuel with
  | zero =>
    intro sock trace _
    exact ⟨rfl, Or.inl rfl⟩
  | succ f ih =>
    intro sock trace hall
    have hfr := reliable_send_loop_frame send_seg trace none
      (set_timeout_length sock (to_uint32 (sock.estimated_rtt + 4 * sock.dev_rtt)))
    rw [send_data_loop_succ]
    unfold reliable_send
    cases h : reliable_send_loop send_seg none
        (set_timeout_length sock (to_uint32 (sock.estimated_rtt + 4 * sock.dev_rtt))) trace with
    | returned reply sock1 rest =>
      obtain ⟨count, seg⟩ := reply
      obtain ⟨_, hsub, el, hmem⟩ := reliable_send_loop_returned send_seg trace _ _ _ _ _ _ h
      have hrest : ∀ elapsed count seg, RecvResult.datagram elapsed count seg ∈ rest →
          seg.type = RDT_ACK → seg.ack_number = 0 :=
        fun e c s hm => hall e c s (hsub _ hm)
      rw [h] at hfr
      have h1 : sock1.sequence_number = sock.sequence_number := hfr.1
      simp only
      split
      · rename_i hty
        have hz : seg.ack_number = 0 := hall el count seg hmem hty
        simp only [hz, ne_eq, not_true_eq_false, if_false]
        obtain ⟨hr, hh⟩ := ih { sock1 with sequence_number := 0 } rest hrest
        exact ⟨hr, Or.inr (by rcases hh with hh | hh <;> exact hh)⟩
      · obtain ⟨hr, hh⟩ := ih sock1 rest hrest
        exact ⟨hr, hh.imp (fun hh => hh.trans h1) id⟩
    | blocked s =>
      rw [h] at hfr
      exact ⟨rfl, Or.inl hfr.1⟩
    | exited s =>
      rw [h] at hfr
      exact ⟨rfl, Or.inl hfr.1⟩
    | undefined s =>
      rw [h] at hfr
      exact ⟨rfl, Or.inl hfr.1⟩

theorem timeout_send_frame (send_seg : Segment) (trace : List RecvResult) :
    ∀ (sock : ReliableSocket),
      (timeout_send send_seg sock trace).sock.sequence_number = sock.sequence_number
      ∧ (timeout_send send_seg sock trace).sock.expected_sequence_number
          = sock.expected_sequence_number
      ∧ (timeout_send send_seg sock trace).sock.state = sock.state
      ∧ (timeout_send send_seg sock trace).sock.fd_closed = sock.fd_closed
      ∧ ∃ j, (timeout_send send_seg sock trace).sock.sent
          = sock.sent ++ List.replicate (j + 1) send_seg := by
  induction trace with
  | nil =>
    intro sock
    refine ⟨rfl, rfl, rfl, rfl, 0, ?_⟩
    simp [timeout_send, Outcome.sock, ReliableSocket.sock_send, set_timeout_length]
  | cons ev rest ih =>
    intro sock
    cases ev with
    | timeout e =>
      refine ⟨rfl, rfl, rfl, rfl, 0, ?_⟩
      simp [timeout_send, Outcome.sock, ReliableSocket.sock_send, set_timeout_length]
    | error e =>
      refine ⟨rfl, rfl, rfl, rfl, 0, ?_⟩
      simp [timeout_send, Outcome.sock, ReliableSocket.sock_send, set_timeout_length]
    | datagram e c s =>
      simp only [timeout_send]
      obtain ⟨h1, h2, h3, h4, j, h5⟩ := ih (set_timeout_length (sock.sock_send send_seg)
        (to_uint32 (sock.estimated_rtt + sock.dev_rtt * 4)))
      refine ⟨h1, h2, h3, h4, j + 1, ?_⟩
      rw [h5]
      simp [set_timeout_length, ReliableSocket.sock_send, List.replicate_succ]

/-- What the loop of `receive_data` does to the counters: `expected_sequence_number` is
never written, and `sequence_number` moves only by the one increment before a return. -/
theorem receive_data_loop_frame (buffer : List Nat) (trace : List RecvResult) :
    ∀ (sock : ReliableSocket),
      (receive_data_loop buffer sock trace).sock.expected_sequence_number
          = sock.expected_sequence_number
      ∧ (receive_data_loop buffer sock trace).sock.fd_closed = sock.fd_closed
      ∧ ((receive_data_loop buffer sock trace).sock.sequence_number = sock.sequence_number
        ∨ (receive_data_loop buffer sock trace).sock.sequence_number
            = (sock.sequence_number + 1) % 2 ^ 32) := by
  induction trace with
  | nil =>
    intro sock
    exact ⟨rfl, rfl, Or.inl rfl⟩
  | cons ev rest ih =>
    intro sock
    cases ev with
    | timeout e => exact ⟨rfl, rfl, Or.inl rfl⟩
    | error e => exact ⟨rfl, rfl, Or.inl rfl⟩
    | datagram e c s =>
      simp only [receive_data_loop]
      split
      · exact ih sock
      · split
        · have hfr := timeout_send_frame close_ack_segment rest sock
          cases h : timeout_send close_ack_segment sock rest with
          | returned v s1 r =>
            rw [h] at hfr
            exact ⟨hfr.2.1, hfr.2.2.2.1, Or.inl hfr.1⟩
          | blocked s1 =>
            rw [h] at hfr
            exact ⟨hfr.2.1, hfr.2.2.2.1, Or.inl hfr.1⟩
          | exited s1 =>
            rw [h] at hfr
            exact ⟨hfr.2.1, hfr.2.2.2.1, Or.inl hfr.1⟩
          | undefined s1 =>
            rw [h] at hfr
            exact ⟨hfr.2.1, hfr.2.2.2.1, Or.inl hfr.1⟩
        · split
          · split
            · exact ⟨rfl, rfl, Or.inr rfl⟩
            · exact ⟨rfl, rfl, Or.inr rfl⟩
          · exact ih (sock.sock_send (ack_segment s.sequence_number))

theorem send_data_of_established (sock : ReliableSocket) (data : List Nat)
    (trace : List RecvResult) (hst : sock.state = .ESTABLISHED)
    (hfit : RDT_HEADER_SIZE + data.length ≤ MAX_SEG_SIZE) :
    send_data sock data trace
      = send_data_loop (zero_segment data.length) (trace.length + 1)
          (sock.sock_send (data_segment sock.sequence_number data)) trace := by
  have hnot : ¬ (MAX_SEG_SIZE < RDT_HEADER_SIZE + data.length) := by omega
  simp only [send_data, hst, ne_eq, not_true_eq_false, if_false, hnot]

theorem send_all_of_not_returned (data : List Nat) (more : List (List Nat))
    (sock : ReliableSocket) (trace : List RecvResult)
    (h : (send_data sock data trace).hasReturned = false) :
    send_all (data :: more) sock trace = send_data sock data trace := by
  unfold send_all
  cases hsd : send_data sock data trace with
  | returned v s r => rw [hsd] at h; simp [Outcome.hasReturned] at h
  | blocked s => rfl
  | exited s => rfl
  | undefined s => rfl

theorem send_data_sent (sock : ReliableSocket) (data : List Nat) (trace : List RecvResult)
    (hst : sock.state = .ESTABLISHED) (hfit : RDT_HEADER_SIZE + data.length ≤ MAX_SEG_SIZE) :
    ∃ k, 1 ≤ k
      ∧ (send_data sock data trace).sock.sent
          = sock.sent ++ data_segment sock.sequence_number data
              :: List.replicate k (zero_segment data.length) := by
  rw [send_data_of_established sock data trace hst hfit]
  obtain ⟨_, _, _, k, hk, hsent⟩ := send_data_loop_frame (zero_segment data.length)
    (trace.length + 1) (sock.sock_send (data_segment sock.sequence_number data)) trace
  refine ⟨k, hk (by omega), ?_⟩
  rw [hsent]
  simp [ReliableSocket.sock_send]

theorem send_data_stalls (sock : ReliableSocket) (data : List Nat) (trace : List RecvResult)
    (hst : sock.state = .ESTABLISHED) (hfit : RDT_HEADER_SIZE + data.length ≤ MAX_SEG_SIZE)
    (hs : sock.sequence_number = 0)
    (hall : ∀ ev ∈ trace, ev.isAckFor 0 = true) :
    (send_data sock data trace).hasReturned = false
    ∧ (send_data sock data trace).sock.sequence_number = 0 := by
  rw [send_data_of_established sock data trace hst hfit]
  have hzero : ∀ elapsed count seg, RecvResult.datagram elapsed count seg ∈ trace →
      seg.type = RDT_ACK → seg.ack_number = 0 := by
    intro e c s hm _
    have := hall _ hm
    simp only [RecvResult.isAckFor, decide_eq_true_eq] at this
    exact this.2
  obtain ⟨hr, hh⟩ := send_data_loop_no_return (zero_segment data.length) (trace.length + 1)
    (sock.sock_send (data_segment sock.sequence_number data)) trace hzero
  refine ⟨hr, ?_⟩
  rcases hh with hh | hh
  · rw [hh]
    exact hs
  · exact hh

/-- On ACKs with ack number 0 the loop of `send_data` transmits once more per ACK and ends
blocked in `recv`. -/
theorem send_data_loop_ack_zero (send_seg : Segment) (trace : List RecvResult)
    (hall : ∀ ev ∈ trace, ev.isAckFor 0 = true) :
    ∀ (fuel : Nat) (sock : ReliableSocket), trace.length < fuel → sock.sequence_number = 0 →
      ∃ sock1, send_data_loop send_seg fuel sock trace = .blocked sock1
        ∧ sock1.sequence_number = 0
        ∧ sock1.sent = sock.sent ++ List.replicate (trace.length + 1) send_seg := by
  induction trace with
  | nil =>
    intro fuel sock hlt hs
    cases fuel with
    | zero => simp at hlt
    | succ f =>
      refine ⟨(set_timeout_length sock
          (to_uint32 (sock.estimated_rtt + 4 * sock.dev_rtt))).sock_send send_seg, ?_, ?_, ?_⟩
      · rw [send_data_loop_succ]
        simp only [reliable_send, reliable_send_loop]
      · simpa [ReliableSocket.sock_send, set_timeout_length] using hs
      · simp [ReliableSocket.sock_send, set_timeout_length]
  | cons ev rest ih =>
    intro fuel sock hlt hs
    have hev := hall ev (List.mem_cons_self _ _)
    have hrest : ∀ e ∈ rest, e.isAckFor 0 = true := fun e he => hall e (List.mem_cons_of_mem _ he)
    cases fuel with
    | zero => simp at hlt
    | succ f =>
      cases ev with
      | timeout e => simp [RecvResult.isAckFor] at hev
      | error e => simp [RecvResult.isAckFor] at hev
      | datagram e c seg =>
        simp only [RecvResult.isAckFor, decide_eq_true_eq] at hev
        obtain ⟨hty, hz⟩ := hev
        rw [send_data_loop_succ]
        simp only [reliable_send, reliable_send_loop, hty, hz, ne_eq, not_true_eq_false,
          if_true, if_false]
        obtain ⟨sock1, h1, h2, h3⟩ := ih hrest f
          { set_estimated_rtt
              { (set_timeout_length sock
                  (to_uint32 (sock.estimated_rtt + 4 * sock.dev_rtt))).sock_send send_seg with
                current_rtt := (e : Int) } with
            sequence_number := 0 }
          (by simp at hlt; omega) rfl
        refine ⟨sock1, h1, h2, ?_⟩
        rw [h3]
        simp [set_estimated_rtt, set_timeout_length, ReliableSocket.sock_send,
          List.replicate_succ]

/-- A receiver whose counter is not 0 acknowledges every zero-filled segment and returns none. -/
theorem receive_data_loop_zero_segments (buffer : List Nat) (n k : Nat) :
    ∀ (sock : ReliableSocket), sock.sequence_number ≠ 0 →
      receive_data_loop buffer sock (List.replicate k (RecvResult.arrival 0 (zero_segment n)))
        = .blocked { sock with sent := sock.sent ++ List.replicate k (ack_segment 0) } := by
  induction k with
  | zero =>
    intro sock _
    simp [receive_data_loop]
  | succ k ih =>
    intro sock hne
    have hstep := receive_data_loop_reject sock buffer 0 (RDT_HEADER_SIZE + n) (zero_segment n)
      (List.replicate k (RecvResult.arrival 0 (zero_segment n)))
      (by simp [zero_segment]) (by simp [zero_segment])
      (by simpa [zero_segment] using hne.symm)
    have hshape : List.replicate (k + 1) (RecvResult.arrival 0 (zero_segment n))
        = RecvResult.datagram 0 (RDT_HEADER_SIZE + n) (zero_segment n)
            :: List.replicate k (RecvResult.arrival 0 (zero_segment n)) := by
      simp [List.replicate_succ, RecvResult.arrival, zero_segment]
    rw [hshape, hstep, ih _ (by simpa [ReliableSocket.sock_send] using hne)]
    simp [ReliableSocket.sock_send, zero_segment, List.replicate_succ]

theorem receive_all_zero_segments (n k calls : Nat) (sock : ReliableSocket)
    (hst : sock.state = .ESTABLISHED) (hne : sock.sequence_number ≠ 0) :
    (receive_all calls sock (List.replicate k (RecvResult.arrival 0 (zero_segment n)))).1 = []
    ∧ ∃ j, (receive_all calls sock
        (List.replicate k (RecvResult.arrival 0 (zero_segment n)))).2.sent
          = sock.sent ++ List.replicate j (ack_segment 0) := by
  cases calls with
  | zero => exact ⟨rfl, 0, by simp [receive_all]⟩
  | succ c =>
    unfold receive_all
    rw [receive_data_of_established _ _ _ hst, receive_data_loop_zero_segments _ _ _ _ hne]
    exact ⟨rfl, k, rfl⟩

/-- What the receiver does with the segments of one stalled `send_data`: it hands the
payload over once and acknowledges every segment with ack number 0. -/
theorem receive_all_stalled (data : List Nat) (k calls : Nat) :
    (receive_all (calls + 1) established
        ((data_segment 0 data :: List.replicate k (zero_segment data.length)).map
          (RecvResult.arrival 0))).1 = [data]
    ∧ ∃ j, (receive_all (calls + 1) established
        ((data_segment 0 data :: List.replicate k (zero_segment data.length)).map
          (RecvResult.arrival 0))).2.sent = List.replicate j (ack_segment 0) := by
  have hacc := receive_data_loop_accept established (List.replicate MAX_DATA_SIZE 0) 0
    (data_segment 0 data)
    (List.replicate k (RecvResult.arrival 0 (zero_segment data.length)))
    (by simp [data_segment]) (by simp [data_segment]) rfl
  obtain ⟨hnone, j, hj⟩ := receive_all_zero_segments data.length k calls
    { established with
      sequence_number := (established.sequence_number + 1) % 2 ^ 32,
      sent := established.sent ++ [ack_segment (data_segment 0 data).sequence_number] }
    rfl (by show (0 + 1) % 2 ^ 32 ≠ 0; decide)
  unfold receive_all
  rw [List.map_cons, List.map_replicate, receive_data_of_established _ _ _ rfl, hacc]
  simp only [hnone, hj]
  refine ⟨?_, j + 1, ?_⟩
  · simp [data_segment]
  · simp [established, ReliableSocket.new, data_segment, List.replicate_succ]

theorem exchange_succ (payloads : List (List Nat)) (calls r : Nat) :
    exchange payloads calls (r + 1)
      = ((receive_all calls established
            ((send_all payloads established (exchange payloads calls r).1).sock.sent.map
              (RecvResult.arrival 0))).2.sent.map (RecvResult.arrival 0),
          (send_all payloads established (exchange payloads calls r).1).sock.sent.map
            (RecvResult.arrival 0)) := by
  simp only [exchange]

/-- In every round the sender has read nothing but ACKs with ack number 0 and the receiver
nothing but the segments of the first `send_data`. -/
theorem exchange_invariant (data : List Nat) (more : List (List Nat)) (calls : Nat)
    (hfit : RDT_HEADER_SIZE + data.length ≤ MAX_SEG_SIZE) :
    ∀ r, (∀ ev ∈ (exchange (data :: more) calls r).1, ev.isAckFor 0 = true)
      ∧ ((exchange (data :: more) calls r).2 = []
        ∨ ∃ k, (exchange (data :: more) calls r).2
            = (data_segment 0 data :: List.replicate k (zero_segment data.length)).map
                (RecvResult.arrival 0)) := by
  intro r
  induction r with
  | zero => exact ⟨by simp [exchange], Or.inl rfl⟩
  | succ r ih =>
    obtain ⟨hacks, _⟩ := ih
    have hstall := send_data_stalls established data (exchange (data :: more) calls r).1 rfl hfit
      rfl hacks
    obtain ⟨k, _, hsent⟩ := send_data_sent established data (exchange (data :: more) calls r).1
      rfl hfit
    have hall := send_all_of_not_returned data more established
      (exchange (data :: more) calls r).1 hstall.1
    have hshape : (send_all (data :: more) established
        (exchange (data :: more) calls r).1).sock.sent
          = data_segment 0 data :: List.replicate k (zero_segment data.length) := by
      rw [hall, hsent]
      rfl
    rw [exchange_succ, hshape]
    refine ⟨?_, Or.inr ⟨k, rfl⟩⟩
    cases calls with
    | zero => simp [receive_all, established, ReliableSocket.new]
    | succ c =>
      obtain ⟨_, j, hj⟩ := receive_all_stalled data k c
      simp only
      rw [hj]
      intro ev hev
      simp only [List.map_replicate, List.mem_replicate] at hev
      rw [hev.2]
      decide

/-! ## C1: two endpoints on a loss-free transport -/

/-- C1 fails on the code, already for the first payload: on a transport that delivers every
segment exactly once and in order, however long the exchange runs, the first `send_data`
of a new connection has not returned (so no later payload is ever sent) and the receiver
has handed over nothing or the first payload only. -/
theorem first_send_never_returns (data : List Nat) (more : List (List Nat)) (calls r : Nat)
    (hfit : RDT_HEADER_SIZE + data.length ≤ MAX_SEG_SIZE) :
    (send_data established data (exchange (data :: more) calls r).1).hasReturned = false
    ∧ (send_all (data :: more) established (exchange (data :: more) calls r).1).hasReturned
        = false
    ∧ ((receive_all calls established (exchange (data :: more) calls r).2).1 = []
      ∨ (receive_all calls established (exchange (data :: more) calls r).2).1 = [data]) := by
  obtain ⟨hacks, hrecv⟩ := exchange_invariant data more calls hfit r
  have hstall := send_data_stalls established data (exchange (data :: more) calls r).1 rfl hfit
    rfl hacks
  have hall := send_all_of_not_returned data more established
    (exchange (data :: more) calls r).1 hstall.1
  refine ⟨hstall.1, by rw [hall]; exact hstall.1, ?_⟩
  cases calls with
  | zero => exact Or.inl rfl
  | succ c =>
    rcases hrecv with h | ⟨k, h⟩
    · rw [h]
      exact Or.inl rfl
    · rw [h]
      exact Or.inr (receive_all_stalled data k c).1

/-- C1 at the payloads "A", "BB", "CCC", three `receive_data` calls, three rounds. -/
theorem first_send_never_returns_witness :
    RDT_HEADER_SIZE + [65].length ≤ MAX_SEG_SIZE
    ∧ (send_data established [65]
          (exchange ([65] :: [[66, 66], [67, 67, 67]]) 3 3).1).hasReturned = false
    ∧ (send_all ([65] :: [[66, 66], [67, 67, 67]]) established
          (exchange ([65] :: [[66, 66], [67, 67, 67]]) 3 3).1).hasReturned = false
    ∧ ((receive_all 3 established (exchange ([65] :: [[66, 66], [67, 67, 67]]) 3 3).2).1 = []
      ∨ (receive_all 3 established (exchange ([65] :: [[66, 66], [67, 67, 67]]) 3 3).2).1
          = [[65]]) :=
  ⟨by decide, first_send_never_returns [65] [[66, 66], [67, 67, 67]] 3 3 (by decide)⟩

/-! ## C2, C3: `receive_data` and DATA segments -/

/-- C2 fails as stated: on a fresh established connection a DATA segment numbered 0, the
value of `expected_sequence_number`, is returned to the caller but leaves
`expected_sequence_number` at 0; and once `sequence_number` is 1 a DATA segment numbered
like `expected_sequence_number` (still 0) is not returned at all. -/
theorem receive_data_in_sequence_counterexample :
    established.state = .ESTABLISHED
    ∧ (data_segment 0 [65]).sequence_number = established.expected_sequence_number
    ∧ (receive_data established [7] [.arrival 0 (data_segment 0 [65])]).hasReturned = true
    ∧ (receive_data established [7]
          [.arrival 0 (data_segment 0 [65])]).sock.expected_sequence_number
        ≠ established.expected_sequence_number + 1
    ∧ (data_segment 0 [65]).sequence_number
        = ({ established with sequence_number := 1 } : ReliableSocket).expected_sequence_number
    ∧ (receive_data { established with sequence_number := 1 } [7]
          [.arrival 0 (data_segment 0 [65])]).hasReturned = false := by
  decide

/-- C2, amended: on an established connection a DATA segment whose sequence number equals
`sequence_number` (the counter `receive_data` compares with) makes `receive_data` send
exactly one ACK, whose ack number is that sequence number, increment `sequence_number` by
one (modulo 2^32), leave `expected_sequence_number` as it was, copy the payload to the
start of the caller's buffer and return the payload length, which is the number of bytes
received minus the header size. -/
theorem receive_data_in_sequence (sock : ReliableSocket) (buffer : List Nat) (elapsed : Nat)
    (seg : Segment) (rest : List RecvResult) (hst : sock.state = .ESTABLISHED)
    (hty : seg.type = RDT_DATA) (hseq : seg.sequence_number = sock.sequence_number) :
    receive_data sock buffer (.arrival elapsed seg :: rest)
      = .returned ((seg.data.length : Int), seg.data ++ buffer.drop seg.data.length)
          { sock with
            sequence_number := (sock.sequence_number + 1) % 2 ^ 32,
            sent := sock.sent ++ [ack_segment seg.sequence_number] } rest
    ∧ (ack_segment seg.sequence_number).type = RDT_ACK
    ∧ (ack_segment seg.sequence_number).ack_number = seg.sequence_number
    ∧ (seg.data.length : Int)
        = ((RDT_HEADER_SIZE + seg.data.length : Nat) : Int) - (RDT_HEADER_SIZE : Int) := by
  refine ⟨?_, rfl, rfl, (recv_size_arrival _).symm⟩
  rw [receive_data_of_established _ _ _ hst]
  exact receive_data_loop_accept sock buffer elapsed seg rest (by rw [hty]; decide)
    (by rw [hty]; decide) hseq

/-- C2, amended, at a new connection and the DATA segment numbered 0 with payload "AB". -/
theorem receive_data_in_sequence_witness :
    established.state = .ESTABLISHED
    ∧ (data_segment 0 [65, 66]).type = RDT_DATA
    ∧ (data_segment 0 [65, 66]).sequence_number = established.sequence_number
    ∧ (receive_data established [7, 7, 7] (.arrival 0 (data_segment 0 [65, 66]) :: [])
        = .returned (((data_segment 0 [65, 66]).data.length : Int),
            (data_segment 0 [65, 66]).data
              ++ [7, 7, 7].drop (data_segment 0 [65, 66]).data.length)
            { established with
              sequence_number := (established.sequence_number + 1) % 2 ^ 32,
              sent := established.sent
                ++ [ack_segment (data_segment 0 [65, 66]).sequence_number] } []
      ∧ (ack_segment (data_segment 0 [65, 66]).sequence_number).type = RDT_ACK
      ∧ (ack_segment (data_segment 0 [65, 66]).sequence_number).ack_number
          = (data_segment 0 [65, 66]).sequence_number
      ∧ ((data_segment 0 [65, 66]).data.length : Int)
          = ((RDT_HEADER_SIZE + (data_segment 0 [65, 66]).data.length : Nat) : Int)
            - (RDT_HEADER_SIZE : Int)) :=
  ⟨rfl, rfl, rfl, receive_data_in_sequence established [7, 7, 7] 0 (data_segment 0 [65, 66]) []
    rfl rfl rfl⟩

/-- C3 fails as stated: with `sequence_number` 2 and `expected_sequence_number` 0, a DATA
segment numbered 7 is answered by an ACK for 7, which is neither counter minus one
(modulo 2^32); and a DATA segment numbered 2, which differs from
`expected_sequence_number`, is returned to the caller and written to the buffer. -/
theorem receive_data_out_of_sequence_counterexample :
    (receive_data { established with sequence_number := 2 } [7]
        [.arrival 0 (data_segment 7 [65])]).sock.sent = [ack_segment 7]
    ∧ (ack_segment 7).ack_number
        ≠ (({ established with sequence_number := 2 } : ReliableSocket).expected_sequence_number
            + 2 ^ 32 - 1) % 2 ^ 32
    ∧ (ack_segment 7).ack_number
        ≠ (({ established with sequence_number := 2 } : ReliableSocket).sequence_number
            + 2 ^ 32 - 1) % 2 ^ 32
    ∧ (data_segment 2 [65]).sequence_number
        ≠ ({ established with sequence_number := 2 } : ReliableSocket).expected_sequence_number
    ∧ receive_data { established with sequence_number := 2 } [7]
        [.arrival 0 (data_segment 2 [65])]
        = .returned (1, [65])
            { established with sequence_number := 3, sent := [ack_segment 2] } [] := by
  decide

/-- C3, amended: on an established connection a DATA segment whose sequence number differs
from `sequence_number` (the counter `receive_data` compares with) is answered by one ACK
carrying the segment's own sequence number; both counters and the caller's buffer stay as
they were and the call does not return but goes on with the next `recv`.  So when a DATA
segment numbered `sequence_number` arrives twice in a row, the first copy is returned to
the caller and the second only acknowledged. -/
theorem receive_data_out_of_sequence (sock : ReliableSocket) (buffer : List Nat)
    (elapsed : Nat) (seg : Segment) (rest : List RecvResult)
    (hst : sock.state = .ESTABLISHED) (hty : seg.type = RDT_DATA)
    (hne : seg.sequence_number ≠ sock.sequence_number)
    (sock0 : ReliableSocket) (buffer0 : List Nat) (first again : Nat) (twice : Segment)
    (hst0 : sock0.state = .ESTABLISHED) (hty0 : twice.type = RDT_DATA)
    (heq : twice.sequence_number = sock0.sequence_number) :
    (receive_data sock buffer (.arrival elapsed seg :: rest)
        = receive_data { sock with sent := sock.sent ++ [ack_segment seg.sequence_number] }
            buffer rest
      ∧ (ack_segment seg.sequence_number).type = RDT_ACK
      ∧ (ack_segment seg.sequence_number).ack_number = seg.sequence_number)
    ∧ ∃ sock1 buffer1,
        receive_data sock0 buffer0 (.arrival first twice :: .arrival again twice :: rest)
          = .returned ((twice.data.length : Int), buffer1) sock1 (.arrival again twice :: rest)
        ∧ buffer1.take twice.data.length = twice.data
        ∧ receive_data sock1 buffer1 (.arrival again twice :: rest)
          = receive_data
              { sock1 with sent := sock1.sent ++ [ack_segment twice.sequence_number] }
              buffer1 rest := by
  constructor
  · have hack : seg.type ≠ RDT_ACK := by rw [hty]; decide
    have hclose : seg.type ≠ RDT_CLOSE := by rw [hty]; decide
    refine ⟨?_, rfl, rfl⟩
    rw [receive_data_of_established _ _ _ hst, receive_data_of_established _ _ _ (by exact hst)]
    exact receive_data_loop_reject sock buffer elapsed _ seg rest hack hclose hne
  · have hack : twice.type ≠ RDT_ACK := by rw [hty0]; decide
    have hclose : twice.type ≠ RDT_CLOSE := by rw [hty0]; decide
    refine ⟨{ sock0 with
              sequence_number := (sock0.sequence_number + 1) % 2 ^ 32,
              sent := sock0.sent ++ [ack_segment twice.sequence_number] },
      twice.data ++ buffer0.drop twice.data.length, ?_, ?_, ?_⟩
    · rw [receive_data_of_established _ _ _ hst0]
      exact receive_data_loop_accept sock0 buffer0 first twice _ hack hclose heq
    · simp
    · rw [receive_data_of_established _ _ _ (by exact hst0),
        receive_data_of_established _ _ _ (by exact hst0)]
      refine receive_data_loop_reject _ _ again _ twice rest hack hclose ?_
      show twice.sequence_number ≠ (sock0.sequence_number + 1) % 2 ^ 32
      rw [heq]
      omega

/-- C3, amended, at `sequence_number` 2 with a DATA segment numbered 7, and at a new
connection with the DATA segment numbered 0 arriving twice. -/
theorem receive_data_out_of_sequence_witness :
    ({ established with sequence_number := 2 } : ReliableSocket).state = .ESTABLISHED
    ∧ (data_segment 7 [65]).type = RDT_DATA
    ∧ (data_segment 7 [65]).sequence_number
        ≠ ({ established with sequence_number := 2 } : ReliableSocket).sequence_number
    ∧ established.state = .ESTABLISHED ∧ (data_segment 0 [66]).type = RDT_DATA
    ∧ (data_segment 0 [66]).sequence_number = established.sequence_number
    ∧ ((receive_data { established with sequence_number := 2 } [7]
            (.arrival 0 (data_segment 7 [65]) :: [])
          = receive_data
              { ({ established with sequence_number := 2 } : ReliableSocket) with
                sent := ({ established with sequence_number := 2 } : ReliableSocket).sent
                  ++ [ack_segment (data_segment 7 [65]).sequence_number] }
              [7] []
        ∧ (ack_segment (data_segment 7 [65]).sequence_number).type = RDT_ACK
        ∧ (ack_segment (data_segment 7 [65]).sequence_number).ack_number
            = (data_segment 7 [65]).sequence_number)
      ∧ ∃ sock1 buffer1,
          receive_data established [8]
              (.arrival 0 (data_segment 0 [66]) :: .arrival 1 (data_segment 0 [66]) :: [])
            = .returned (((data_segment 0 [66]).data.length : Int), buffer1) sock1
                (.arrival 1 (data_segment 0 [66]) :: [])
          ∧ buffer1.take (data_segment 0 [66]).data.length = (data_segment 0 [66]).data
          ∧ receive_data sock1 buffer1 (.arrival 1 (data_segment 0 [66]) :: [])
            = receive_data
                { sock1 with
                  sent := sock1.sent ++ [ack_segment (data_segment 0 [66]).sequence_number] }
                buffer1 []) :=
  ⟨rfl, rfl, by decide, rfl, rfl, rfl,
    receive_data_out_of_sequence { established with sequence_number := 2 } [7] 0
      (data_segment 7 [65]) [] rfl rfl (by decide) established [8] 0 1 (data_segment 0 [66])
      rfl rfl rfl⟩

/-! ## C4, C5, C6: `send_data` -/

/-- C4 fails on the code when `sequence_number` is 0, as it is on every new connection:
however many ACKs with ack number 0 arrive in reply, `send_data` does not return.  After
the DATA segment it transmits once per ACK and once more, and ends blocked in `recv` with
`sequence_number` still 0 (line 336 assigns the ack number to `sequence_number` and tests
the value assigned). -/
theorem send_data_ack_zero (sock : ReliableSocket) (data : List Nat) (trace : List RecvResult)
    (hst : sock.state = .ESTABLISHED) (hfit : RDT_HEADER_SIZE + data.length ≤ MAX_SEG_SIZE)
    (hs : sock.sequence_number = 0)
    (hall : ∀ ev ∈ trace, ev.isAckFor sock.sequence_number = true) :
    ∃ sock1, send_data sock data trace = .blocked sock1
      ∧ sock1.sequence_number = 0
      ∧ sock1.sent = sock.sent ++ data_segment 0 data
          :: List.replicate (trace.length + 1) (zero_segment data.length) := by
  rw [hs] at hall
  rw [send_data_of_established sock data trace hst hfit]
  obtain ⟨sock1, h1, h2, h3⟩ := send_data_loop_ack_zero (zero_segment data.length) trace hall
    (trace.length + 1) (sock.sock_send (data_segment sock.sequence_number data))
    (by omega) hs
  refine ⟨sock1, h1, h2, ?_⟩
  rw [h3, hs]
  simp [ReliableSocket.sock_send]

/-- C4 at a new connection, payload "A", two ACKs with ack number 0. -/
theorem send_data_ack_zero_witness :
    established.state = .ESTABLISHED ∧ RDT_HEADER_SIZE + [65].length ≤ MAX_SEG_SIZE
    ∧ established.sequence_number = 0
    ∧ (∀ ev ∈ [RecvResult.arrival 3 (ack_segment 0), RecvResult.arrival 3 (ack_segment 0)],
        ev.isAckFor established.sequence_number = true)
    ∧ ∃ sock1,
        send_data established [65]
            [RecvResult.arrival 3 (ack_segment 0), RecvResult.arrival 3 (ack_segment 0)]
          = .blocked sock1
        ∧ sock1.sequence_number = 0
        ∧ sock1.sent = established.sent ++ data_segment 0 [65]
            :: List.replicate
                ([RecvResult.arrival 3 (ack_segment 0),
                  RecvResult.arrival 3 (ack_segment 0)].length + 1)
                (zero_segment [65].length) :=
  ⟨rfl, by decide, rfl, by decide,
    send_data_ack_zero established [65]
      [RecvResult.arrival 3 (ack_segment 0), RecvResult.arrival 3 (ack_segment 0)] rfl
      (by decide) rfl (by decide)⟩

/-- C5 fails on the code: an ACK whose ack number `a` differs from `sequence_number` is not
discarded.  If `a` is not 0, `send_data` returns on it and leaves `sequence_number` at
`a + 1` (modulo 2^32), which is not the successor of the number it sent; if `a` is 0,
`send_data` goes on waiting but has set `sequence_number` to 0 (line 336 assigns where the
claim compares). -/
theorem send_data_other_ack (sock : ReliableSocket) (data : List Nat) (elapsed count : Nat)
    (seg : Segment) (rest : List RecvResult)
    (hst : sock.state = .ESTABLISHED) (hfit : RDT_HEADER_SIZE + data.length ≤ MAX_SEG_SIZE)
    (hs : sock.sequence_number < 2 ^ 32) (ha : seg.ack_number < 2 ^ 32)
    (hty : seg.type = RDT_ACK) (hne : seg.ack_number ≠ sock.sequence_number)
    (hnz : seg.ack_number ≠ 0)
    (zero : Segment) (hty0 : zero.type = RDT_ACK) (hz : zero.ack_number = 0)
    (hne0 : zero.ack_number ≠ sock.sequence_number) :
    (∃ sock1,
        send_data sock data (.datagram elapsed count seg :: rest) = .returned () sock1 rest
        ∧ sock1.sequence_number = (seg.ack_number + 1) % 2 ^ 32
        ∧ sock1.sequence_number ≠ (sock.sequence_number + 1) % 2 ^ 32)
    ∧ ∃ sock1,
        send_data sock data (.datagram elapsed count zero :: []) = .blocked sock1
        ∧ sock1.sequence_number = 0
        ∧ sock1.sequence_number ≠ sock.sequence_number := by
  constructor
  · rw [send_data_of_established sock data _ hst hfit, send_data_loop_succ]
    simp only [reliable_send, reliable_send_loop, hty, hnz, ne_eq, not_false_eq_true, if_true]
    refine ⟨_, rfl, rfl, ?_⟩
    show (seg.ack_number + 1) % 2 ^ 32 ≠ (sock.sequence_number + 1) % 2 ^ 32
    omega
  · rw [send_data_of_established sock data _ hst hfit, send_data_loop_succ]
    simp only [reliable_send, reliable_send_loop, hty0, hz, ne_eq, not_true_eq_false, if_true,
      if_false, List.length_cons, List.length_nil, send_data_loop_succ]
    refine ⟨_, rfl, rfl, ?_⟩
    show (0 : Nat) ≠ sock.sequence_number
    rw [← hz]
    exact hne0

/-- C5 at `sequence_number` 5, payload "A", with the reply ACK 2 and with the reply ACK 0. -/
theorem send_data_other_ack_witness :
    ({ established with sequence_number := 5 } : ReliableSocket).state = .ESTABLISHED
    ∧ RDT_HEADER_SIZE + [65].length ≤ MAX_SEG_SIZE
    ∧ ({ established with sequence_number := 5 } : ReliableSocket).sequence_number < 2 ^ 32
    ∧ (ack_segment 2).ack_number < 2 ^ 32
    ∧ (ack_segment 2).type = RDT_ACK
    ∧ (ack_segment 2).ack_number
        ≠ ({ established with sequence_number := 5 } : ReliableSocket).sequence_number
    ∧ (ack_segment 2).ack_number ≠ 0
    ∧ (ack_segment 0).type = RDT_ACK ∧ (ack_segment 0).ack_number = 0
    ∧ (ack_segment 0).ack_number
        ≠ ({ established with sequence_number := 5 } : ReliableSocket).sequence_number
    ∧ (∃ sock1,
          send_data { established with sequence_number := 5 } [65]
              (.datagram 3 9 (ack_segment 2) :: [])
            = .returned () sock1 []
          ∧ sock1.sequence_number = ((ack_segment 2).ack_number + 1) % 2 ^ 32
          ∧ sock1.sequence_number
              ≠ (({ established with sequence_number := 5 } : ReliableSocket).sequence_number
                  + 1) % 2 ^ 32)
    ∧ ∃ sock1,
        send_data { established with sequence_number := 5 } [65]
            (.datagram 3 9 (ack_segment 0) :: [])
          = .blocked sock1
        ∧ sock1.sequence_number = 0
        ∧ sock1.sequence_number
            ≠ ({ established with sequence_number := 5 } : ReliableSocket).sequence_number :=
  ⟨rfl, by decide, by decide, by decide, rfl, by decide, by decide, rfl, rfl, by decide,
    send_data_other_ack { established with sequence_number := 5 } [65] 3 9 (ack_segment 2) []
      rfl (by decide) (by decide) (by decide) rfl (by decide) (by decide) (ack_segment 0)
      rfl rfl (by decide)⟩

/-- C6 fails on the code: only the first segment `send_data` hands to the transport is the
DATA segment with the entry value of `sequence_number` and the caller's payload.  Every
segment `reliable_send` transmits for it, and there is at least one, is the zero-filled
`send_seg`: type 0 (CONN), sequence number 0, payload bytes 0. -/
theorem send_data_segments (sock : ReliableSocket) (data : List Nat) (trace : List RecvResult)
    (hst : sock.state = .ESTABLISHED) (hfit : RDT_HEADER_SIZE + data.length ≤ MAX_SEG_SIZE) :
    ∃ k, 1 ≤ k
      ∧ (send_data sock data trace).sock.sent
          = sock.sent ++ data_segment sock.sequence_number data
              :: List.replicate k (zero_segment data.length)
      ∧ (zero_segment data.length).type = RDT_CONN
      ∧ (zero_segment data.length).type ≠ RDT_DATA
      ∧ (zero_segment data.length).sequence_number = 0
      ∧ (zero_segment data.length).data = List.replicate data.length 0 := by
  obtain ⟨k, hk, hsent⟩ := send_data_sent sock data trace hst hfit
  exact ⟨k, hk, hsent, rfl, by simp [zero_segment], rfl, rfl⟩

/-- C6 at `sequence_number` 3, payload "A", one timeout and then ACK 3. -/
theorem send_data_segments_witness :
    ({ established with sequence_number := 3 } : ReliableSocket).state = .ESTABLISHED
    ∧ RDT_HEADER_SIZE + [65].length ≤ MAX_SEG_SIZE
    ∧ ∃ k, 1 ≤ k
      ∧ (send_data { established with sequence_number := 3 } [65]
            [.timeout 140, .arrival 3 (ack_segment 3)]).sock.sent
          = ({ established with sequence_number := 3 } : ReliableSocket).sent
            ++ data_segment ({ established with sequence_number := 3 } : ReliableSocket
                ).sequence_number [65]
              :: List.replicate k (zero_segment [65].length)
      ∧ (zero_segment [65].length).type = RDT_CONN
      ∧ (zero_segment [65].length).type ≠ RDT_DATA
      ∧ (zero_segment [65].length).sequence_number = 0
      ∧ (zero_segment [65].length).data = List.replicate [65].length 0 :=
  ⟨rfl, by decide,
    send_data_segments { established with sequence_number := 3 } [65]
      [.timeout 140, .arrival 3 (ack_segment 3)] rfl (by decide)⟩

/-! ## C7, C8: `receive_data` and other segment types -/

/-- C7: on an established connection, when `receive_data` reads a segment of type CLOSE it
sends an ACK (and sends it again after each further datagram, until a `recv` times out),
sets the state to FIN, leaves both sequence counters and the caller's buffer as they were,
and returns 0. -/
theorem receive_data_close (sock : ReliableSocket) (buffer : List Nat) (elapsed count : Nat)
    (seg : Segment) (replies : List RecvResult) (quiet : Nat) (rest : List RecvResult)
    (hst : sock.state = .ESTABLISHED) (hty : seg.type = RDT_CLOSE)
    (hrep : ∀ ev ∈ replies, ev.isDatagram = true) :
    receive_data sock buffer (.datagram elapsed count seg :: (replies ++ .timeout quiet :: rest))
      = .returned (0, buffer)
          { sock with
            state := .FIN,
            sent := sock.sent ++ List.replicate (replies.length + 1) close_ack_segment,
            timeouts := sock.timeouts ++ List.replicate (replies.length + 1)
              (to_uint32 (sock.estimated_rtt + sock.dev_rtt * 4)) } rest
    ∧ close_ack_segment.type = RDT_ACK := by
  refine ⟨?_, rfl⟩
  rw [receive_data_of_established _ _ _ hst]
  have hnack : seg.type ≠ RDT_ACK := by rw [hty]; decide
  simp only [receive_data_loop, if_neg hnack, hty, if_true]
  rw [timeout_send_until_quiet close_ack_segment replies hrep sock quiet rest]
  simp

/-- C7 at a new connection: CLOSE, one more datagram, then a timeout. -/
theorem receive_data_close_witness :
    established.state = .ESTABLISHED ∧ close_segment.type = RDT_CLOSE
    ∧ (∀ ev ∈ [RecvResult.arrival 3 close_segment], ev.isDatagram = true)
    ∧ (receive_data established [7]
          (.datagram 0 9 close_segment
            :: ([RecvResult.arrival 3 close_segment] ++ .timeout 140 :: []))
        = .returned (0, [7])
            { established with
              state := .FIN,
              sent := established.sent
                ++ List.replicate ([RecvResult.arrival 3 close_segment].length + 1)
                    close_ack_segment,
              timeouts := established.timeouts
                ++ List.replicate ([RecvResult.arrival 3 close_segment].length + 1)
                    (to_uint32 (established.estimated_rtt + established.dev_rtt * 4)) } []
      ∧ close_ack_segment.type = RDT_ACK) :=
  ⟨rfl, rfl, by decide,
    receive_data_close established [7] 0 9 close_segment [RecvResult.arrival 3 close_segment]
      140 [] rfl rfl (by decide)⟩

/-- C8 fails on the code (the claim is what the loop's comments intend): a segment of type
CONN or SYNACK is not discarded.  When its sequence number equals `sequence_number`,
`receive_data` answers it with an ACK, increments `sequence_number`, writes the bytes after
the header to the caller's buffer and returns; otherwise it still answers with an ACK
before it goes on waiting. -/
theorem receive_data_handshake_segment (sock : ReliableSocket) (buffer : List Nat)
    (elapsed : Nat) (seg other : Segment) (rest : List RecvResult)
    (hst : sock.state = .ESTABLISHED) (hty : seg.type = RDT_CONN ∨ seg.type = RDT_SYNACK)
    (heq : seg.sequence_number = sock.sequence_number)
    (hty2 : other.type = RDT_CONN ∨ other.type = RDT_SYNACK)
    (hne : other.sequence_number ≠ sock.sequence_number) :
    receive_data sock buffer (.arrival elapsed seg :: rest)
        = .returned ((seg.data.length : Int), seg.data ++ buffer.drop seg.data.length)
            { sock with
              sequence_number := (sock.sequence_number + 1) % 2 ^ 32,
              sent := sock.sent ++ [ack_segment seg.sequence_number] } rest
    ∧ receive_data sock buffer (.arrival elapsed other :: rest)
        = receive_data { sock with sent := sock.sent ++ [ack_segment other.sequence_number] }
            buffer rest := by
  constructor
  · have hack : seg.type ≠ RDT_ACK := by rcases hty with h | h <;> rw [h] <;> decide
    have hclose : seg.type ≠ RDT_CLOSE := by rcases hty with h | h <;> rw [h] <;> decide
    rw [receive_data_of_established _ _ _ hst]
    exact receive_data_loop_accept sock buffer elapsed seg rest hack hclose heq
  · have hack : other.type ≠ RDT_ACK := by rcases hty2 with h | h <;> rw [h] <;> decide
    have hclose : other.type ≠ RDT_CLOSE := by rcases hty2 with h | h <;> rw [h] <;> decide
    rw [receive_data_of_established _ _ _ hst, receive_data_of_established _ _ _ (by exact hst)]
    exact receive_data_loop_reject sock buffer elapsed _ other rest hack hclose hne

/-- C8 at a new connection: a SYNACK numbered 0, and a CONN numbered 9. -/
theorem receive_data_handshake_segment_witness :
    established.state = .ESTABLISHED
    ∧ (stray_synack.type = RDT_CONN ∨ stray_synack.type = RDT_SYNACK)
    ∧ stray_synack.sequence_number = established.sequence_number
    ∧ (stray_conn.type = RDT_CONN ∨ stray_conn.type = RDT_SYNACK)
    ∧ stray_conn.sequence_number ≠ established.sequence_number
    ∧ receive_data established [7] (.arrival 0 stray_synack :: [])
        = .returned ((stray_synack.data.length : Int),
            stray_synack.data ++ [7].drop stray_synack.data.length)
            { established with
              sequence_number := (established.sequence_number + 1) % 2 ^ 32,
              sent := established.sent ++ [ack_segment stray_synack.sequence_number] } []
    ∧ receive_data established [7] (.arrival 0 stray_conn :: [])
        = receive_data
            { established with
              sent := established.sent ++ [ack_segment stray_conn.sequence_number] }
            [7] [] :=
  ⟨rfl, Or.inr rfl, rfl, Or.inl rfl, by decide,
    receive_data_handshake_segment established [7] 0 stray_synack stray_conn [] rfl
      (Or.inr rfl) rfl (Or.inl rfl) (by decide)⟩

/-! ## C9: sockets that are not established -/

/-- C9: on a connection whose state is not ESTABLISHED, `send_data` and `receive_data`
return at once: no segment is sent and no `recv` result is read (the trace comes back
whole), the socket record (state, both sequence counters, RTT statistics, transport log)
is unchanged, and `receive_data` returns 0 with the caller's buffer untouched. -/
theorem not_established_returns_at_once (sock : ReliableSocket) (data buffer : List Nat)
    (trace : List RecvResult) (h : sock.state ≠ .ESTABLISHED) :
    send_data sock data trace = .returned () sock trace
    ∧ receive_data sock buffer trace = .returned (0, buffer) sock trace := by
  simp [send_data, receive_data, h]

/-- C9 at a socket fresh from the constructor (state INIT). -/
theorem not_established_returns_at_once_witness :
    ReliableSocket.new.state ≠ .ESTABLISHED
    ∧ (send_data ReliableSocket.new [65] [.arrival 0 (ack_segment 0)]
          = .returned () ReliableSocket.new [.arrival 0 (ack_segment 0)]
      ∧ receive_data ReliableSocket.new [7] [.arrival 0 (ack_segment 0)]
          = .returned (0, [7]) ReliableSocket.new [.arrival 0 (ack_segment 0)]) :=
  ⟨by decide, not_established_returns_at_once ReliableSocket.new [65] [7]
    [.arrival 0 (ack_segment 0)] (by decide)⟩

/-! ## C10: the two counters -/

/-- C10 fails as stated: `receive_data` changes `sequence_number`, the number `send_data`
stamps on the next DATA segment (here from 0 to 1, so the next segment sent carries 1). -/
theorem counters_independent_counterexample :
    (receive_data established [7] [.arrival 0 (data_segment 0 [65])]).sock.sequence_number
      ≠ established.sequence_number
    ∧ (send_data
          (receive_data established [7] [.arrival 0 (data_segment 0 [65])]).sock [66] []).sock.sent
        = [ack_segment 0, data_segment 1 [66], zero_segment 1] := by
  decide

/-- C10, amended: for every connection and every incoming trace, neither `receive_data` nor
`send_data` changes `expected_sequence_number`; `receive_data` compares incoming segments
with `sequence_number`, the counter of `send_data`, and either leaves it as it was or
increments it once (modulo 2^32). -/
theorem expected_sequence_number_unchanged (sock : ReliableSocket) (data buffer : List Nat)
    (trace : List RecvResult) :
    (receive_data sock buffer trace).sock.expected_sequence_number
      = sock.expected_sequence_number
    ∧ (send_data sock data trace).sock.expected_sequence_number = sock.expected_sequence_number
    ∧ ((receive_data sock buffer trace).sock.sequence_number = sock.sequence_number
      ∨ (receive_data sock buffer trace).sock.sequence_number
          = (sock.sequence_number + 1) % 2 ^ 32) := by
  have hrecv := receive_data_loop_frame buffer trace sock
  have hsend := send_data_loop_frame (zero_segment data.length) (trace.length + 1)
    (sock.sock_send (data_segment sock.sequence_number data)) trace
  refine ⟨?_, ?_, ?_⟩
  · unfold receive_data
    split
    · rfl
    · exact hrecv.1
  · unfold send_data
    split
    · rfl
    · split
      · rfl
      · exact hsend.1
  · unfold receive_data
    split
    · exact Or.inl rfl
    · exact hrecv.2.2

/-! ## Lemmas: the loops around `reliable_send` -/

theorem keeps_connection_id : keeps_connection id :=
  fun _ => ⟨rfl, rfl, rfl, rfl, rfl⟩

theorem keeps_connection_set_smoothed_timeout : keeps_connection set_smoothed_timeout :=
  fun _ => ⟨rfl, rfl, rfl, rfl, rfl⟩

theorem reliable_send_until_succ (send_seg : Segment) (stop : Nat → Bool)
    (after : ReliableSocket → ReliableSocket) (fuel : Nat) (sock : ReliableSocket)
    (trace : List RecvResult) :
    reliable_send_until send_seg stop after (fuel + 1) sock trace
      = after_reply stop after (reliable_send_until send_seg stop after fuel)
          (reliable_send_loop send_seg none (set_smoothed_timeout sock) trace) := by
  simp only [reliable_send_until, reliable_send, set_smoothed_timeout]

/-- A loop around `reliable_send` leaves counters, state and socket alone and sends only
`send_seg`. -/
theorem reliable_send_until_frame (send_seg : Segment) (stop : Nat → Bool)
    (after : ReliableSocket → ReliableSocket) (hafter : keeps_connection after) :
    ∀ (fuel : Nat) (sock : ReliableSocket) (trace : List RecvResult),
      (reliable_send_until send_seg stop after fuel sock trace).sock.sequence_number
          = sock.sequence_number
      ∧ (reliable_send_until send_seg stop after fuel sock trace).sock.expected_sequence_number
          = sock.expected_sequence_number
      ∧ (reliable_send_until send_seg stop after fuel sock trace).sock.state = sock.state
      ∧ (reliable_send_until send_seg stop after fuel sock trace).sock.fd_closed
          = sock.fd_closed
      ∧ ∃ k, (fuel ≠ 0 → 1 ≤ k)
        ∧ (reliable_send_until send_seg stop after fuel sock trace).sock.sent
          = sock.sent ++ List.replicate k send_seg := by
  intro fuel
  induction fuel with
  | zero =>
    intro sock trace
    exact ⟨rfl, rfl, rfl, rfl, 0, by simp, by simp [reliable_send_until, Outcome.sock]⟩
  | succ f ih =>
    intro sock trace
    have hfr := reliable_send_loop_frame send_seg trace none (set_smoothed_timeout sock)
    rw [reliable_send_until_succ]
    cases h : reliable_send_loop send_seg none (set_smoothed_timeout sock) trace with
    | returned reply sock1 rest =>
      rw [h] at hfr
      obtain ⟨h1, h2, h3, h4, j, h5⟩ := hfr
      simp only [Outcome.sock, set_smoothed_timeout, set_timeout_length] at h1 h2 h3 h4 h5
      obtain ⟨a1, a2, a3, a4, a5⟩ := hafter sock1
      simp only [after_reply]
      split
      · exact ⟨a1.trans h1, a2.trans h2, a3.trans h3, a4.trans h4, j + 1, by simp,
          by simp only [Outcome.sock]; rw [a5, h5]⟩
      · obtain ⟨g1, g2, g3, g4, k, _, g5⟩ := ih (after sock1) rest
        refine ⟨g1.trans (a1.trans h1), g2.trans (a2.trans h2), g3.trans (a3.trans h3),
          g4.trans (a4.trans h4), j + 1 + k, by simp; omega, ?_⟩
        rw [g5, a5, h5]
        simp only [List.append_assoc, List.replicate_add]
    | blocked s =>
      rw [h] at hfr
      obtain ⟨h1, h2, h3, h4, j, h5⟩ := hfr
      exact ⟨h1, h2, h3, h4, j + 1, by simp, h5⟩
    | exited s =>
      rw [h] at hfr
      obtain ⟨h1, h2, h3, h4, j, h5⟩ := hfr
      exact ⟨h1, h2, h3, h4, j + 1, by simp, h5⟩
    | undefined s =>
      rw [h] at hfr
      obtain ⟨h1, h2, h3, h4, j, h5⟩ := hfr
      exact ⟨h1, h2, h3, h4, j + 1, by simp, h5⟩

/-- A loop around `reliable_send` returns only with a reply that passes its test, and that
reply is a datagram of the trace. -/
theorem reliable_send_until_returned (send_seg : Segment) (stop : Nat → Bool)
    (after : ReliableSocket → ReliableSocket) :
    ∀ (fuel : Nat) (sock sock1 : ReliableSocket) (trace rest : List RecvResult) (count : Nat)
      (seg : Segment),
      reliable_send_until send_seg stop after fuel sock trace = .returned (count, seg) sock1 rest →
      stop seg.type = true ∧ ∃ elapsed, RecvResult.datagram elapsed count seg ∈ trace := by
  intro fuel
  induction fuel with
  | zero =>
    intro sock sock1 trace rest count seg h
    simp [reliable_send_until] at h
  | succ f ih =>
    intro sock sock1 trace rest count seg h
    rw [reliable_send_until_succ] at h
    cases hr : reliable_send_loop send_seg none (set_smoothed_timeout sock) trace with
    | returned reply sock2 rest2 =>
      obtain ⟨c2, seg2⟩ := reply
      obtain ⟨_, hsub, el, hmem⟩ := reliable_send_loop_returned send_seg trace _ _ _ _ _ _ hr
      rw [hr] at h
      simp only [after_reply] at h
      split at h
      · rename_i hstop
        simp only [Outcome.returned.injEq, Prod.mk.injEq] at h
        obtain ⟨⟨hc, hs⟩, _, _⟩ := h
        subst hc hs
        exact ⟨hstop, el, hmem⟩
      · obtain ⟨hstop, e, hm⟩ := ih _ _ _ _ _ _ h
        exact ⟨hstop, e, hsub _ hm⟩
    | blocked s => rw [hr] at h; simp [after_reply] at h
    | exited s => rw [hr] at h; simp [after_reply] at h
    | undefined s => rw [hr] at h; simp [after_reply] at h


/-- A loop around `reliable_send`, entered anywhere in `reliable_send`, on results that all
make it go on and then a reply that passes its test: it sends `send_seg` once for every
result read and returns with that reply. -/
theorem reliable_send_until_run (send_seg : Segment) (stop : Nat → Bool)
    (after : ReliableSocket → ReliableSocket) (hafter : keeps_connection after)
    (elapsed count : Nat) (seg : Segment) (hstop : stop seg.type = true)
    (rest : List RecvResult) (pre : List RecvResult) :
    (∀ ev ∈ pre, ev.retried stop = true) →
    ∀ (fuel : Nat) (doubled : Option Nat) (sock : ReliableSocket), pre.length ≤ fuel →
      ∃ sock1,
        after_reply stop after (reliable_send_until send_seg stop after fuel)
            (reliable_send_loop send_seg doubled sock
              (pre ++ .datagram elapsed count seg :: rest))
          = .returned (count, seg) sock1 rest
        ∧ sock1.sent = sock.sent ++ List.replicate (pre.length + 1) send_seg
        ∧ sock1.state = sock.state ∧ sock1.fd_closed = sock.fd_closed
        ∧ sock1.sequence_number = sock.sequence_number
        ∧ sock1.expected_sequence_number = sock.expected_sequence_number := by
  induction pre with
  | nil =>
    intro _ fuel doubled sock _
    obtain ⟨a1, a2, a3, a4, a5⟩ := hafter
      (set_estimated_rtt { sock.sock_send send_seg with current_rtt := (elapsed : Int) })
    refine ⟨after (set_estimated_rtt
      { sock.sock_send send_seg with current_rtt := (elapsed : Int) }), ?_, ?_, ?_, ?_, ?_, ?_⟩
    · simp only [List.nil_append, reliable_send_loop, after_reply, hstop, if_true]
    · rw [a5]
      simp [set_estimated_rtt, set_timeout_length, ReliableSocket.sock_send]
    · rw [a3]; rfl
    · rw [a4]; rfl
    · rw [a1]; rfl
    · rw [a2]; rfl
  | cons ev pre ih =>
    intro hpre fuel doubled sock hlen
    have hev := hpre ev (List.mem_cons_self _ _)
    have hpre' : ∀ e ∈ pre, e.retried stop = true :=
      fun e he => hpre e (List.mem_cons_of_mem _ he)
    cases ev with
    | timeout e =>
      simp only [List.cons_append, reliable_send_loop]
      obtain ⟨sock1, h0, h1, h2, h3, h4, h5⟩ := ih hpre' fuel
        (some (match doubled with
          | some d => (d * 2) % 2 ^ 32
          | none => to_uint32 (2 * ((sock.sock_send send_seg).estimated_rtt
              + 4 * (sock.sock_send send_seg).dev_rtt))))
        (set_timeout_length (sock.sock_send send_seg)
          (match doubled with
          | some d => (d * 2) % 2 ^ 32
          | none => to_uint32 (2 * ((sock.sock_send send_seg).estimated_rtt
              + 4 * (sock.sock_send send_seg).dev_rtt))))
        (by simp at hlen; omega)
      refine ⟨sock1, h0, ?_, h2, h3, h4, h5⟩
      rw [h1]
      simp [set_timeout_length, ReliableSocket.sock_send, List.replicate_succ]
    | error e => simp [RecvResult.retried] at hev
    | datagram e c s =>
      have hns : stop s.type = false := by simpa [RecvResult.retried] using hev
      cases fuel with
      | zero => simp at hlen
      | succ f =>
        obtain ⟨a1, a2, a3, a4, a5⟩ := hafter
          (set_estimated_rtt { sock.sock_send send_seg with current_rtt := (e : Int) })
        simp only [List.cons_append, reliable_send_loop, after_reply, hns, Bool.false_eq_true,
          if_false]
        rw [reliable_send_until_succ]
        obtain ⟨sock1, h0, h1, h2, h3, h4, h5⟩ := ih hpre' f none
          (set_smoothed_timeout (after (set_estimated_rtt
            { sock.sock_send send_seg with current_rtt := (e : Int) })))
          (by simp at hlen; omega)
        refine ⟨sock1, h0, ?_, ?_, ?_, ?_, ?_⟩
        · rw [h1]
          simp only [set_smoothed_timeout, set_timeout_length]
          rw [a5]
          simp [set_estimated_rtt, set_timeout_length, ReliableSocket.sock_send,
            List.replicate_succ]
        · rw [h2]; simp only [set_smoothed_timeout, set_timeout_length]; rw [a3]; rfl
        · rw [h3]; simp only [set_smoothed_timeout, set_timeout_length]; rw [a4]; rfl
        · rw [h4]; simp only [set_smoothed_timeout, set_timeout_length]; rw [a1]; rfl
        · rw [h5]; simp only [set_smoothed_timeout, set_timeout_length]; rw [a2]; rfl

/-- A loop around `reliable_send`, entered anywhere in `reliable_send`, on results that all
make it go on: it sends `send_seg` once for every result read and once more, and is
blocked in `recv`. -/
theorem reliable_send_until_waits (send_seg : Segment) (stop : Nat → Bool)
    (after : ReliableSocket → ReliableSocket) (hafter : keeps_connection after)
    (pre : List RecvResult) :
    (∀ ev ∈ pre, ev.retried stop = true) →
    ∀ (fuel : Nat) (doubled : Option Nat) (sock : ReliableSocket), pre.length ≤ fuel →
      ∃ sock1,
        after_reply stop after (reliable_send_until send_seg stop after fuel)
            (reliable_send_loop send_seg doubled sock pre)
          = .blocked sock1
        ∧ sock1.sent = sock.sent ++ List.replicate (pre.length + 1) send_seg
        ∧ sock1.state = sock.state ∧ sock1.fd_closed = sock.fd_closed
        ∧ sock1.sequence_number = sock.sequence_number
        ∧ sock1.expected_sequence_number = sock.expected_sequence_number := by
  induction pre with
  | nil =>
    intro _ fuel doubled sock _
    refine ⟨sock.sock_send send_seg, ?_, ?_, rfl, rfl, rfl, rfl⟩
    · simp only [reliable_send_loop, after_reply]
    · simp [ReliableSocket.sock_send]
  | cons ev pre ih =>
    intro hpre fuel doubled sock hlen
    have hev := hpre ev (List.mem_cons_self _ _)
    have hpre' : ∀ e ∈ pre, e.retried stop = true :=
      fun e he => hpre e (List.mem_cons_of_mem _ he)
    cases ev with
    | timeout e =>
      simp only [reliable_send_loop]
      obtain ⟨sock1, h0, h1, h2, h3, h4, h5⟩ := ih hpre' fuel
        (some (match doubled with
          | some d => (d * 2) % 2 ^ 32
          | none => to_uint32 (2 * ((sock.sock_send send_seg).estimated_rtt
              + 4 * (sock.sock_send send_seg).dev_rtt))))
        (set_timeout_length (sock.sock_send send_seg)
          (match doubled with
          | some d => (d * 2) % 2 ^ 32
          | none => to_uint32 (2 * ((sock.sock_send send_seg).estimated_rtt
              + 4 * (sock.sock_send send_seg).dev_rtt))))
        (by simp at hlen; omega)
      refine ⟨sock1, h0, ?_, h2, h3, h4, h5⟩
      rw [h1]
      simp [set_timeout_length, ReliableSocket.sock_send, List.replicate_succ]
    | error e => simp [RecvResult.retried] at hev
    | datagram e c s =>
      have hns : stop s.type = false := by simpa [RecvResult.retried] using hev
      cases fuel with
      | zero => simp at hlen
      | succ f =>
        obtain ⟨a1, a2, a3, a4, a5⟩ := hafter
          (set_estimated_rtt { sock.sock_send send_seg with current_rtt := (e : Int) })
        simp only [reliable_send_loop, after_reply, hns, Bool.false_eq_true, if_false]
        rw [reliable_send_until_succ]
        obtain ⟨sock1, h0, h1, h2, h3, h4, h5⟩ := ih hpre' f none
          (set_smoothed_timeout (after (set_estimated_rtt
            { sock.sock_send send_seg with current_rtt := (e : Int) })))
          (by simp at hlen; omega)
        refine ⟨sock1, h0, ?_, ?_, ?_, ?_, ?_⟩
        · rw [h1]
          simp only [set_smoothed_timeout, set_timeout_length]
          rw [a5]
          simp [set_estimated_rtt, set_timeout_length, ReliableSocket.sock_send,
            List.replicate_succ]
        · rw [h2]; simp only [set_smoothed_timeout, set_timeout_length]; rw [a3]; rfl
        · rw [h3]; simp only [set_smoothed_timeout, set_timeout_length]; rw [a4]; rfl
        · rw [h4]; simp only [set_smoothed_timeout, set_timeout_length]; rw [a1]; rfl
        · rw [h5]; simp only [set_smoothed_timeout, set_timeout_length]; rw [a2]; rfl

/-! ## Lemmas: `accept_connection` -/

theorem accept_connection_of_conn (sock : ReliableSocket) (elapsed count : Nat)
    (conn : Segment) (rest : List RecvResult) (hst : sock.state = .INIT)
    (hconn : conn.type = RDT_CONN) :
    accept_connection sock (.datagram elapsed count conn :: rest)
      = match after_reply stop_on_ack set_smoothed_timeout
            (reliable_send_until synack_segment stop_on_ack set_smoothed_timeout rest.length)
            (reliable_send_loop synack_segment none (set_smoothed_timeout sock) rest) with
        | .returned _ sock rest => .returned () { sock with state := .ESTABLISHED } rest
        | .blocked sock => .blocked sock
        | .exited sock => .exited sock
        | .undefined sock => .undefined sock := by
  simp only [accept_connection, hst, hconn, ne_eq, not_true_eq_false, if_false,
    reliable_send_until_succ]

/-- After the CONN, on timeouts and replies that are not ACKs, `accept_connection` has sent
one SYNACK per result read and one more, and is blocked in `recv` in state INIT. -/
theorem accept_connection_waits (sock : ReliableSocket) (elapsed count : Nat)
    (conn : Segment) (pre : List RecvResult) (hst : sock.state = .INIT)
    (hconn : conn.type = RDT_CONN) (hpre : ∀ ev ∈ pre, ev.retried stop_on_ack = true) :
    ∃ sock1, accept_connection sock (.datagram elapsed count conn :: pre) = .blocked sock1
      ∧ sock1.state = .INIT
      ∧ sock1.sent = sock.sent ++ List.replicate (pre.length + 1) synack_segment := by
  obtain ⟨sock1, h0, h1, h2, _, _, _⟩ := reliable_send_until_waits synack_segment stop_on_ack
    set_smoothed_timeout keeps_connection_set_smoothed_timeout pre hpre pre.length none
    (set_smoothed_timeout sock) (le_refl _)
  refine ⟨sock1, ?_, h2.trans hst, h1⟩
  rw [accept_connection_of_conn sock elapsed count conn pre hst hconn, h0]

/-- After the CONN, on timeouts and replies that are not ACKs and then an ACK,
`accept_connection` has sent one SYNACK per result read and returns in state ESTABLISHED. -/
theorem accept_connection_run (sock : ReliableSocket) (first_elapsed first_count : Nat)
    (conn : Segment) (pre : List RecvResult) (elapsed count : Nat) (ack : Segment)
    (rest : List RecvResult) (hst : sock.state = .INIT) (hconn : conn.type = RDT_CONN)
    (hpre : ∀ ev ∈ pre, ev.retried stop_on_ack = true) (hack : ack.type = RDT_ACK) :
    ∃ sock1,
      accept_connection sock
          (.datagram first_elapsed first_count conn
            :: (pre ++ .datagram elapsed count ack :: rest))
        = .returned () sock1 rest
      ∧ sock1.state = .ESTABLISHED
      ∧ sock1.sent = sock.sent ++ List.replicate (pre.length + 1) synack_segment := by
  obtain ⟨sock1, h0, h1, _, _, _, _⟩ := reliable_send_until_run synack_segment stop_on_ack
    set_smoothed_timeout keeps_connection_set_smoothed_timeout elapsed count ack
    (by simp [stop_on_ack, hack]) rest pre hpre
    (pre ++ .datagram elapsed count ack :: rest).length none (set_smoothed_timeout sock)
    (by simp)
  refine ⟨{ sock1 with state := .ESTABLISHED }, ?_, rfl, h1⟩
  rw [accept_connection_of_conn sock first_elapsed first_count conn _ hst hconn, h0]

/-- From state INIT `accept_connection` ends in state ESTABLISHED only by returning, after an
ACK that follows the first segment, with a SYNACK sent. -/
theorem accept_connection_only_after_ack (sock : ReliableSocket) (trace : List RecvResult)
    (hst : sock.state = .INIT)
    (hest : (accept_connection sock trace).sock.state = .ESTABLISHED) :
    (accept_connection sock trace).hasReturned = true
    ∧ (∃ elapsed count seg, RecvResult.datagram elapsed count seg ∈ trace.tail
        ∧ seg.type = RDT_ACK)
    ∧ synack_segment ∈ (accept_connection sock trace).sock.sent := by
  have hne : connection_status.INIT ≠ connection_status.ESTABLISHED := by decide
  cases trace with
  | nil =>
    simp only [accept_connection, hst, ne_eq, not_true_eq_false, if_false, Outcome.sock] at hest
    exact absurd hest hne
  | cons ev rest =>
    cases ev with
    | timeout e =>
      simp only [accept_connection, hst, ne_eq, not_true_eq_false, if_false,
        Outcome.sock] at hest
      exact absurd hest hne
    | error e =>
      simp only [accept_connection, hst, ne_eq, not_true_eq_false, if_false,
        Outcome.sock] at hest
      exact absurd hest hne
    | datagram e c seg =>
      by_cases hconn : seg.type = RDT_CONN
      · have hfr := reliable_send_until_frame synack_segment stop_on_ack set_smoothed_timeout
          keeps_connection_set_smoothed_timeout (rest.length + 1) sock rest
        have hret := reliable_send_until_returned synack_segment stop_on_ack
          set_smoothed_timeout (rest.length + 1) sock
        simp only [accept_connection, hst, hconn, ne_eq, not_true_eq_false, if_false] at hest ⊢
        cases h : reliable_send_until synack_segment stop_on_ack set_smoothed_timeout
            (rest.length + 1) sock rest with
        | returned reply sock1 rest1 =>
          obtain ⟨c1, seg1⟩ := reply
          rw [h] at hfr
          obtain ⟨_, _, _, _, k, hk, hsent⟩ := hfr
          obtain ⟨hstop, el, hmem⟩ := hret _ _ _ _ _ h
          refine ⟨rfl, ⟨el, c1, seg1, hmem, by simpa [stop_on_ack] using hstop⟩, ?_⟩
          simp only [Outcome.sock] at hsent ⊢
          rw [hsent]
          have hk1 : 1 ≤ k := hk (by omega)
          obtain ⟨k', rfl⟩ : ∃ k', k = k' + 1 := ⟨k - 1, by omega⟩
          simp [List.replicate_succ]
        | blocked s =>
          rw [h] at hfr hest
          exact absurd ((hst.symm.trans hfr.2.2.1.symm).trans hest) hne
        | exited s =>
          rw [h] at hfr hest
          exact absurd ((hst.symm.trans hfr.2.2.1.symm).trans hest) hne
        | undefined s =>
          rw [h] at hfr hest
          exact absurd ((hst.symm.trans hfr.2.2.1.symm).trans hest) hne
      · simp only [accept_connection, hst, hconn, ne_eq, not_true_eq_false, if_false,
          not_false_eq_true, if_true, Outcome.sock] at hest
        exact absurd hest hne

/-! ## Lemmas: `close_connection` -/

theorem wait_for_close_waits (waits : List RecvResult)
    (hwaits : ∀ ev ∈ waits, ev.stops stop_on_close = false) :
    ∀ (sock : ReliableSocket), wait_for_close sock waits = .blocked sock := by
  induction waits with
  | nil =>
    intro sock
    rfl
  | cons ev waits ih =>
    intro sock
    have hev := hwaits ev (List.mem_cons_self _ _)
    have hrest : ∀ e ∈ waits, e.stops stop_on_close = false :=
      fun e he => hwaits e (List.mem_cons_of_mem _ he)
    cases ev with
    | timeout e => simpa [wait_for_close] using ih hrest sock
    | error e => simpa [wait_for_close] using ih hrest sock
    | datagram e c seg =>
      have hne : seg.type ≠ RDT_CLOSE := by
        simpa [RecvResult.stops, stop_on_close] using hev
      simpa [wait_for_close, hne] using ih hrest sock

theorem wait_for_close_run (waits : List RecvResult)
    (hwaits : ∀ ev ∈ waits, ev.stops stop_on_close = false) (elapsed count : Nat)
    (seg : Segment) (hseg : seg.type = RDT_CLOSE) (rest : List RecvResult) :
    ∀ (sock : ReliableSocket),
      wait_for_close sock (waits ++ .datagram elapsed count seg :: rest)
        = .returned () sock rest := by
  induction waits with
  | nil =>
    intro sock
    simp [wait_for_close, hseg]
  | cons ev waits ih =>
    intro sock
    have hev := hwaits ev (List.mem_cons_self _ _)
    have hrest : ∀ e ∈ waits, e.stops stop_on_close = false :=
      fun e he => hwaits e (List.mem_cons_of_mem _ he)
    cases ev with
    | timeout e => simpa [wait_for_close] using ih hrest sock
    | error e => simpa [wait_for_close] using ih hrest sock
    | datagram e c s =>
      have hne : s.type ≠ RDT_CLOSE := by
        simpa [RecvResult.stops, stop_on_close] using hev
      simpa [wait_for_close, hne] using ih hrest sock

theorem wait_for_close_sock (trace : List RecvResult) :
    ∀ (sock : ReliableSocket), (wait_for_close sock trace).sock = sock := by
  induction trace with
  | nil =>
    intro sock
    rfl
  | cons ev rest ih =>
    intro sock
    cases ev with
    | timeout e => simpa [wait_for_close] using ih sock
    | error e => simpa [wait_for_close] using ih sock
    | datagram e c seg =>
      simp only [wait_for_close]
      split
      · rfl
      · exact ih sock

theorem time_wait_loop_frame (TIME_WAIT : Nat) (trace : List RecvResult) :
    ∀ (sock : ReliableSocket),
      (time_wait_loop TIME_WAIT sock trace).sock.sequence_number = sock.sequence_number
      ∧ (time_wait_loop TIME_WAIT sock trace).sock.expected_sequence_number
          = sock.expected_sequence_number
      ∧ (time_wait_loop TIME_WAIT sock trace).sock.state = sock.state
      ∧ (time_wait_loop TIME_WAIT sock trace).sock.fd_closed = sock.fd_closed := by
  induction trace with
  | nil =>
    intro sock
    exact ⟨rfl, rfl, rfl, rfl⟩
  | cons ev rest ih =>
    intro sock
    cases ev with
    | timeout e => exact ⟨rfl, rfl, rfl, rfl⟩
    | error e => exact ⟨rfl, rfl, rfl, rfl⟩
    | datagram e c seg =>
      simp only [time_wait_loop]
      split
      · exact ih _
      · exact ⟨rfl, rfl, rfl, rfl⟩

/-- The time-wait loop on datagrams and then a timeout: one final ACK per result read. -/
theorem time_wait_loop_until_quiet (TIME_WAIT : Nat) (replies : List RecvResult)
    (hrep : ∀ ev ∈ replies, ev.hasBytes = true)
    (quiet : Nat) (rest : List RecvResult) :
    ∀ (sock : ReliableSocket),
      time_wait_loop TIME_WAIT sock (replies ++ .timeout quiet :: rest)
        = .returned ()
            { sock with
              sent := sock.sent ++ List.replicate (replies.length + 1) final_ack_segment,
              timeouts := sock.timeouts ++ List.replicate (replies.length + 1) TIME_WAIT }
            rest := by
  induction replies with
  | nil =>
    intro sock
    simp [time_wait_loop, ReliableSocket.sock_send, set_timeout_length]
  | cons ev replies ih =>
    intro sock
    have hev := hrep ev (List.mem_cons_self _ _)
    have hrep' : ∀ ev ∈ replies, ev.hasBytes = true :=
      fun ev he => hrep ev (List.mem_cons_of_mem _ he)
    cases ev with
    | timeout e => simp [RecvResult.hasBytes] at hev
    | error e => simp [RecvResult.hasBytes] at hev
    | datagram e c seg =>
      have hc : 0 < c := by simpa [RecvResult.hasBytes] using hev
      simp only [List.cons_append, time_wait_loop, hc, if_true, List.append_eq]
      rw [ih hrep']
      simp [ReliableSocket.sock_send, set_timeout_length, List.replicate_succ]


theorem close_connection_of_fin (TIME_WAIT : Nat) (sock : ReliableSocket)
    (trace : List RecvResult) (hst : sock.state = .FIN) :
    close_connection TIME_WAIT sock trace
      = match after_reply stop_on_ack id
            (reliable_send_until close_segment stop_on_ack id trace.length)
            (reliable_send_loop close_segment none
              (set_smoothed_timeout (set_smoothed_timeout (sock.sock_send close_segment)))
              trace) with
        | .returned _ sock rest =>
          .returned () { sock with state := .CLOSED, fd_closed := sock.fd_closed + 1 } rest
        | .blocked sock => .blocked sock
        | .exited sock => .exited sock
        | .undefined sock => .undefined sock := by
  simp only [close_connection, hst, ne_eq, not_true_eq_false, if_false,
    receive_close_connection, reliable_send_until_succ]
  cases after_reply stop_on_ack id
      (reliable_send_until close_segment stop_on_ack id trace.length)
      (reliable_send_loop close_segment none
        (set_smoothed_timeout (set_smoothed_timeout (sock.sock_send close_segment)))
        trace) <;> rfl

/-- In state FIN, on timeouts and replies that are not ACKs, `close_connection` has sent one
CLOSE per result read and two more, and is blocked in `recv` with the socket open. -/
theorem close_connection_fin_waits (TIME_WAIT : Nat) (sock : ReliableSocket)
    (pre : List RecvResult) (hst : sock.state = .FIN)
    (hpre : ∀ ev ∈ pre, ev.retried stop_on_ack = true) :
    ∃ sock1, close_connection TIME_WAIT sock pre = .blocked sock1
      ∧ sock1.state = .FIN ∧ sock1.fd_closed = sock.fd_closed
      ∧ sock1.sent = sock.sent ++ List.replicate (pre.length + 2) close_segment := by
  obtain ⟨sock1, h0, h1, h2, h3, _, _⟩ := reliable_send_until_waits close_segment stop_on_ack
    id keeps_connection_id pre hpre pre.length none
    (set_smoothed_timeout (set_smoothed_timeout (sock.sock_send close_segment))) (le_refl _)
  refine ⟨sock1, ?_, h2.trans hst, h3, ?_⟩
  · rw [close_connection_of_fin TIME_WAIT sock pre hst, h0]
  · rw [h1]
    simp [set_smoothed_timeout, set_timeout_length, ReliableSocket.sock_send,
      List.replicate_succ]

/-- In state FIN, on timeouts and replies that are not ACKs and then an ACK,
`close_connection` has sent one CLOSE per result read and one more, and returns in state
CLOSED with the socket closed once. -/
theorem close_connection_fin_run (TIME_WAIT : Nat) (sock : ReliableSocket)
    (pre : List RecvResult) (elapsed count : Nat) (ack : Segment) (rest : List RecvResult)
    (hst : sock.state = .FIN) (hpre : ∀ ev ∈ pre, ev.retried stop_on_ack = true)
    (hack : ack.type = RDT_ACK) :
    ∃ sock1,
      close_connection TIME_WAIT sock (pre ++ .datagram elapsed count ack :: rest)
        = .returned () sock1 rest
      ∧ sock1.state = .CLOSED ∧ sock1.fd_closed = sock.fd_closed + 1
      ∧ sock1.sent = sock.sent ++ List.replicate (pre.length + 2) close_segment := by
  obtain ⟨sock1, h0, h1, _, h3, _, _⟩ := reliable_send_until_run close_segment stop_on_ack
    id keeps_connection_id elapsed count ack (by simp [stop_on_ack, hack]) rest pre hpre
    (pre ++ .datagram elapsed count ack :: rest).length none
    (set_smoothed_timeout (set_smoothed_timeout (sock.sock_send close_segment))) (by simp)
  refine ⟨{ sock1 with state := .CLOSED, fd_closed := sock1.fd_closed + 1 }, ?_, rfl, ?_, ?_⟩
  · rw [close_connection_of_fin TIME_WAIT sock _ hst, h0]
  · show sock1.fd_closed + 1 = sock.fd_closed + 1
    rw [h3]
    rfl
  · show sock1.sent = _
    rw [h1]
    simp [set_smoothed_timeout, set_timeout_length, ReliableSocket.sock_send,
      List.replicate_succ]

/-- In state FIN `close_connection` returns only after an ACK has been received. -/
theorem close_connection_fin_only_after_ack (TIME_WAIT : Nat) (sock : ReliableSocket)
    (trace : List RecvResult) (hst : sock.state = .FIN)
    (hret : (close_connection TIME_WAIT sock trace).hasReturned = true) :
    ∃ elapsed count seg, RecvResult.datagram elapsed count seg ∈ trace ∧ seg.type = RDT_ACK := by
  have hr := reliable_send_until_returned close_segment stop_on_ack id (trace.length + 1)
    (set_smoothed_timeout (sock.sock_send close_segment))
  simp only [close_connection, hst, ne_eq, not_true_eq_false, if_false,
    receive_close_connection] at hret
  cases h : reliable_send_until close_segment stop_on_ack id (trace.length + 1)
      (set_smoothed_timeout (sock.sock_send close_segment)) trace with
  | returned reply sock1 rest1 =>
    obtain ⟨c1, seg1⟩ := reply
    obtain ⟨hstop, el, hmem⟩ := hr _ _ _ _ _ h
    exact ⟨el, c1, seg1, hmem, by simpa [stop_on_ack] using hstop⟩
  | blocked s => rw [h] at hret; simp [Outcome.hasReturned] at hret
  | exited s => rw [h] at hret; simp [Outcome.hasReturned] at hret
  | undefined s => rw [h] at hret; simp [Outcome.hasReturned] at hret


/-- The close that the caller starts, once the first reply is an ACK: what remains is the wait
for the peer's CLOSE and the time-wait loop, on a socket whose state is unchanged and still
open. -/
theorem close_connection_of_ack (TIME_WAIT : Nat) (sock : ReliableSocket)
    (elapsed count : Nat) (ack : Segment) (tail : List RecvResult)
    (hst : sock.state ≠ .FIN) (hack : ack.type = RDT_ACK) :
    ∃ sock1, sock1.state = sock.state ∧ sock1.fd_closed = sock.fd_closed
      ∧ sock1.sent = sock.sent ++ [close_segment, close_segment]
      ∧ close_connection TIME_WAIT sock (.datagram elapsed count ack :: tail)
        = match
            (match wait_for_close sock1 tail with
              | .returned _ sock rest => time_wait_loop TIME_WAIT sock rest
              | .blocked sock => .blocked sock
              | .exited sock => .exited sock
              | .undefined sock => .undefined sock) with
          | .returned _ sock rest =>
            .returned () { sock with state := .CLOSED, fd_closed := sock.fd_closed + 1 } rest
          | .blocked sock => .blocked sock
          | .exited sock => .exited sock
          | .undefined sock => .undefined sock := by
  obtain ⟨sock1, h0, h1, h2, h3, _, _⟩ := reliable_send_until_run close_segment
    stop_on_ack_or_close id keeps_connection_id elapsed count ack
    (by simp [stop_on_ack_or_close, hack]) tail [] (by simp)
    (RecvResult.datagram elapsed count ack :: tail).length none
    (set_smoothed_timeout (sock.sock_send close_segment)) (by simp)
  refine ⟨sock1, h2, h3, ?_, ?_⟩
  · rw [h1]
    simp [set_smoothed_timeout, set_timeout_length, ReliableSocket.sock_send]
  · simp only [List.nil_append] at h0
    simp only [close_connection, hst, ne_eq, not_false_eq_true, if_true,
      send_close_connection, reliable_send_until_succ, h0]

/-- Once the local CLOSE is acknowledged, `close_connection` waits for the peer's CLOSE
through any number of timeouts, `recv` errors and other segments, with the socket open. -/
theorem close_connection_waits_for_close (TIME_WAIT : Nat) (sock : ReliableSocket)
    (elapsed count : Nat) (ack : Segment) (waits : List RecvResult)
    (hst : sock.state ≠ .FIN) (hack : ack.type = RDT_ACK)
    (hwaits : ∀ ev ∈ waits, ev.stops stop_on_close = false) :
    ∃ sock1, close_connection TIME_WAIT sock (.datagram elapsed count ack :: waits)
        = .blocked sock1
      ∧ sock1.state = sock.state ∧ sock1.fd_closed = sock.fd_closed
      ∧ sock1.sent = sock.sent ++ [close_segment, close_segment] := by
  obtain ⟨sock1, h1, h2, h3, h4⟩ := close_connection_of_ack TIME_WAIT sock elapsed count ack
    waits hst hack
  refine ⟨sock1, ?_, h1, h2, h3⟩
  rw [h4, wait_for_close_waits waits hwaits sock1]

/-- A timeout, or a segment that is not a CLOSE, does not end the wait for the peer's CLOSE. -/
theorem stops_of_retried_stop_on_close (ev : RecvResult)
    (h : ev.retried stop_on_close = true) : ev.stops stop_on_close = false := by
  cases ev with
  | timeout e => rfl
  | error e => simp [RecvResult.retried] at h
  | datagram e c seg => simpa [RecvResult.retried, RecvResult.stops] using h

/-- Once the local CLOSE is acknowledged and the peer's CLOSE has arrived, `close_connection`
sends the final ACK, again after every datagram, and after a silent `TIME_WAIT` returns in
state CLOSED with the socket closed once. -/
theorem close_connection_after_close (TIME_WAIT : Nat) (sock : ReliableSocket)
    (elapsed count : Nat) (ack : Segment) (waits : List RecvResult)
    (elapsed2 count2 : Nat) (close : Segment) (replies : List RecvResult) (quiet : Nat)
    (rest : List RecvResult)
    (hst : sock.state ≠ .FIN) (hack : ack.type = RDT_ACK)
    (hwaits : ∀ ev ∈ waits, ev.stops stop_on_close = false)
    (hclose : close.type = RDT_CLOSE)
    (hrep : ∀ ev ∈ replies, ev.hasBytes = true) :
    ∃ sock1,
      close_connection TIME_WAIT sock
          (.datagram elapsed count ack
            :: (waits ++ .datagram elapsed2 count2 close
              :: (replies ++ .timeout quiet :: rest)))
        = .returned () sock1 rest
      ∧ sock1.state = .CLOSED ∧ sock1.fd_closed = sock.fd_closed + 1
      ∧ sock1.sent = sock.sent ++ [close_segment, close_segment]
          ++ List.replicate (replies.length + 1) final_ack_segment := by
  obtain ⟨sock1, _, h2, h3, h4⟩ := close_connection_of_ack TIME_WAIT sock elapsed count ack
    (waits ++ .datagram elapsed2 count2 close :: (replies ++ .timeout quiet :: rest)) hst hack
  rw [h4, wait_for_close_run waits hwaits elapsed2 count2 close hclose _ sock1]
  simp only
  rw [time_wait_loop_until_quiet TIME_WAIT replies hrep quiet rest sock1]
  refine ⟨_, rfl, rfl, ?_, ?_⟩
  · show sock1.fd_closed + 1 = sock.fd_closed + 1
    rw [h2]
  · show sock1.sent ++ _ = _
    rw [h3]

/-! ## Lemmas: the state never goes back -/

theorem rank_le_closed (state : connection_status) :
    state.rank ≤ connection_status.CLOSED.rank := by
  cases state <;> decide

theorem receive_data_loop_state (buffer : List Nat) (trace : List RecvResult) :
    ∀ (sock : ReliableSocket),
      (receive_data_loop buffer sock trace).sock.state = sock.state
      ∨ (receive_data_loop buffer sock trace).sock.state = .FIN := by
  induction trace with
  | nil =>
    intro sock
    exact Or.inl rfl
  | cons ev rest ih =>
    intro sock
    cases ev with
    | timeout e => exact Or.inl rfl
    | error e => exact Or.inl rfl
    | datagram e c s =>
      simp only [receive_data_loop]
      split
      · exact ih sock
      · split
        · have hfr := timeout_send_frame close_ack_segment rest sock
          cases h : timeout_send close_ack_segment sock rest with
          | returned v s1 r => exact Or.inr rfl
          | blocked s1 =>
            rw [h] at hfr
            exact Or.inl hfr.2.2.1
          | exited s1 =>
            rw [h] at hfr
            exact Or.inl hfr.2.2.1
          | undefined s1 =>
            rw [h] at hfr
            exact Or.inl hfr.2.2.1
        · split
          · split
            · exact Or.inl rfl
            · exact Or.inl rfl
          · exact ih (sock.sock_send (ack_segment s.sequence_number))

theorem receive_data_rank (sock : ReliableSocket) (buffer : List Nat)
    (trace : List RecvResult) :
    sock.state.rank ≤ (receive_data sock buffer trace).sock.state.rank := by
  unfold receive_data
  split
  · exact le_refl _
  · rename_i hst
    have hst' : sock.state = .ESTABLISHED := by simpa using hst
    rcases receive_data_loop_state buffer trace sock with h | h
    · rw [h]
    · rw [h, hst']
      decide

theorem send_data_rank (sock : ReliableSocket) (data : List Nat) (trace : List RecvResult) :
    sock.state.rank ≤ (send_data sock data trace).sock.state.rank := by
  unfold send_data
  split
  · exact le_refl _
  · split
    · exact le_refl _
    · rw [(send_data_loop_frame (zero_segment data.length) (trace.length + 1)
        (sock.sock_send (data_segment sock.sequence_number data)) trace).2.1]
      exact le_refl _

theorem accept_connection_rank (sock : ReliableSocket) (trace : List RecvResult) :
    sock.state.rank ≤ (accept_connection sock trace).sock.state.rank := by
  unfold accept_connection
  split
  · exact le_refl _
  · rename_i hst
    have hst' : sock.state = .INIT := by simpa using hst
    split
    · exact le_refl _
    · exact le_refl _
    · exact le_refl _
    · rename_i e c seg rest
      split
      · exact le_refl _
      · have hfr := reliable_send_until_frame synack_segment stop_on_ack set_smoothed_timeout
          keeps_connection_set_smoothed_timeout (rest.length + 1) sock rest
        cases h : reliable_send_until synack_segment stop_on_ack set_smoothed_timeout
            (rest.length + 1) sock rest with
        | returned v s r =>
          rw [hst']
          exact Nat.zero_le _
        | blocked s =>
          rw [h] at hfr
          exact le_of_eq (congrArg connection_status.rank hfr.2.2.1.symm)
        | exited s =>
          rw [h] at hfr
          exact le_of_eq (congrArg connection_status.rank hfr.2.2.1.symm)
        | undefined s =>
          rw [h] at hfr
          exact le_of_eq (congrArg connection_status.rank hfr.2.2.1.symm)

theorem connect_to_remote_rank (sock : ReliableSocket) (trace : List RecvResult) :
    sock.state.rank ≤ (connect_to_remote sock trace).sock.state.rank := by
  unfold connect_to_remote
  split
  · exact le_refl _
  · rename_i hst
    have hst' : sock.state = .INIT := by simpa using hst
    have hfr := timeout_send_frame handshake_ack_segment trace (sock.sock_send conn_segment)
    cases h : timeout_send handshake_ack_segment (sock.sock_send conn_segment) trace with
    | returned v s r =>
      rw [hst']
      exact Nat.zero_le _
    | blocked s =>
      rw [h] at hfr
      exact le_of_eq (congrArg connection_status.rank hfr.2.2.1.symm)
    | exited s =>
      rw [h] at hfr
      exact le_of_eq (congrArg connection_status.rank hfr.2.2.1.symm)
    | undefined s =>
      rw [h] at hfr
      exact le_of_eq (congrArg connection_status.rank hfr.2.2.1.symm)

theorem send_close_connection_state (TIME_WAIT : Nat) (sock : ReliableSocket)
    (trace : List RecvResult) :
    (send_close_connection TIME_WAIT sock trace).sock.state = sock.state := by
  have hfr := reliable_send_until_frame close_segment stop_on_ack_or_close id
    keeps_connection_id (trace.length + 1) sock trace
  unfold send_close_connection
  cases h : reliable_send_until close_segment stop_on_ack_or_close id (trace.length + 1)
      sock trace with
  | returned v s r =>
    rw [h] at hfr
    have hs : s.state = sock.state := hfr.2.2.1
    have hw := wait_for_close_sock r s
    simp only
    cases hw2 : wait_for_close s r with
    | returned v2 s2 r2 =>
      rw [hw2] at hw
      have hs2 : s2 = s := hw
      simp only
      rw [(time_wait_loop_frame TIME_WAIT r2 s2).2.2.1, hs2, hs]
    | blocked s2 =>
      rw [hw2] at hw
      have hs2 : s2 = s := hw
      simp only [Outcome.sock]
      rw [hs2, hs]
    | exited s2 =>
      rw [hw2] at hw
      have hs2 : s2 = s := hw
      simp only [Outcome.sock]
      rw [hs2, hs]
    | undefined s2 =>
      rw [hw2] at hw
      have hs2 : s2 = s := hw
      simp only [Outcome.sock]
      rw [hs2, hs]
  | blocked s => rw [h] at hfr; exact hfr.2.2.1
  | exited s => rw [h] at hfr; exact hfr.2.2.1
  | undefined s => rw [h] at hfr; exact hfr.2.2.1

theorem receive_close_connection_state (sock : ReliableSocket) (trace : List RecvResult) :
    (receive_close_connection sock trace).sock.state = sock.state := by
  have hfr := reliable_send_until_frame close_segment stop_on_ack id
    keeps_connection_id (trace.length + 1) (set_smoothed_timeout sock) trace
  unfold receive_close_connection
  cases h : reliable_send_until close_segment stop_on_ack id (trace.length + 1)
      (set_smoothed_timeout sock) trace with
  | returned v s r => rw [h] at hfr; exact hfr.2.2.1
  | blocked s => rw [h] at hfr; exact hfr.2.2.1
  | exited s => rw [h] at hfr; exact hfr.2.2.1
  | undefined s => rw [h] at hfr; exact hfr.2.2.1

theorem close_connection_rank (TIME_WAIT : Nat) (sock : ReliableSocket)
    (trace : List RecvResult) :
    sock.state.rank ≤ (close_connection TIME_WAIT sock trace).sock.state.rank := by
  have h1 := send_close_connection_state TIME_WAIT (sock.sock_send close_segment) trace
  have h2 := receive_close_connection_state (sock.sock_send close_segment) trace
  unfold close_connection
  split
  · exact rank_le_closed _
  · rename_i s heq
    split at heq
    · rw [heq] at h1
      exact le_of_eq (congrArg connection_status.rank h1.symm)
    · rw [heq] at h2
      exact le_of_eq (congrArg connection_status.rank h2.symm)
  · rename_i s heq
    split at heq
    · rw [heq] at h1
      exact le_of_eq (congrArg connection_status.rank h1.symm)
    · rw [heq] at h2
      exact le_of_eq (congrArg connection_status.rank h2.symm)
  · rename_i s heq
    split at heq
    · rw [heq] at h1
      exact le_of_eq (congrArg connection_status.rank h1.symm)
    · rw [heq] at h2
      exact le_of_eq (congrArg connection_status.rank h2.symm)

/-! ## Lemmas: rounding to binary64 -/

theorem rat_floor_eq (q : ℚ) (z : ℤ) (h1 : (z : ℚ) ≤ q) (h2 : q < z + 1) : Rat.floor q = z := by
  have h : ⌊q⌋ = z := Int.floor_eq_iff.mpr ⟨h1, h2⟩
  rw [← h]
  rfl

theorem rat_floor_le (q : ℚ) : (Rat.floor q : ℚ) ≤ q :=
  Int.floor_le q

theorem rat_lt_floor_add_one (q : ℚ) : q < (Rat.floor q : ℚ) + 1 :=
  Int.lt_floor_add_one q

theorem round_half_even_intCast (z : ℤ) : round_half_even z = z := by
  have h : Rat.floor (z : ℚ) = z := rat_floor_eq _ z le_rfl (by linarith)
  simp [round_half_even, h]

theorem round_half_even_le (q : ℚ) (N : ℤ) (h : q ≤ N) : round_half_even q ≤ N := by
  have h1 := rat_floor_le q
  have hf : Rat.floor q ≤ N := by exact_mod_cast h1.trans h
  have hlt : q - Rat.floor q ≥ 1 / 2 → Rat.floor q + 1 ≤ N := by
    intro hh
    have : (Rat.floor q : ℚ) < N := by linarith
    have : Rat.floor q < N := by exact_mod_cast this
    omega
  unfold round_half_even
  split_ifs with h2 h3 h4
  · exact hf
  · exact hlt (by linarith)
  · exact hf
  · exact hlt (by linarith)

theorem le_round_half_even (q : ℚ) (N : ℤ) (h : (N : ℚ) ≤ q) : N ≤ round_half_even q := by
  have h2 := rat_lt_floor_add_one q
  have hf : N ≤ Rat.floor q := by
    have : (N : ℚ) < (Rat.floor q : ℚ) + 1 := by linarith
    have : N < Rat.floor q + 1 := by exact_mod_cast this
    omega
  unfold round_half_even
  split_ifs <;> omega

theorem abs_round_half_even_sub_le (q : ℚ) : |(round_half_even q : ℚ) - q| ≤ 1 / 2 := by
  have h1 := rat_floor_le q
  have h2 := rat_lt_floor_add_one q
  unfold round_half_even
  rw [abs_le]
  split_ifs with h3 h4 h5 <;> push_cast <;> constructor <;> linarith

theorem two_zpow_pos (k : ℤ) : (0 : ℚ) < 2 ^ k :=
  zpow_pos (by norm_num) k

theorem ulp_exponent_ge (q : ℚ) : -1074 ≤ ulp_exponent q :=
  le_max_right _ _

theorem ulp_exponent_le (q : ℚ) (k : ℤ) (hq : q ≠ 0) (hk : -1074 ≤ k)
    (h : |q| < 2 ^ (k + 53)) : ulp_exponent q ≤ k := by
  have hpos : 0 < |q| := abs_pos.mpr hq
  have hlog : Int.log 2 |q| < k + 53 := by
    apply (Int.lt_zpow_iff_log_lt (by norm_num) hpos).mp
    simpa using h
  unfold ulp_exponent
  apply max_le
  · omega
  · exact hk

theorem abs_lt_ulp (q : ℚ) : |q| < 2 ^ (ulp_exponent q + 53) := by
  have h := Int.lt_zpow_succ_log_self (b := 2) (by norm_num) |q|
  have h' : |q| < (2 : ℚ) ^ (Int.log 2 |q| + 1) := by simpa using h
  refine lt_of_lt_of_le h' ?_
  apply zpow_le_zpow_right₀ (by norm_num)
  have : Int.log 2 |q| - 52 ≤ ulp_exponent q := le_max_left _ _
  omega

theorem to_double_zero : to_double 0 = 0 := by
  simp [to_double, round_half_even_intCast 0, show round_half_even 0 = 0 from by
    simpa using round_half_even_intCast 0]

theorem zpow_sub_toNat (j e : ℤ) (h : e ≤ j) :
    (2 : ℚ) ^ j = ((2 ^ (j - e).toNat : ℤ) : ℚ) * 2 ^ e := by
  have h1 : ((j - e).toNat : ℤ) = j - e := Int.toNat_of_nonneg (by omega)
  push_cast
  rw [← zpow_natCast, h1, ← zpow_add₀ (by norm_num)]
  congr 1
  omega

/-- Numbers n * 2^k with |n| < 2^53 and k ≥ -1074 are binary64 numbers: rounding keeps them. -/
theorem to_double_exact (n k : ℤ) (hn : |n| < 2 ^ 53) (hk : -1074 ≤ k) :
    to_double (n * 2 ^ k) = n * 2 ^ k := by
  by_cases h0 : n = 0
  · subst h0
    simpa using to_double_zero
  have hq : (n : ℚ) * 2 ^ k ≠ 0 :=
    mul_ne_zero (by exact_mod_cast h0) (ne_of_gt (two_zpow_pos k))
  have habs : |(n : ℚ) * 2 ^ k| < 2 ^ (k + 53) := by
    rw [abs_mul, abs_of_pos (two_zpow_pos k), zpow_add₀ (by norm_num), mul_comm]
    apply mul_lt_mul_of_pos_left _ (two_zpow_pos k)
    rw [← Int.cast_abs]
    exact_mod_cast hn
  have he := ulp_exponent_le _ k hq hk habs
  unfold to_double
  generalize ulp_exponent ((n : ℚ) * 2 ^ k) = e at he
  have hp := two_zpow_pos e
  have hdiv : (n : ℚ) * 2 ^ k / 2 ^ e = ((n * 2 ^ (k - e).toNat : ℤ) : ℚ) := by
    rw [zpow_sub_toNat k e he]
    field_simp
    ring
  rw [hdiv, round_half_even_intCast, zpow_sub_toNat k e he]
  push_cast
  ring

/-- Rounding does not cross an integer: below 2^53 in size, `q ≤ N` gives `to_double q ≤ N`. -/
theorem to_double_le_int (q : ℚ) (N : ℤ) (hq : |q| < 2 ^ 53) (h : q ≤ N) :
    to_double q ≤ N := by
  by_cases h0 : q = 0
  · subst h0
    rw [to_double_zero]
    exact h
  have he := ulp_exponent_le q 0 h0 (by norm_num) (by rw [zero_add]; exact_mod_cast hq)
  unfold to_double
  have hp := two_zpow_pos (ulp_exponent q)
  have hN : (N : ℚ) = ((N * 2 ^ (0 - ulp_exponent q).toNat : ℤ) : ℚ) * 2 ^ ulp_exponent q := by
    have := zpow_sub_toNat 0 _ he
    push_cast at this ⊢
    rw [mul_assoc, ← this]
    simp
  have hle : round_half_even (q / 2 ^ ulp_exponent q) ≤ N * 2 ^ (0 - ulp_exponent q).toNat := by
    apply round_half_even_le
    rw [div_le_iff₀ hp, ← hN]
    exact h
  rw [hN]
  apply mul_le_mul_of_nonneg_right _ hp.le
  exact_mod_cast hle

theorem int_le_to_double (q : ℚ) (N : ℤ) (hq : |q| < 2 ^ 53) (h : (N : ℚ) ≤ q) :
    (N : ℚ) ≤ to_double q := by
  by_cases h0 : q = 0
  · subst h0
    rw [to_double_zero]
    exact h
  have he := ulp_exponent_le q 0 h0 (by norm_num) (by rw [zero_add]; exact_mod_cast hq)
  unfold to_double
  have hp := two_zpow_pos (ulp_exponent q)
  have hN : (N : ℚ) = ((N * 2 ^ (0 - ulp_exponent q).toNat : ℤ) : ℚ) * 2 ^ ulp_exponent q := by
    have := zpow_sub_toNat 0 _ he
    push_cast at this ⊢
    rw [mul_assoc, ← this]
    simp
  have hle : N * 2 ^ (0 - ulp_exponent q).toNat ≤ round_half_even (q / 2 ^ ulp_exponent q) := by
    apply le_round_half_even
    rw [le_div_iff₀ hp, ← hN]
    exact h
  rw [hN]
  apply mul_le_mul_of_nonneg_right _ hp.le
  exact_mod_cast hle

/-- The rounding error is at most half a unit in the last place. -/
theorem abs_to_double_sub_le (q : ℚ) : |to_double q - q| ≤ 2 ^ ulp_exponent q / 2 := by
  have hp := two_zpow_pos (ulp_exponent q)
  have h := abs_round_half_even_sub_le (q / 2 ^ ulp_exponent q)
  unfold to_double
  have : (round_half_even (q / 2 ^ ulp_exponent q) : ℚ) * 2 ^ ulp_exponent q - q
      = ((round_half_even (q / 2 ^ ulp_exponent q) : ℚ) - q / 2 ^ ulp_exponent q)
        * 2 ^ ulp_exponent q := by
    field_simp
  rw [this, abs_mul, abs_of_pos hp]
  calc _ ≤ 1 / 2 * (2 : ℚ) ^ ulp_exponent q := mul_le_mul_of_nonneg_right h hp.le
    _ = _ := by ring

/-- Every result of rounding is a binary64 number. -/
theorem to_double_repr (q : ℚ) :
    ∃ n k : ℤ, |n| < 2 ^ 53 ∧ -1074 ≤ k ∧ to_double q = n * 2 ^ k := by
  have hp := two_zpow_pos (ulp_exponent q)
  have hlt := abs_lt_ulp q
  have hx : |q / 2 ^ ulp_exponent q| < 2 ^ 53 := by
    rw [abs_div, abs_of_pos hp, div_lt_iff₀ hp]
    calc |q| < 2 ^ (ulp_exponent q + 53) := hlt
      _ = 2 ^ 53 * 2 ^ ulp_exponent q := by
        rw [zpow_add₀ (by norm_num), mul_comm]
        norm_num
  rw [abs_lt] at hx
  have hup : round_half_even (q / 2 ^ ulp_exponent q) ≤ 2 ^ 53 :=
    round_half_even_le _ _ (by push_cast; exact hx.2.le)
  have hlo : -(2 ^ 53) ≤ round_half_even (q / 2 ^ ulp_exponent q) :=
    le_round_half_even _ _ (by push_cast; exact hx.1.le)
  by_cases h1 : round_half_even (q / 2 ^ ulp_exponent q) = 2 ^ 53
  · refine ⟨2 ^ 52, ulp_exponent q + 1, by norm_num, by have := ulp_exponent_ge q; omega, ?_⟩
    unfold to_double
    rw [h1, zpow_add₀ (by norm_num)]
    push_cast
    ring
  by_cases h2 : round_half_even (q / 2 ^ ulp_exponent q) = -(2 ^ 53)
  · refine ⟨-(2 ^ 52), ulp_exponent q + 1, by norm_num, by have := ulp_exponent_ge q; omega, ?_⟩
    unfold to_double
    rw [h2, zpow_add₀ (by norm_num)]
    push_cast
    ring
  · refine ⟨round_half_even (q / 2 ^ ulp_exponent q), ulp_exponent q, ?_, ulp_exponent_ge q, rfl⟩
    rw [abs_lt]
    omega

/-- Multiplying a binary64 number by 2^i, i ≥ 0, is exact. -/
theorem to_double_two_pow_mul (q : ℚ) (i : ℕ) :
    to_double (2 ^ i * to_double q) = 2 ^ i * to_double q := by
  obtain ⟨n, k, hn, hk, h⟩ := to_double_repr q
  rw [h]
  have : (2 : ℚ) ^ i * (n * 2 ^ k) = n * 2 ^ (k + i) := by
    rw [zpow_add₀ (by norm_num), zpow_natCast]
    ring
  rw [this]
  exact to_double_exact n (k + i) hn (by omega)

theorem to_double_idem (q : ℚ) : to_double (to_double q) = to_double q := by
  simpa using to_double_two_pow_mul q 0


/-! ## Lemmas: `double` arithmetic in `set_estimated_rtt` -/

theorem to_double_dyadic (q : ℚ) (n k : ℤ) (hq : q = n * 2 ^ k) (hn : |n| < 2 ^ 53)
    (hk : -1074 ≤ k) : to_double q = q := by
  rw [hq]
  exact to_double_exact n k hn hk

theorem to_double_intCast (z : ℤ) (hz : |z| < 2 ^ 53) : to_double z = z := by
  simpa using to_double_exact z 0 hz (by norm_num)

/-- Rounding keeps a value between two integers that bound it. -/
theorem to_double_between (q : ℚ) (a b : ℤ) (ha : (a : ℚ) ≤ q) (hb : q ≤ b)
    (ha53 : -(2 ^ 53) < a) (hb53 : b < 2 ^ 53) :
    (a : ℚ) ≤ to_double q ∧ to_double q ≤ b := by
  have hq : |q| < 2 ^ 53 := by
    have h1 : (-(2 ^ 53) : ℚ) < a := by exact_mod_cast ha53
    have h2 : (b : ℚ) < 2 ^ 53 := by exact_mod_cast hb53
    rw [abs_lt]
    constructor <;> linarith
  exact ⟨int_le_to_double q a hq ha, to_double_le_int q b hq hb⟩

/-- The rounding error of a value below 2^(k+53) in size is at most 2^k / 2. -/
theorem abs_to_double_sub_le_of_lt (q : ℚ) (k : ℤ) (hk : -1074 ≤ k) (h : |q| < 2 ^ (k + 53)) :
    |to_double q - q| ≤ 2 ^ k / 2 := by
  by_cases h0 : q = 0
  · subst h0
    rw [to_double_zero]
    simp only [sub_zero, abs_zero]
    exact div_nonneg (two_zpow_pos k).le (by norm_num)
  have he := ulp_exponent_le q k h0 hk h
  refine (abs_to_double_sub_le q).trans ?_
  have : (2 : ℚ) ^ ulp_exponent q ≤ 2 ^ k := zpow_le_zpow_right₀ (by norm_num) he
  linarith

theorem Double.val_add (a b : Double) : (a + b).val = to_double (a.val + b.val) :=
  rfl

theorem Double.val_sub (a b : Double) : (a - b).val = to_double (a.val - b.val) :=
  rfl

theorem Double.val_mul (a b : Double) : (a * b).val = to_double (a.val * b.val) :=
  rfl

theorem Double.val_intCast (z : ℤ) (hz : |z| < 2 ^ 53) : ((z : Double)).val = z :=
  to_double_intCast z hz

theorem Double.val_one : (1 : Double).val = 1 := by
  show (if 1 < 2 ^ 53 then ((1 : ℕ) : ℚ) else to_double (1 : ℕ)) = 1
  norm_num

theorem Double.val_two : (2 : Double).val = 2 := by
  show (if 2 < 2 ^ 53 then ((2 : ℕ) : ℚ) else to_double (2 : ℕ)) = 2
  norm_num

theorem Double.val_four : (4 : Double).val = 4 := by
  show (if 4 < 2 ^ 53 then ((4 : ℕ) : ℚ) else to_double (4 : ℕ)) = 4
  norm_num

theorem Double.val_ten : (10 : Double).val = 10 := by
  show (if 10 < 2 ^ 53 then ((10 : ℕ) : ℚ) else to_double (10 : ℕ)) = 10
  norm_num

theorem Double.val_hundred : (100 : Double).val = 100 := by
  show (if 100 < 2 ^ 53 then ((100 : ℕ) : ℚ) else to_double (100 : ℕ)) = 100
  norm_num

/-- The literal `0.125` is a binary64 number. -/
theorem Double.val_eighth : (0.125 : Double).val = 1 / 8 := by
  show to_double (0.125 : ℚ) = 1 / 8
  rw [to_double_dyadic 0.125 1 (-3) (by norm_num) (by norm_num) (by norm_num)]
  norm_num

/-- The literal `0.25` is a binary64 number. -/
theorem Double.val_quarter : (0.25 : Double).val = 1 / 4 := by
  show to_double (0.25 : ℚ) = 1 / 4
  rw [to_double_dyadic 0.25 1 (-2) (by norm_num) (by norm_num) (by norm_num)]
  norm_num

/-- The constant `1 - 0.125` is exact. -/
theorem Double.val_one_sub_eighth : ((1 : Double) - 0.125).val = 7 / 8 := by
  rw [Double.val_sub, Double.val_one, Double.val_eighth,
    to_double_dyadic (1 - 1 / 8) 7 (-3) (by norm_num) (by norm_num) (by norm_num)]
  norm_num

/-- The constant `1 - 0.25` is exact. -/
theorem Double.val_one_sub_quarter : ((1 : Double) - 0.25).val = 3 / 4 := by
  rw [Double.val_sub, Double.val_one, Double.val_quarter,
    to_double_dyadic (1 - 1 / 4) 3 (-2) (by norm_num) (by norm_num) (by norm_num)]
  norm_num

/-- An `int` times `0.125` is exact. -/
theorem Double.val_int_mul_eighth (z : ℤ) (hz : |z| < 2 ^ 53) :
    ((z : Double) * 0.125).val = z / 8 := by
  rw [Double.val_mul, Double.val_intCast z hz, Double.val_eighth,
    to_double_dyadic ((z : ℚ) * (1 / 8)) z (-3) (by norm_num) hz (by norm_num)]
  ring

/-- An `int` times `0.25` is exact. -/
theorem Double.val_int_mul_quarter (z : ℤ) (hz : |z| < 2 ^ 53) :
    ((z : Double) * 0.25).val = z / 4 := by
  rw [Double.val_mul, Double.val_intCast z hz, Double.val_quarter,
    to_double_dyadic ((z : ℚ) * (1 / 4)) z (-2) (by norm_num) hz (by norm_num)]
  ring

/-- Four times a sum of `double`s is exact. -/
theorem Double.val_four_mul_add (a b : Double) : (4 * (a + b)).val = 4 * (a + b).val := by
  rw [Double.val_mul, Double.val_four, Double.val_add]
  simpa using to_double_two_pow_mul (a.val + b.val) 2

/-- Twice a sum of `double`s is exact. -/
theorem Double.val_two_mul_add (a b : Double) : (2 * (a + b)).val = 2 * (a + b).val := by
  rw [Double.val_mul, Double.val_two, Double.val_add]
  simpa using to_double_two_pow_mul (a.val + b.val) 1

/-- The truncation of a `double` toward zero is no larger in size than a bound of the value. -/
theorem abs_to_int_le (d : Double) (N : ℤ) (h : |d.val| ≤ N) : |to_int d| ≤ N := by
  rw [abs_le] at h
  unfold to_int
  split_ifs with h0
  · have h1 := rat_floor_le d.val
    have h2 : (0 : ℤ) ≤ Rat.floor d.val := by
      have := rat_lt_floor_add_one d.val
      have : (0 : ℚ) < (Rat.floor d.val : ℚ) + 1 := by linarith
      have : (0 : ℤ) < Rat.floor d.val + 1 := by exact_mod_cast this
      omega
    have h3 : Rat.floor d.val ≤ N := by
      have : (Rat.floor d.val : ℚ) ≤ N := by linarith
      exact_mod_cast this
    rw [abs_le]
    omega
  · have h1 := rat_floor_le (-d.val)
    have h2 : (0 : ℤ) ≤ Rat.floor (-d.val) := by
      have := rat_lt_floor_add_one (-d.val)
      have : (0 : ℚ) < (Rat.floor (-d.val) : ℚ) + 1 := by linarith
      have : (0 : ℤ) < Rat.floor (-d.val) + 1 := by exact_mod_cast this
      omega
    have h3 : Rat.floor (-d.val) ≤ N := by
      have : (Rat.floor (-d.val) : ℚ) ≤ N := by linarith
      exact_mod_cast this
    rw [abs_le]
    omega

/-- The sign test of `set_estimated_rtt` takes the absolute value. -/
theorem neg_if_neg_eq_abs (z : ℤ) : (if z < 0 then z * -1 else z) = |z| := by
  split_ifs with h
  · rw [abs_of_neg h]
    ring
  · rw [abs_of_nonneg (not_lt.mp h)]

/-- The truncation of a non-negative `double` below 2^32 to `uint32_t` is its integer part. -/
theorem to_uint32_of_lt (d : Double) (h0 : 0 ≤ d.val) (h1 : d.val < 2 ^ 32) :
    to_uint32 d = (Rat.floor d.val).toNat ∧ ((Rat.floor d.val).toNat : ℚ) ≤ d.val
      ∧ d.val < (Rat.floor d.val).toNat + 1 := by
  have hf := rat_floor_le d.val
  have hf2 := rat_lt_floor_add_one d.val
  have hnn : (0 : ℤ) ≤ Rat.floor d.val := by
    have : (0 : ℚ) < (Rat.floor d.val : ℚ) + 1 := by linarith
    have : (0 : ℤ) < Rat.floor d.val + 1 := by exact_mod_cast this
    omega
  have hlt : Rat.floor d.val < 2 ^ 32 := by
    have : (Rat.floor d.val : ℚ) < 2 ^ 32 := by linarith
    exact_mod_cast this
  have hcast : (((Rat.floor d.val).toNat : ℤ) : ℚ) = (Rat.floor d.val : ℚ) := by
    rw [Int.toNat_of_nonneg hnn]
  have hcast2 : (((Rat.floor d.val).toNat : ℕ) : ℚ) = (Rat.floor d.val : ℚ) := by
    rw [← hcast]
    norm_cast
  refine ⟨?_, ?_, ?_⟩
  · unfold to_uint32
    apply Nat.mod_eq_of_lt
    omega
  · rw [hcast2]
    exact hf
  · rw [hcast2]
    exact hf2

/-- What one call of `set_estimated_rtt` computes while the statistics and the sample are
between 0 and 2^29 ms, where every conversion is defined. -/
theorem set_estimated_rtt_in_range (sock : ReliableSocket)
    (he0 : 0 ≤ sock.estimated_rtt.val) (he1 : sock.estimated_rtt.val ≤ 2 ^ 29)
    (hd0 : 0 ≤ sock.dev_rtt.val) (hd1 : sock.dev_rtt.val ≤ 2 ^ 29)
    (hm0 : 0 ≤ sock.current_rtt) (hm1 : sock.current_rtt ≤ 2 ^ 29) :
    (set_estimated_rtt sock).estimated_rtt.val
        = to_double (to_double ((1 - 0.125) * sock.estimated_rtt.val)
            + 0.125 * sock.current_rtt)
    ∧ |(set_estimated_rtt sock).estimated_rtt.val
          - ((1 - 0.125) * sock.estimated_rtt.val + 0.125 * sock.current_rtt)| ≤ 1 / 2 ^ 23
    ∧ ((sock.current_rtt : Double) - (set_estimated_rtt sock).estimated_rtt).val
        = to_double (sock.current_rtt - (set_estimated_rtt sock).estimated_rtt.val)
    ∧ |to_int ((sock.current_rtt : Double) - (set_estimated_rtt sock).estimated_rtt)| < 2 ^ 31
    ∧ (set_estimated_rtt sock).dev_rtt.val
        = to_double (to_double ((1 - 0.25) * sock.dev_rtt.val)
            + 0.25 * |to_int ((sock.current_rtt : Double)
                - (set_estimated_rtt sock).estimated_rtt)|)
    ∧ |(set_estimated_rtt sock).dev_rtt.val
          - ((1 - 0.25) * sock.dev_rtt.val
            + 0.25 * |to_int ((sock.current_rtt : Double)
                - (set_estimated_rtt sock).estimated_rtt)|)| ≤ 1 / 2 ^ 23
    ∧ (set_estimated_rtt sock).timeouts
        = sock.timeouts
          ++ [(Rat.floor (to_double ((set_estimated_rtt sock).estimated_rtt.val
                + 4 * (set_estimated_rtt sock).dev_rtt.val))).toNat]
    ∧ to_double ((set_estimated_rtt sock).estimated_rtt.val
          + 4 * (set_estimated_rtt sock).dev_rtt.val) < 2 ^ 32
    ∧ (0 ≤ (set_estimated_rtt sock).estimated_rtt.val
        ∧ (set_estimated_rtt sock).estimated_rtt.val ≤ 2 ^ 29)
    ∧ 0 ≤ (set_estimated_rtt sock).dev_rtt.val
        ∧ (set_estimated_rtt sock).dev_rtt.val ≤ 2 ^ 29 := by
  have hm53 : |sock.current_rtt| < 2 ^ 53 := by
    rw [abs_lt]
    omega
  have hmq0 : (0 : ℚ) ≤ sock.current_rtt := by exact_mod_cast hm0
  have hmq1 : (sock.current_rtt : ℚ) ≤ 2 ^ 29 := by exact_mod_cast hm1
  -- the mean
  have hE1 : (sock.estimated_rtt * (1 - 0.125)).val
      = to_double ((1 - 0.125) * sock.estimated_rtt.val) := by
    rw [Double.val_mul, Double.val_one_sub_eighth]
    congr 1
    norm_num
    ring
  have hE1b := to_double_between ((1 - 0.125) * sock.estimated_rtt.val) 0 (7 * 2 ^ 26)
    (by push_cast; norm_num; linarith) (by push_cast; norm_num; linarith) (by norm_num)
    (by norm_num)
  have hE : (set_estimated_rtt sock).estimated_rtt.val
      = to_double (to_double ((1 - 0.125) * sock.estimated_rtt.val)
          + 0.125 * sock.current_rtt) := by
    show (sock.estimated_rtt * (1 - 0.125) + (sock.current_rtt : Double) * 0.125).val = _
    rw [Double.val_add, hE1, Double.val_int_mul_eighth _ hm53]
    congr 1
    norm_num
    ring
  have hEb := to_double_between (to_double ((1 - 0.125) * sock.estimated_rtt.val)
      + 0.125 * sock.current_rtt) 0 (2 ^ 29)
    (by push_cast at hE1b ⊢; norm_num at hE1b ⊢; linarith)
    (by push_cast at hE1b ⊢; norm_num at hE1b ⊢; linarith) (by norm_num) (by norm_num)
  rw [← hE] at hEb
  have hEerr : |(set_estimated_rtt sock).estimated_rtt.val
      - ((1 - 0.125) * sock.estimated_rtt.val + 0.125 * sock.current_rtt)| ≤ 1 / 2 ^ 23 := by
    have e1 := abs_to_double_sub_le_of_lt ((1 - 0.125) * sock.estimated_rtt.val) (-23)
      (by norm_num) (by
        rw [abs_lt]
        norm_num
        constructor <;> linarith)
    have e2 := abs_to_double_sub_le_of_lt (to_double ((1 - 0.125) * sock.estimated_rtt.val)
      + 0.125 * sock.current_rtt) (-23) (by norm_num) (by
        push_cast at hE1b
        rw [abs_lt]
        norm_num at hE1b ⊢
        constructor <;> linarith)
    rw [← hE] at e2
    rw [abs_le] at e1 e2 ⊢
    norm_num at e1 e2 ⊢
    constructor <;> linarith
  -- the difference
  have hX : ((sock.current_rtt : Double) - (set_estimated_rtt sock).estimated_rtt).val
      = to_double (sock.current_rtt - (set_estimated_rtt sock).estimated_rtt.val) := by
    rw [Double.val_sub, Double.val_intCast _ hm53]
  have hXb := to_double_between
    (sock.current_rtt - (set_estimated_rtt sock).estimated_rtt.val) (-(2 ^ 29)) (2 ^ 29)
    (by push_cast at hEb ⊢; linarith) (by push_cast at hEb ⊢; linarith) (by norm_num)
    (by norm_num)
  rw [← hX] at hXb
  have hDle : |to_int ((sock.current_rtt : Double) - (set_estimated_rtt sock).estimated_rtt)|
      ≤ 2 ^ 29 :=
    abs_to_int_le _ _ (by
      rw [abs_le]
      push_cast at hXb ⊢
      exact hXb)
  have hD53 : |(|to_int ((sock.current_rtt : Double)
      - (set_estimated_rtt sock).estimated_rtt)|)| < 2 ^ 53 := by
    rw [abs_abs]
    omega
  have hDq0 : (0 : ℚ) ≤ ((|to_int ((sock.current_rtt : Double)
      - (set_estimated_rtt sock).estimated_rtt)| : ℤ) : ℚ) := by
    exact_mod_cast abs_nonneg _
  have hDq1 : ((|to_int ((sock.current_rtt : Double)
      - (set_estimated_rtt sock).estimated_rtt)| : ℤ) : ℚ) ≤ 2 ^ 29 := by
    exact_mod_cast hDle
  have hDa0 : (0 : ℚ) ≤ |((to_int ((sock.current_rtt : Double)
      - (set_estimated_rtt sock).estimated_rtt) : ℤ) : ℚ)| := abs_nonneg _
  have hDa1 : |((to_int ((sock.current_rtt : Double)
      - (set_estimated_rtt sock).estimated_rtt) : ℤ) : ℚ)| ≤ 2 ^ 29 := by
    rw [← Int.cast_abs]
    exact hDq1
  -- the deviation
  have hV1 : (sock.dev_rtt * (1 - 0.25)).val = to_double ((1 - 0.25) * sock.dev_rtt.val) := by
    rw [Double.val_mul, Double.val_one_sub_quarter]
    congr 1
    norm_num
    ring
  have hV1b := to_double_between ((1 - 0.25) * sock.dev_rtt.val) 0 (3 * 2 ^ 27)
    (by push_cast; norm_num; linarith) (by push_cast; norm_num; linarith) (by norm_num)
    (by norm_num)
  have hV : (set_estimated_rtt sock).dev_rtt.val
      = to_double (to_double ((1 - 0.25) * sock.dev_rtt.val)
          + 0.25 * |to_int ((sock.current_rtt : Double)
              - (set_estimated_rtt sock).estimated_rtt)|) := by
    show (sock.dev_rtt * (1 - 0.25)
      + ((if to_int ((sock.current_rtt : Double)
            - (sock.estimated_rtt * (1 - 0.125) + (sock.current_rtt : Double) * 0.125)) < 0
          then to_int ((sock.current_rtt : Double)
            - (sock.estimated_rtt * (1 - 0.125) + (sock.current_rtt : Double) * 0.125)) * -1
          else to_int ((sock.current_rtt : Double)
            - (sock.estimated_rtt * (1 - 0.125) + (sock.current_rtt : Double) * 0.125)) : ℤ)
        : Double) * 0.25).val = _
    rw [neg_if_neg_eq_abs, Double.val_add, hV1]
    have hD53' : |(|to_int ((sock.current_rtt : Double)
        - (sock.estimated_rtt * (1 - 0.125) + (sock.current_rtt : Double) * 0.125))|)|
        < 2 ^ 53 := hD53
    rw [Double.val_int_mul_quarter _ hD53']
    congr 1
    have : (set_estimated_rtt sock).estimated_rtt
        = sock.estimated_rtt * (1 - 0.125) + (sock.current_rtt : Double) * 0.125 := rfl
    rw [this]
    norm_num
    ring
  have hVb := to_double_between (to_double ((1 - 0.25) * sock.dev_rtt.val)
      + 0.25 * |to_int ((sock.current_rtt : Double)
          - (set_estimated_rtt sock).estimated_rtt)|) 0 (2 ^ 29)
    (by push_cast at hV1b ⊢; norm_num at hV1b ⊢; linarith)
    (by push_cast at hV1b ⊢; norm_num at hV1b ⊢; linarith) (by norm_num) (by norm_num)
  rw [← hV] at hVb
  have hVerr : |(set_estimated_rtt sock).dev_rtt.val
      - ((1 - 0.25) * sock.dev_rtt.val
        + 0.25 * |to_int ((sock.current_rtt : Double)
            - (set_estimated_rtt sock).estimated_rtt)|)| ≤ 1 / 2 ^ 23 := by
    have e1 := abs_to_double_sub_le_of_lt ((1 - 0.25) * sock.dev_rtt.val) (-23)
      (by norm_num) (by
        rw [abs_lt]
        norm_num
        constructor <;> linarith)
    have e2 := abs_to_double_sub_le_of_lt (to_double ((1 - 0.25) * sock.dev_rtt.val)
      + 0.25 * |to_int ((sock.current_rtt : Double)
          - (set_estimated_rtt sock).estimated_rtt)|) (-23) (by norm_num) (by
        push_cast at hV1b
        rw [abs_lt]
        norm_num at hV1b ⊢
        constructor <;> linarith)
    rw [← hV] at e2
    rw [abs_le] at e1 e2 ⊢
    norm_num at e1 e2 ⊢
    constructor <;> linarith
  -- the timeout
  have hT : ((set_estimated_rtt sock).estimated_rtt + 4 * (set_estimated_rtt sock).dev_rtt).val
      = to_double ((set_estimated_rtt sock).estimated_rtt.val
          + 4 * (set_estimated_rtt sock).dev_rtt.val) := by
    have : (set_estimated_rtt sock).dev_rtt
        = sock.dev_rtt * (1 - 0.25)
          + ((if to_int ((sock.current_rtt : Double)
                - (sock.estimated_rtt * (1 - 0.125) + (sock.current_rtt : Double) * 0.125)) < 0
              then to_int ((sock.current_rtt : Double)
                - (sock.estimated_rtt * (1 - 0.125) + (sock.current_rtt : Double) * 0.125)) * -1
              else to_int ((sock.current_rtt : Double)
                - (sock.estimated_rtt * (1 - 0.125) + (sock.current_rtt : Double) * 0.125))
              : ℤ) : Double) * 0.25 := rfl
    rw [Double.val_add, this, Double.val_four_mul_add]
  have hTb := to_double_between ((set_estimated_rtt sock).estimated_rtt.val
      + 4 * (set_estimated_rtt sock).dev_rtt.val) 0 (5 * 2 ^ 29)
    (by push_cast at hEb hVb ⊢; linarith) (by push_cast at hEb hVb ⊢; linarith)
    (by norm_num) (by norm_num)
  have hTlt : to_double ((set_estimated_rtt sock).estimated_rtt.val
      + 4 * (set_estimated_rtt sock).dev_rtt.val) < 2 ^ 32 := by
    have := hTb.2
    push_cast at this
    linarith
  have hTo : (set_estimated_rtt sock).timeouts
      = sock.timeouts
        ++ [(Rat.floor (to_double ((set_estimated_rtt sock).estimated_rtt.val
              + 4 * (set_estimated_rtt sock).dev_rtt.val))).toNat] := by
    have h1 : (set_estimated_rtt sock).timeouts
        = sock.timeouts ++ [to_uint32 ((set_estimated_rtt sock).estimated_rtt
            + 4 * (set_estimated_rtt sock).dev_rtt)] := rfl
    rw [h1, (to_uint32_of_lt _ (by rw [hT]; exact_mod_cast hTb.1) (by rw [hT]; exact hTlt)).1,
      hT]
  refine ⟨hE, hEerr, hX, ?_, hV, hVerr, hTo, hTlt, ?_, ?_⟩
  · omega
  · exact_mod_cast hEb
  · exact_mod_cast hVb

/-! ## Lemmas: timeouts inside `reliable_send` -/

theorem to_uint32_lt (q : Double) : to_uint32 q < 2 ^ 32 :=
  Nat.mod_lt _ (by decide)

theorem backoff_succ (first n : Nat) :
    backoff first (n + 1) = first % 2 ^ 32 :: backoff ((first * 2) % 2 ^ 32) n := by
  simp only [backoff, List.range_succ_eq_map, List.map_cons, List.map_map, pow_zero, mul_one]
  congr 1
  apply List.map_congr_left
  intro i _
  simp only [Function.comp, Nat.succ_eq_add_one, pow_succ]
  rw [Nat.mod_mul_mod]
  congr 1
  ring

/-- Inside `reliable_send`, after a timeout has set `doubled_timeout` to `d`, each further
timeout sends again and applies the double of the timeout before, modulo 2^32. -/
theorem reliable_send_loop_timeouts (send_seg : Segment) (tail : List RecvResult)
    (waits : List Nat) :
    ∀ (d : Nat) (sock : ReliableSocket), d < 2 ^ 32 →
      reliable_send_loop send_seg (some d) sock (waits.map RecvResult.timeout ++ tail)
        = reliable_send_loop send_seg (some ((d * 2 ^ waits.length) % 2 ^ 32))
            { sock with
              sent := sock.sent ++ List.replicate waits.length send_seg,
              timeouts := sock.timeouts ++ backoff ((d * 2) % 2 ^ 32) waits.length } tail := by
  induction waits with
  | nil =>
    intro d sock hd
    have hd' : d % 4294967296 = d := Nat.mod_eq_of_lt hd
    simp [backoff, hd']
  | cons w ws ih =>
    intro d sock hd
    simp only [List.map_cons, List.cons_append, reliable_send_loop, List.length_cons,
      List.append_eq]
    rw [ih ((d * 2) % 2 ^ 32) (set_timeout_length (sock.sock_send send_seg)
      ((d * 2) % 2 ^ 32)) (Nat.mod_lt _ (by decide)), backoff_succ]
    simp only [Nat.mod_mod, Nat.mod_mul_mod, set_timeout_length,
      ReliableSocket.sock_send, List.append_assoc, List.singleton_append,
      List.replicate_succ, pow_succ]
    congr 2
    ring_nf


theorem replicate_snoc (n : Nat) (seg : Segment) :
    List.replicate n seg ++ [seg] = seg :: List.replicate n seg := by
  rw [← List.replicate_succ', List.replicate_succ]

/-- One call of `reliable_send` on `waits.length` timeouts and then a datagram: the segment
is sent once per `recv`, the timeouts applied are the smoothed one, then the doubled ones,
and one RTT sample, the time the last `recv` took, is recorded at the end. -/
theorem reliable_send_run (send_seg : Segment) (sock : ReliableSocket) (waits : List Nat)
    (elapsed count : Nat) (seg : Segment) (rest : List RecvResult) :
    reliable_send send_seg sock
        (waits.map RecvResult.timeout ++ .datagram elapsed count seg :: rest)
      = .returned (count, seg)
          (set_estimated_rtt
            { sock with
              current_rtt := (elapsed : Int),
              sent := sock.sent ++ List.replicate (waits.length + 1) send_seg,
              timeouts := sock.timeouts
                ++ to_uint32 (sock.estimated_rtt + 4 * sock.dev_rtt)
                  :: backoff (to_uint32 (2 * (sock.estimated_rtt + 4 * sock.dev_rtt)))
                      waits.length }) rest := by
  cases waits with
  | nil =>
    simp [reliable_send, reliable_send_loop, backoff, set_timeout_length,
      ReliableSocket.sock_send]
  | cons w ws =>
    simp only [reliable_send, List.map_cons, List.cons_append, reliable_send_loop,
      List.length_cons, List.append_eq]
    rw [reliable_send_loop_timeouts send_seg _ ws _ _ (to_uint32_lt _), backoff_succ]
    simp only [reliable_send_loop, set_timeout_length, ReliableSocket.sock_send,
      Nat.mod_eq_of_lt (to_uint32_lt _), List.append_assoc, List.singleton_append,
      List.cons_append, List.nil_append]
    simp [List.replicate_succ, replicate_snoc]

/-- One call of `reliable_send` on `waits.length` timeouts and nothing else: it is blocked in
`recv`, the RTT statistics are as they were. -/
theorem reliable_send_blocked (send_seg : Segment) (sock : ReliableSocket) (waits : List Nat) :
    reliable_send send_seg sock (waits.map RecvResult.timeout)
      = .blocked
          { sock with
            sent := sock.sent ++ List.replicate (waits.length + 1) send_seg,
            timeouts := sock.timeouts
              ++ to_uint32 (sock.estimated_rtt + 4 * sock.dev_rtt)
                :: backoff (to_uint32 (2 * (sock.estimated_rtt + 4 * sock.dev_rtt)))
                    waits.length } := by
  cases waits with
  | nil =>
    simp [reliable_send, reliable_send_loop, backoff, set_timeout_length,
      ReliableSocket.sock_send]
  | cons w ws =>
    have h := reliable_send_loop_timeouts send_seg [] ws
    simp only [List.append_nil] at h
    simp only [reliable_send, List.map_cons, reliable_send_loop, List.length_cons]
    rw [h _ _ (to_uint32_lt _), backoff_succ]
    simp only [reliable_send_loop, set_timeout_length, ReliableSocket.sock_send,
      Nat.mod_eq_of_lt (to_uint32_lt _), List.append_assoc, List.singleton_append,
      List.cons_append, List.nil_append]
    simp [List.replicate_succ, replicate_snoc]

/-! ## C11, C12: the handshake -/

/-- C11: from state INIT and after the CONN, `accept_connection` sends a SYNACK (type
`RDT_SYNACK`, both numbers 0, no payload), sends it again after every timeout and after
every reply that is not an ACK and keeps waiting in state INIT; on the first ACK it returns
with the state ESTABLISHED.  On every trace that leaves the state ESTABLISHED the call has
returned, an ACK arrived after the first segment and a SYNACK was sent. -/
theorem accept_connection_handshake (sock : ReliableSocket) (first_elapsed first_count : Nat)
    (conn : Segment) (pre : List RecvResult) (elapsed count : Nat) (ack : Segment)
    (rest other : List RecvResult) (hst : sock.state = .INIT) (hconn : conn.type = RDT_CONN)
    (hpre : ∀ ev ∈ pre, ev.retried stop_on_ack = true) (hack : ack.type = RDT_ACK)
    (hest : (accept_connection sock other).sock.state = .ESTABLISHED) :
    (∃ sock1,
        accept_connection sock (.datagram first_elapsed first_count conn :: pre)
          = .blocked sock1
        ∧ sock1.state = .INIT
        ∧ sock1.sent = sock.sent ++ List.replicate (pre.length + 1)
            { type := RDT_SYNACK, sequence_number := 0, ack_number := 0, data := [] })
    ∧ (∃ sock1,
        accept_connection sock
            (.datagram first_elapsed first_count conn
              :: (pre ++ .datagram elapsed count ack :: rest))
          = .returned () sock1 rest
        ∧ sock1.state = .ESTABLISHED
        ∧ sock1.sent = sock.sent ++ List.replicate (pre.length + 1)
            { type := RDT_SYNACK, sequence_number := 0, ack_number := 0, data := [] })
    ∧ (accept_connection sock other).hasReturned = true
    ∧ (∃ e c seg, RecvResult.datagram e c seg ∈ other.tail ∧ seg.type = RDT_ACK)
    ∧ ({ type := RDT_SYNACK, sequence_number := 0, ack_number := 0, data := [] } : Segment)
        ∈ (accept_connection sock other).sock.sent :=
  ⟨accept_connection_waits sock first_elapsed first_count conn pre hst hconn hpre,
    accept_connection_run sock first_elapsed first_count conn pre elapsed count ack rest hst
      hconn hpre hack,
    accept_connection_only_after_ack sock other hst hest⟩

/-- C11 at a new socket: CONN, then a timeout and a stray CONN, then the ACK. -/
theorem accept_connection_handshake_witness :
    ReliableSocket.new.state = .INIT ∧ conn_segment.type = RDT_CONN
    ∧ (∀ ev ∈ [RecvResult.timeout 140, RecvResult.datagram 3 9 conn_segment],
        ev.retried stop_on_ack = true)
    ∧ handshake_ack_segment.type = RDT_ACK
    ∧ (accept_connection ReliableSocket.new
          [.datagram 0 9 conn_segment, .timeout 140,
            .datagram 5 9 handshake_ack_segment]).sock.state = .ESTABLISHED
    ∧ (∃ sock1,
        accept_connection ReliableSocket.new
            (.datagram 0 9 conn_segment
              :: [RecvResult.timeout 140, RecvResult.datagram 3 9 conn_segment])
          = .blocked sock1
        ∧ sock1.state = .INIT
        ∧ sock1.sent = ReliableSocket.new.sent
            ++ List.replicate
                ([RecvResult.timeout 140, RecvResult.datagram 3 9 conn_segment].length + 1)
                { type := RDT_SYNACK, sequence_number := 0, ack_number := 0, data := [] })
    ∧ (∃ sock1,
        accept_connection ReliableSocket.new
            (.datagram 0 9 conn_segment
              :: ([RecvResult.timeout 140, RecvResult.datagram 3 9 conn_segment]
                ++ .datagram 5 9 handshake_ack_segment :: []))
          = .returned () sock1 []
        ∧ sock1.state = .ESTABLISHED
        ∧ sock1.sent = ReliableSocket.new.sent
            ++ List.replicate
                ([RecvResult.timeout 140, RecvResult.datagram 3 9 conn_segment].length + 1)
                { type := RDT_SYNACK, sequence_number := 0, ack_number := 0, data := [] })
    ∧ (accept_connection ReliableSocket.new
          [.datagram 0 9 conn_segment, .timeout 140,
            .datagram 5 9 handshake_ack_segment]).hasReturned = true
    ∧ (∃ e c seg,
        RecvResult.datagram e c seg
          ∈ [RecvResult.datagram 0 9 conn_segment, .timeout 140,
              .datagram 5 9 handshake_ack_segment].tail
        ∧ seg.type = RDT_ACK)
    ∧ ({ type := RDT_SYNACK, sequence_number := 0, ack_number := 0, data := [] } : Segment)
        ∈ (accept_connection ReliableSocket.new
            [.datagram 0 9 conn_segment, .timeout 140,
              .datagram 5 9 handshake_ack_segment]).sock.sent :=
  ⟨rfl, rfl, by decide, rfl, by decide,
    accept_connection_handshake ReliableSocket.new 0 9 conn_segment
      [RecvResult.timeout 140, RecvResult.datagram 3 9 conn_segment] 5 9
      handshake_ack_segment []
      [.datagram 0 9 conn_segment, .timeout 140, .datagram 5 9 handshake_ack_segment]
      rfl rfl (by decide) rfl (by decide)⟩

/-- C12 fails on the code: `connect_to_remote` sends CONN exactly once and never receives
before it sends the ACK.  Whatever arrives, it sends one ACK per `recv` result it reads,
and at the first timeout it returns with the state ESTABLISHED, whether or not a SYNACK
(or anything at all) has been received. -/
theorem connect_to_remote_without_synack (sock : ReliableSocket) (replies : List RecvResult)
    (quiet : Nat) (rest trace : List RecvResult) (hst : sock.state = .INIT)
    (hrep : ∀ ev ∈ replies, ev.isDatagram = true) :
    connect_to_remote sock (replies ++ .timeout quiet :: rest)
      = .returned ()
          { sock with
            state := .ESTABLISHED,
            sent := sock.sent ++ conn_segment
              :: List.replicate (replies.length + 1) handshake_ack_segment,
            timeouts := sock.timeouts ++ List.replicate (replies.length + 1)
              (to_uint32 (sock.estimated_rtt + sock.dev_rtt * 4)) } rest
    ∧ ∃ k, (connect_to_remote sock trace).sock.sent
        = sock.sent ++ conn_segment :: List.replicate (k + 1) handshake_ack_segment := by
  constructor
  · simp only [connect_to_remote, hst, ne_eq, not_true_eq_false, if_false]
    rw [timeout_send_until_quiet handshake_ack_segment replies hrep _ quiet rest]
    simp [ReliableSocket.sock_send]
  · have hfr := timeout_send_frame handshake_ack_segment trace (sock.sock_send conn_segment)
    obtain ⟨_, _, _, _, j, hj⟩ := hfr
    refine ⟨j, ?_⟩
    simp only [connect_to_remote, hst, ne_eq, not_true_eq_false, if_false]
    cases h : timeout_send handshake_ack_segment (sock.sock_send conn_segment) trace with
    | returned v s r => rw [h] at hj; simpa [Outcome.sock, ReliableSocket.sock_send] using hj
    | blocked s => rw [h] at hj; simpa [Outcome.sock, ReliableSocket.sock_send] using hj
    | exited s => rw [h] at hj; simpa [Outcome.sock, ReliableSocket.sock_send] using hj
    | undefined s => rw [h] at hj; simpa [Outcome.sock, ReliableSocket.sock_send] using hj

/-- C12 at a new socket on which nothing ever arrives: one timeout. -/
theorem connect_to_remote_without_synack_witness :
    ReliableSocket.new.state = .INIT
    ∧ (∀ ev ∈ ([] : List RecvResult), ev.isDatagram = true)
    ∧ connect_to_remote ReliableSocket.new (([] : List RecvResult) ++ .timeout 140 :: [])
        = .returned ()
            { ReliableSocket.new with
              state := .ESTABLISHED,
              sent := ReliableSocket.new.sent ++ conn_segment
                :: List.replicate (([] : List RecvResult).length + 1) handshake_ack_segment,
              timeouts := ReliableSocket.new.timeouts
                ++ List.replicate (([] : List RecvResult).length + 1)
                    (to_uint32 (ReliableSocket.new.estimated_rtt
                      + ReliableSocket.new.dev_rtt * 4)) } []
    ∧ ∃ k, (connect_to_remote ReliableSocket.new [RecvResult.timeout 140]).sock.sent
        = ReliableSocket.new.sent ++ conn_segment
          :: List.replicate (k + 1) handshake_ack_segment :=
  ⟨rfl, by decide,
    connect_to_remote_without_synack ReliableSocket.new [] 140 [] [RecvResult.timeout 140] rfl
      (by decide)⟩

/-! ## C13, C14: closing, and the order of the states -/

/-- C13: in state FIN (the peer's CLOSE has been seen by `receive_data`), `close_connection`
sends its own CLOSE (type `RDT_CLOSE`, both numbers 0, no payload), sends it again after
every timeout and after every reply that is not an ACK, and keeps waiting with the socket
open; on the first ACK it returns with the state CLOSED and the socket closed exactly once.
On every trace on which it returns, an ACK has been received. -/
theorem close_connection_after_peer_close (TIME_WAIT : Nat) (sock : ReliableSocket)
    (pre : List RecvResult) (elapsed count : Nat) (ack : Segment)
    (rest other : List RecvResult) (hst : sock.state = .FIN)
    (hpre : ∀ ev ∈ pre, ev.retried stop_on_ack = true) (hack : ack.type = RDT_ACK)
    (hret : (close_connection TIME_WAIT sock other).hasReturned = true) :
    (∃ sock1, close_connection TIME_WAIT sock pre = .blocked sock1
        ∧ sock1.state = .FIN ∧ sock1.fd_closed = sock.fd_closed
        ∧ sock1.sent = sock.sent ++ List.replicate (pre.length + 2)
            { type := RDT_CLOSE, sequence_number := 0, ack_number := 0, data := [] })
    ∧ (∃ sock1,
        close_connection TIME_WAIT sock (pre ++ .datagram elapsed count ack :: rest)
          = .returned () sock1 rest
        ∧ sock1.state = .CLOSED ∧ sock1.fd_closed = sock.fd_closed + 1
        ∧ sock1.sent = sock.sent ++ List.replicate (pre.length + 2)
            { type := RDT_CLOSE, sequence_number := 0, ack_number := 0, data := [] })
    ∧ ∃ e c seg, RecvResult.datagram e c seg ∈ other ∧ seg.type = RDT_ACK :=
  ⟨close_connection_fin_waits TIME_WAIT sock pre hst hpre,
    close_connection_fin_run TIME_WAIT sock pre elapsed count ack rest hst hpre hack,
    close_connection_fin_only_after_ack TIME_WAIT sock other hst hret⟩

/-- C13 at a connection in state FIN: a timeout and a stray DATA segment, then the ACK. -/
theorem close_connection_after_peer_close_witness :
    ({ established with state := .FIN } : ReliableSocket).state = .FIN
    ∧ (∀ ev ∈ [RecvResult.timeout 140, RecvResult.datagram 3 9 (data_segment 0 [])],
        ev.retried stop_on_ack = true)
    ∧ handshake_ack_segment.type = RDT_ACK
    ∧ (close_connection 1000 { established with state := .FIN }
          [.timeout 140, .datagram 5 9 handshake_ack_segment]).hasReturned = true
    ∧ (∃ sock1,
        close_connection 1000 { established with state := .FIN }
            [RecvResult.timeout 140, RecvResult.datagram 3 9 (data_segment 0 [])]
          = .blocked sock1
        ∧ sock1.state = .FIN
        ∧ sock1.fd_closed = ({ established with state := .FIN } : ReliableSocket).fd_closed
        ∧ sock1.sent = ({ established with state := .FIN } : ReliableSocket).sent
            ++ List.replicate
                ([RecvResult.timeout 140,
                  RecvResult.datagram 3 9 (data_segment 0 [])].length + 2)
                { type := RDT_CLOSE, sequence_number := 0, ack_number := 0, data := [] })
    ∧ (∃ sock1,
        close_connection 1000 { established with state := .FIN }
            ([RecvResult.timeout 140, RecvResult.datagram 3 9 (data_segment 0 [])]
              ++ .datagram 5 9 handshake_ack_segment :: [])
          = .returned () sock1 []
        ∧ sock1.state = .CLOSED
        ∧ sock1.fd_closed
            = ({ established with state := .FIN } : ReliableSocket).fd_closed + 1
        ∧ sock1.sent = ({ established with state := .FIN } : ReliableSocket).sent
            ++ List.replicate
                ([RecvResult.timeout 140,
                  RecvResult.datagram 3 9 (data_segment 0 [])].length + 2)
                { type := RDT_CLOSE, sequence_number := 0, ack_number := 0, data := [] })
    ∧ ∃ e c seg,
        RecvResult.datagram e c seg
          ∈ [RecvResult.timeout 140, RecvResult.datagram 5 9 handshake_ack_segment]
        ∧ seg.type = RDT_ACK :=
  ⟨rfl, by decide, rfl, by decide,
    close_connection_after_peer_close 1000 { established with state := .FIN }
      [RecvResult.timeout 140, RecvResult.datagram 3 9 (data_segment 0 [])] 5 9
      handshake_ack_segment [] [.timeout 140, .datagram 5 9 handshake_ack_segment]
      rfl (by decide) rfl (by decide)⟩

/-- C14: with the states ordered INIT < ESTABLISHED < FIN < CLOSED, none of
`accept_connection`, `connect_to_remote`, `send_data`, `receive_data` and
`close_connection` leaves a connection in an earlier state than it found it in, whatever
the starting state and the trace, and however the call ends. -/
theorem state_never_goes_back (TIME_WAIT : Nat) (sock : ReliableSocket)
    (data buffer : List Nat) (trace : List RecvResult) :
    sock.state.rank ≤ (accept_connection sock trace).sock.state.rank
    ∧ sock.state.rank ≤ (connect_to_remote sock trace).sock.state.rank
    ∧ sock.state.rank ≤ (send_data sock data trace).sock.state.rank
    ∧ sock.state.rank ≤ (receive_data sock buffer trace).sock.state.rank
    ∧ sock.state.rank ≤ (close_connection TIME_WAIT sock trace).sock.state.rank :=
  ⟨accept_connection_rank sock trace, connect_to_remote_rank sock trace,
    send_data_rank sock data trace, receive_data_rank sock buffer trace,
    close_connection_rank TIME_WAIT sock trace⟩

/-- A value in the normal range whose scaled distance to the integer `n` is less than a
half rounds to `n` units in the last place. -/
theorem to_double_eq_of (q : ℚ) (e n : ℤ) (he : -1074 ≤ e) (hlo : 2 ^ (e + 52) ≤ |q|)
    (hhi : |q| < 2 ^ (e + 53)) (hn : |(n : ℚ) - q / 2 ^ e| < 1 / 2) :
    to_double q = n * 2 ^ e := by
  have hpos : 0 < |q| := lt_of_lt_of_le (two_zpow_pos _) hlo
  have hlog1 : e + 52 ≤ Int.log 2 |q| := by
    apply (Int.zpow_le_iff_le_log (by norm_num) hpos).mp
    simpa using hlo
  have hlog2 : Int.log 2 |q| < e + 53 := by
    apply (Int.lt_zpow_iff_log_lt (by norm_num) hpos).mp
    simpa using hhi
  have hu : ulp_exponent q = e := by
    unfold ulp_exponent
    rw [max_eq_left (by omega)]
    omega
  unfold to_double
  rw [hu]
  congr 2
  rw [abs_lt] at hn
  have hfl := rat_floor_le (q / 2 ^ e)
  have hfl2 := rat_lt_floor_add_one (q / 2 ^ e)
  have hcase : Rat.floor (q / 2 ^ e) = n ∨ Rat.floor (q / 2 ^ e) = n - 1 := by
    have h1 : ((n - 1 : ℤ) : ℚ) < (Rat.floor (q / 2 ^ e) : ℚ) + 1 := by
      push_cast
      linarith
    have h2 : (Rat.floor (q / 2 ^ e) : ℚ) < ((n + 1 : ℤ) : ℚ) := by
      push_cast
      linarith
    have h1' : n - 1 < Rat.floor (q / 2 ^ e) + 1 := by exact_mod_cast h1
    have h2' : Rat.floor (q / 2 ^ e) < n + 1 := by exact_mod_cast h2
    omega
  unfold round_half_even
  rcases hcase with h | h
  · rw [h, if_pos (by linarith)]
  · rw [h]
    have hx : ¬ (q / 2 ^ e - ((n - 1 : ℤ) : ℚ) < 1 / 2) := by
      push_cast
      linarith
    have hy : 1 / 2 < q / 2 ^ e - ((n - 1 : ℤ) : ℚ) := by
      push_cast
      linarith
    rw [if_neg hx, if_pos hy]
    ring

/-- A product that is not a binary64 number: 0.875 times the `double` after 1 is rounded
up to 0.875 + 2^-52. -/
theorem to_double_seven_eighths_next :
    to_double ((1 - 0.125) * (1 + 1 / 2 ^ 52)) = 7 / 8 + 1 / 2 ^ 52 := by
  rw [to_double_eq_of ((1 - 0.125) * (1 + 1 / 2 ^ 52)) (-53) (7 * 2 ^ 50 + 2) (by norm_num)
    (by norm_num [abs_of_pos]) (by norm_num [abs_of_pos]) (by norm_num [abs_lt])]
  norm_num

/-- The conversion to `uint32_t` of a `double` whose value is a natural number below 2^32. -/
theorem to_uint32_of_val (d : Double) (n : ℕ) (h : d.val = n) (hn : n < 2 ^ 32) :
    to_uint32 d = n := by
  unfold to_uint32
  rw [h, rat_floor_eq (n : ℚ) (n : ℤ) (by norm_num) (by norm_num)]
  simpa using Nat.mod_eq_of_lt hn

/-- The smoothed timeout of a new socket: 100 + 4 * 10 ms. -/
theorem smoothed_timeout_new :
    to_uint32 (ReliableSocket.new.estimated_rtt + 4 * ReliableSocket.new.dev_rtt) = 140 := by
  apply to_uint32_of_val _ 140 _ (by norm_num)
  show ((100 : Double) + 4 * (10 : Double)).val = ((140 : ℕ) : ℚ)
  rw [Double.val_add, Double.val_mul, Double.val_hundred, Double.val_four, Double.val_ten,
    to_double_dyadic (4 * 10) 40 0 (by norm_num) (by norm_num) (by norm_num),
    to_double_dyadic (100 + 4 * 10) 140 0 (by norm_num) (by norm_num) (by norm_num)]
  norm_num

/-- The first doubled timeout of a new socket: twice 100 + 4 * 10 ms. -/
theorem doubled_timeout_new :
    to_uint32 (2 * (ReliableSocket.new.estimated_rtt + 4 * ReliableSocket.new.dev_rtt))
      = 280 := by
  apply to_uint32_of_val _ 280 _ (by norm_num)
  show (2 * ((100 : Double) + 4 * (10 : Double))).val = ((280 : ℕ) : ℚ)
  rw [Double.val_two_mul_add, Double.val_add, Double.val_mul, Double.val_hundred,
    Double.val_four, Double.val_ten,
    to_double_dyadic (4 * 10) 40 0 (by norm_num) (by norm_num) (by norm_num),
    to_double_dyadic (100 + 4 * 10) 140 0 (by norm_num) (by norm_num) (by norm_num)]
  norm_num

/-- One sample of 108 ms on the constructor's statistics: the mean becomes 101 and the
deviation 9.25, computed from |108 - 101| = 7. -/
theorem set_estimated_rtt_at_108 :
    (set_estimated_rtt { established with current_rtt := 108 }).estimated_rtt.val = 101
    ∧ (set_estimated_rtt { established with current_rtt := 108 }).dev_rtt.val = 37 / 4 := by
  have h100 : ({ established with current_rtt := 108 } : ReliableSocket).estimated_rtt.val
      = 100 := Double.val_hundred
  have h10 : ({ established with current_rtt := 108 } : ReliableSocket).dev_rtt.val = 10 :=
    Double.val_ten
  have hm : ({ established with current_rtt := 108 } : ReliableSocket).current_rtt = 108 := rfl
  obtain ⟨hE, _, hX, _, hV, _⟩ := set_estimated_rtt_in_range
    { established with current_rtt := 108 } (by rw [h100]; norm_num) (by rw [h100]; norm_num)
    (by rw [h10]; norm_num) (by rw [h10]; norm_num) (by rw [hm]; norm_num)
    (by rw [hm]; norm_num)
  rw [h100, hm] at hE
  have hE' : (set_estimated_rtt { established with current_rtt := 108 }).estimated_rtt.val
      = 101 := by
    rw [hE, to_double_dyadic ((1 - 0.125) * 100) 175 (-1) (by norm_num) (by norm_num)
        (by norm_num),
      to_double_dyadic ((1 - 0.125) * 100 + 0.125 * ((108 : ℤ) : ℚ)) 101 0 (by norm_num)
        (by norm_num) (by norm_num)]
    norm_num
  rw [hm, hE'] at hX
  have hX' : (((108 : ℤ) : Double)
      - (set_estimated_rtt { established with current_rtt := 108 }).estimated_rtt).val = 7 := by
    rw [hX, to_double_dyadic (((108 : ℤ) : ℚ) - 101) 7 0 (by norm_num) (by norm_num)
      (by norm_num)]
    norm_num
  have hD : to_int (((108 : ℤ) : Double)
      - (set_estimated_rtt { established with current_rtt := 108 }).estimated_rtt) = 7 := by
    unfold to_int
    rw [hX', if_pos (by norm_num), rat_floor_eq 7 7 (by norm_num) (by norm_num)]
  rw [h10, hm, hD] at hV
  refine ⟨hE', ?_⟩
  rw [hV, to_double_dyadic ((1 - 0.25) * 10) 15 (-1) (by norm_num) (by norm_num)
      (by norm_num),
    to_double_dyadic ((1 - 0.25) * 10 + 0.25 * ((|(7 : ℤ)| : ℤ) : ℚ)) 37 (-2)
      (by norm_num [abs_of_pos]) (by norm_num) (by norm_num)]
  norm_num [abs_of_pos]

/-! ## C15, C16, C17: the RTT estimate and the timeouts -/

/-- C15 fails as stated: with `estimated_rtt` 100, `dev_rtt` 10 and the sample 108 the new
`estimated_rtt` is 101 = 0.875 * 100 + 0.125 * 108 and the new `dev_rtt` is
9.25 = 0.75 * 10 + 0.25 * |108 - 101|, not 0.75 * 10 + 0.25 * |108 - 100| = 9.5: the
deviation is taken from the updated estimate.  All these values are binary64 numbers, so
rounding plays no part. -/
theorem set_estimated_rtt_counterexample :
    (set_estimated_rtt { established with current_rtt := 108 }).estimated_rtt.val
      = (1 - 0.125) * established.estimated_rtt.val + 0.125 * 108
    ∧ (set_estimated_rtt { established with current_rtt := 108 }).dev_rtt.val
      = (1 - 0.25) * established.dev_rtt.val + 0.25 * |108 - 101|
    ∧ (set_estimated_rtt { established with current_rtt := 108 }).dev_rtt.val
      ≠ (1 - 0.25) * established.dev_rtt.val + 0.25 * |108 - established.estimated_rtt.val| := by
  have h100 : established.estimated_rtt.val = 100 := Double.val_hundred
  have h10 : established.dev_rtt.val = 10 := Double.val_ten
  rw [set_estimated_rtt_at_108.1, set_estimated_rtt_at_108.2, h100, h10]
  norm_num [abs_of_pos]

/-- C15, amended: while the statistics and the sample m = `current_rtt` are between 0 and
2^29 ms, `set_estimated_rtt` computes in binary64, every operation rounded to nearest:
`estimated_rtt` becomes fl(fl((1 - 0.125) * estimated_rtt) + 0.125 * m), within 2^-23 of
(1 - 0.125) * estimated_rtt + 0.125 * m; `dev_rtt` becomes
fl(fl((1 - 0.25) * dev_rtt) + 0.25 * |d|), within 2^-23 of (1 - 0.25) * dev_rtt + 0.25 * |d|,
where d is fl(m - estimated_rtt) for the new `estimated_rtt` (the value after the update of
the mean), truncated to an `int`, which it fits; the receive timeout applied is the integer
part of fl(estimated_rtt + 4 * dev_rtt) of the new values, below 2^32; and the new
statistics are again between 0 and 2^29. -/
theorem set_estimated_rtt_formula (sock : ReliableSocket)
    (he0 : 0 ≤ sock.estimated_rtt.val) (he1 : sock.estimated_rtt.val ≤ 2 ^ 29)
    (hd0 : 0 ≤ sock.dev_rtt.val) (hd1 : sock.dev_rtt.val ≤ 2 ^ 29)
    (hm0 : 0 ≤ sock.current_rtt) (hm1 : sock.current_rtt ≤ 2 ^ 29) :
    (set_estimated_rtt sock).estimated_rtt.val
        = to_double (to_double ((1 - 0.125) * sock.estimated_rtt.val)
            + 0.125 * sock.current_rtt)
    ∧ |(set_estimated_rtt sock).estimated_rtt.val
          - ((1 - 0.125) * sock.estimated_rtt.val + 0.125 * sock.current_rtt)| ≤ 1 / 2 ^ 23
    ∧ ((sock.current_rtt : Double) - (set_estimated_rtt sock).estimated_rtt).val
        = to_double (sock.current_rtt - (set_estimated_rtt sock).estimated_rtt.val)
    ∧ |to_int ((sock.current_rtt : Double) - (set_estimated_rtt sock).estimated_rtt)| < 2 ^ 31
    ∧ (set_estimated_rtt sock).dev_rtt.val
        = to_double (to_double ((1 - 0.25) * sock.dev_rtt.val)
            + 0.25 * |to_int ((sock.current_rtt : Double)
                - (set_estimated_rtt sock).estimated_rtt)|)
    ∧ |(set_estimated_rtt sock).dev_rtt.val
          - ((1 - 0.25) * sock.dev_rtt.val
            + 0.25 * |to_int ((sock.current_rtt : Double)
                - (set_estimated_rtt sock).estimated_rtt)|)| ≤ 1 / 2 ^ 23
    ∧ (set_estimated_rtt sock).timeouts
        = sock.timeouts
          ++ [(Rat.floor (to_double ((set_estimated_rtt sock).estimated_rtt.val
                + 4 * (set_estimated_rtt sock).dev_rtt.val))).toNat]
    ∧ to_double ((set_estimated_rtt sock).estimated_rtt.val
          + 4 * (set_estimated_rtt sock).dev_rtt.val) < 2 ^ 32
    ∧ (0 ≤ (set_estimated_rtt sock).estimated_rtt.val
        ∧ (set_estimated_rtt sock).estimated_rtt.val ≤ 2 ^ 29)
    ∧ 0 ≤ (set_estimated_rtt sock).dev_rtt.val
        ∧ (set_estimated_rtt sock).dev_rtt.val ≤ 2 ^ 29 :=
  set_estimated_rtt_in_range sock he0 he1 hd0 hd1 hm0 hm1

/-- C15, amended, where rounding shows: `estimated_rtt` is the `double` that follows 1,
`dev_rtt` is 10 and the sample is 0.  The new `estimated_rtt` is 0.875 + 2^-52, not the
exact product 0.875 * (1 + 2^-52). -/
theorem set_estimated_rtt_formula_witness :
    0 ≤ next_after_one.estimated_rtt.val ∧ next_after_one.estimated_rtt.val ≤ 2 ^ 29
    ∧ 0 ≤ next_after_one.dev_rtt.val ∧ next_after_one.dev_rtt.val ≤ 2 ^ 29
    ∧ 0 ≤ next_after_one.current_rtt ∧ next_after_one.current_rtt ≤ 2 ^ 29
    ∧ (set_estimated_rtt next_after_one).estimated_rtt.val = 7 / 8 + 1 / 2 ^ 52
    ∧ (set_estimated_rtt next_after_one).estimated_rtt.val
        ≠ (1 - 0.125) * next_after_one.estimated_rtt.val + 0.125 * next_after_one.current_rtt
    ∧ |(set_estimated_rtt next_after_one).estimated_rtt.val
          - ((1 - 0.125) * next_after_one.estimated_rtt.val
            + 0.125 * next_after_one.current_rtt)| ≤ 1 / 2 ^ 23
    ∧ |to_int ((next_after_one.current_rtt : Double)
          - (set_estimated_rtt next_after_one).estimated_rtt)| < 2 ^ 31
    ∧ (set_estimated_rtt next_after_one).timeouts
        = next_after_one.timeouts
          ++ [(Rat.floor (to_double ((set_estimated_rtt next_after_one).estimated_rtt.val
                + 4 * (set_estimated_rtt next_after_one).dev_rtt.val))).toNat]
    ∧ to_double ((set_estimated_rtt next_after_one).estimated_rtt.val
          + 4 * (set_estimated_rtt next_after_one).dev_rtt.val) < 2 ^ 32 := by
  have he : next_after_one.estimated_rtt.val = 1 + 1 / 2 ^ 52 := rfl
  have hd : next_after_one.dev_rtt.val = 10 := Double.val_ten
  have hm : next_after_one.current_rtt = 0 := rfl
  have h := set_estimated_rtt_formula next_after_one (by rw [he]; norm_num)
    (by rw [he]; norm_num) (by rw [hd]; norm_num) (by rw [hd]; norm_num) (by rw [hm])
    (by rw [hm]; norm_num)
  have hE : (set_estimated_rtt next_after_one).estimated_rtt.val = 7 / 8 + 1 / 2 ^ 52 := by
    rw [h.1, he, hm, to_double_seven_eighths_next,
      to_double_dyadic (7 / 8 + 1 / 2 ^ 52 + 0.125 * ((0 : ℤ) : ℚ)) (7 * 2 ^ 49 + 1) (-52)
        (by norm_num) (by norm_num) (by norm_num)]
    norm_num
  refine ⟨by rw [he]; norm_num, by rw [he]; norm_num, by rw [hd]; norm_num,
    by rw [hd]; norm_num, by rw [hm], by rw [hm]; norm_num, hE, ?_, h.2.1, h.2.2.2.1,
    h.2.2.2.2.2.2.1, h.2.2.2.2.2.2.2.1⟩
  rw [hE, he, hm]
  norm_num

/-- From the constructor's statistics the first doubled timeout is 280 ms, and after the
25th consecutive timeout the timeout applied is 402653184 ms, not 280 * 2^24 = 4697620480
ms. -/
theorem backoff_wraps_at_25 :
    (reliable_send (zero_segment 0) established
        ((List.replicate 25 0).map RecvResult.timeout)).sock.timeouts
      = 140 :: backoff 280 25
    ∧ (backoff 280 25)[0]? = some 280
    ∧ (backoff 280 25)[24]? = some 402653184
    ∧ 402653184 ≠ 280 * 2 ^ 24 := by
  have h140 := smoothed_timeout_new
  have h280 := doubled_timeout_new
  refine ⟨?_, by decide, by decide, by decide⟩
  rw [reliable_send_blocked]
  simp only [ReliableSocket.new] at h140 h280
  simp only [Outcome.sock, established, ReliableSocket.new, h140, h280, List.nil_append,
    List.length_replicate]

/-- C16 fails on the code: `doubled_timeout` is a `uint32_t`.  In one `reliable_send` the
timeouts applied are the smoothed one, then after the first, second, ... consecutive
timeout the first doubled timeout times 1, 2, 4, ... as long as the product is below 2^32;
but as soon as the product for the (n+1)-th timeout reaches 2^32 the timeout applied is
the product modulo 2^32, which is smaller than the product the claim states.  When the
reply arrives the timeout is `estimated_rtt + 4 * dev_rtt` of the updated statistics. -/
theorem reliable_send_backoff_wraps (send_seg : Segment) (sock : ReliableSocket)
    (waits : List Nat) (elapsed count : Nat) (seg : Segment) (rest : List RecvResult) (n : Nat)
    (hn : n < waits.length)
    (hwrap : 2 ^ 32 ≤ to_uint32 (2 * (sock.estimated_rtt + 4 * sock.dev_rtt)) * 2 ^ n) :
    ∃ sock1,
      reliable_send send_seg sock
          (waits.map RecvResult.timeout ++ .datagram elapsed count seg :: rest)
        = .returned (count, seg) sock1 rest
      ∧ sock1.timeouts
        = sock.timeouts ++ to_uint32 (sock.estimated_rtt + 4 * sock.dev_rtt)
          :: (backoff (to_uint32 (2 * (sock.estimated_rtt + 4 * sock.dev_rtt))) waits.length
            ++ [to_uint32 (sock1.estimated_rtt + 4 * sock1.dev_rtt)])
      ∧ (backoff (to_uint32 (2 * (sock.estimated_rtt + 4 * sock.dev_rtt)))
          waits.length).length = waits.length
      ∧ (∀ j, j < waits.length →
          to_uint32 (2 * (sock.estimated_rtt + 4 * sock.dev_rtt)) * 2 ^ j < 2 ^ 32 →
          (backoff (to_uint32 (2 * (sock.estimated_rtt + 4 * sock.dev_rtt))) waits.length)[j]?
            = some (to_uint32 (2 * (sock.estimated_rtt + 4 * sock.dev_rtt)) * 2 ^ j))
      ∧ (backoff (to_uint32 (2 * (sock.estimated_rtt + 4 * sock.dev_rtt))) waits.length)[n]?
          = some ((to_uint32 (2 * (sock.estimated_rtt + 4 * sock.dev_rtt)) * 2 ^ n) % 2 ^ 32)
      ∧ (to_uint32 (2 * (sock.estimated_rtt + 4 * sock.dev_rtt)) * 2 ^ n) % 2 ^ 32
          < to_uint32 (2 * (sock.estimated_rtt + 4 * sock.dev_rtt)) * 2 ^ n := by
  have hget : ∀ j, j < waits.length →
      (backoff (to_uint32 (2 * (sock.estimated_rtt + 4 * sock.dev_rtt))) waits.length)[j]?
        = some ((to_uint32 (2 * (sock.estimated_rtt + 4 * sock.dev_rtt)) * 2 ^ j) % 2 ^ 32) := by
    intro j hj
    simp [backoff, List.getElem?_map, List.getElem?_range hj]
  refine ⟨_, reliable_send_run send_seg sock waits elapsed count seg rest, ?_, ?_, ?_,
    hget n hn, ?_⟩
  · simp [set_estimated_rtt, set_timeout_length]
  · simp [backoff]
  · intro j hj hlt
    rw [hget j hj, Nat.mod_eq_of_lt hlt]
  · exact lt_of_lt_of_le (Nat.mod_lt _ (by decide)) hwrap

/-- C16 at a new socket: 25 consecutive timeouts, then a reply.  The first doubled timeout
is 280 ms, and 280 * 2^24 is not below 2^32. -/
theorem reliable_send_backoff_wraps_witness :
    24 < (List.replicate 25 0).length
    ∧ 2 ^ 32 ≤ to_uint32 (2 * (ReliableSocket.new.estimated_rtt
          + 4 * ReliableSocket.new.dev_rtt)) * 2 ^ 24
    ∧ to_uint32 (2 * (ReliableSocket.new.estimated_rtt + 4 * ReliableSocket.new.dev_rtt)) = 280
    ∧ (backoff 280 25)[24]? = some 402653184
    ∧ ∃ sock1,
        reliable_send (zero_segment 0) ReliableSocket.new
            ((List.replicate 25 0).map RecvResult.timeout
              ++ .datagram 5 9 handshake_ack_segment :: [])
          = .returned (9, handshake_ack_segment) sock1 []
        ∧ (backoff (to_uint32 (2 * (ReliableSocket.new.estimated_rtt
              + 4 * ReliableSocket.new.dev_rtt))) (List.replicate 25 0).length)[24]?
            = some ((to_uint32 (2 * (ReliableSocket.new.estimated_rtt
                + 4 * ReliableSocket.new.dev_rtt)) * 2 ^ 24) % 2 ^ 32)
        ∧ (to_uint32 (2 * (ReliableSocket.new.estimated_rtt
              + 4 * ReliableSocket.new.dev_rtt)) * 2 ^ 24) % 2 ^ 32
            < to_uint32 (2 * (ReliableSocket.new.estimated_rtt
                + 4 * ReliableSocket.new.dev_rtt)) * 2 ^ 24 :=
  let ⟨sock1, h1, _, _, _, h5, h6⟩ := reliable_send_backoff_wraps (zero_segment 0)
    ReliableSocket.new (List.replicate 25 0) 5 9 handshake_ack_segment [] 24 (by decide)
    (by rw [doubled_timeout_new]; decide)
  ⟨by decide, by rw [doubled_timeout_new]; decide, doubled_timeout_new, by decide,
    sock1, h1, h5, h6⟩

/-- C17: in one `reliable_send`, for any number of consecutive timeouts `estimated_rtt` and
`dev_rtt` are as they were while no reply has arrived; when the reply arrives, the
statistics are those of one `set_estimated_rtt` on the old ones with the sample
`current_rtt` equal to the time the last `recv` took since the last `send`, whatever the
waits that timed out before: the new `estimated_rtt` is, in binary64 arithmetic,
fl(fl(estimated_rtt * 0.875) + fl(fl(sample) * 0.125)). -/
theorem reliable_send_one_sample (send_seg : Segment) (sock : ReliableSocket)
    (waits : List Nat) (elapsed count : Nat) (seg : Segment) (rest : List RecvResult) :
    (∃ sock1, reliable_send send_seg sock (waits.map RecvResult.timeout) = .blocked sock1
      ∧ sock1.estimated_rtt = sock.estimated_rtt ∧ sock1.dev_rtt = sock.dev_rtt)
    ∧ ∃ sock1,
        reliable_send send_seg sock
            (waits.map RecvResult.timeout ++ .datagram elapsed count seg :: rest)
          = .returned (count, seg) sock1 rest
        ∧ sock1.current_rtt = (elapsed : Int)
        ∧ sock1.estimated_rtt
          = (set_estimated_rtt { sock with current_rtt := (elapsed : Int) }).estimated_rtt
        ∧ sock1.dev_rtt
          = (set_estimated_rtt { sock with current_rtt := (elapsed : Int) }).dev_rtt
        ∧ sock1.estimated_rtt.val
          = to_double (to_double (sock.estimated_rtt.val * (7 / 8))
              + to_double (to_double (elapsed : ℚ) * (1 / 8))) :=
  ⟨⟨_, reliable_send_blocked send_seg sock waits, rfl, rfl⟩,
    ⟨_, reliable_send_run send_seg sock waits elapsed count seg rest, rfl, rfl, rfl, by
      show (sock.estimated_rtt * (1 - 0.125) + (((elapsed : ℕ) : ℤ) : Double) * 0.125).val = _
      rw [Double.val_add, Double.val_mul, Double.val_mul, Double.val_one_sub_eighth,
        Double.val_eighth]
      rfl⟩⟩

/-! ## C18, C19, C20: unexpected segments, the wait for the peer's CLOSE, short datagrams -/

/-- C18 fails as stated: when the first segment a listener receives is a DATA segment,
`accept_connection` calls `exit(EXIT_FAILURE)`; the CONN and the ACK that follow are never
read. -/
theorem accept_connection_first_segment_counterexample :
    accept_connection ReliableSocket.new
        [.datagram 0 9 (data_segment 0 []), .datagram 0 9 conn_segment,
          .datagram 0 9 handshake_ack_segment]
      = .exited ReliableSocket.new := by
  decide

/-- C18, amended: a reply to the SYNACK that is not an ACK is discarded by
`accept_connection`, which sends the SYNACK again and goes on waiting in state INIT; but a
first segment that is not a CONN is fatal: the process exits with nothing sent. -/
theorem accept_connection_unexpected_segment (sock : ReliableSocket) (elapsed count : Nat)
    (first conn : Segment) (rest replies : List RecvResult)
    (hst : sock.state = .INIT) (hfirst : first.type ≠ RDT_CONN) (hconn : conn.type = RDT_CONN)
    (hrep : ∀ ev ∈ replies, ev.isDatagram = true ∧ ev.stops stop_on_ack = false) :
    accept_connection sock (.datagram elapsed count first :: rest) = .exited sock
    ∧ ∃ sock1,
        accept_connection sock (.datagram elapsed count conn :: replies) = .blocked sock1
        ∧ sock1.state = .INIT
        ∧ sock1.sent = sock.sent ++ List.replicate (replies.length + 1) synack_segment := by
  constructor
  · simp [accept_connection, hst, hfirst]
  · refine accept_connection_waits sock elapsed count conn replies hst hconn ?_
    intro ev hev
    obtain ⟨hd, hs⟩ := hrep ev hev
    cases ev with
    | timeout e => rfl
    | error e => simp [RecvResult.isDatagram] at hd
    | datagram e c seg => simpa [RecvResult.retried, RecvResult.stops] using hs

/-- C18, amended, at a new socket: a DATA segment first; and a CONN followed by a SYNACK and
a DATA segment. -/
theorem accept_connection_unexpected_segment_witness :
    ReliableSocket.new.state = .INIT ∧ (data_segment 0 []).type ≠ RDT_CONN
    ∧ conn_segment.type = RDT_CONN
    ∧ (∀ ev ∈ [RecvResult.datagram 3 9 synack_segment,
          RecvResult.datagram 3 9 (data_segment 0 [])],
        ev.isDatagram = true ∧ ev.stops stop_on_ack = false)
    ∧ accept_connection ReliableSocket.new (.datagram 0 9 (data_segment 0 []) :: [])
        = .exited ReliableSocket.new
    ∧ ∃ sock1,
        accept_connection ReliableSocket.new
            (.datagram 0 9 conn_segment
              :: [RecvResult.datagram 3 9 synack_segment,
                  RecvResult.datagram 3 9 (data_segment 0 [])])
          = .blocked sock1
        ∧ sock1.state = .INIT
        ∧ sock1.sent = ReliableSocket.new.sent
            ++ List.replicate
                ([RecvResult.datagram 3 9 synack_segment,
                  RecvResult.datagram 3 9 (data_segment 0 [])].length + 1) synack_segment :=
  ⟨rfl, by decide, rfl, by decide,
    accept_connection_unexpected_segment ReliableSocket.new 0 9 (data_segment 0 [])
      conn_segment []
      [RecvResult.datagram 3 9 synack_segment, RecvResult.datagram 3 9 (data_segment 0 [])]
      rfl (by decide) rfl (by decide)⟩

/-- C19 fails as stated: once the local CLOSE is acknowledged, no number of receive
timeouts makes `close_connection` return. -/
theorem wait_for_peer_close_counterexample :
    ¬ ∃ n, (close_connection 1000 established
        (.datagram 0 9 handshake_ack_segment
          :: List.replicate n (RecvResult.timeout 1000))).hasReturned = true := by
  rintro ⟨n, hn⟩
  obtain ⟨sock1, h, _, _, _⟩ := close_connection_waits_for_close 1000 established 0 9
    handshake_ack_segment (List.replicate n (RecvResult.timeout 1000)) (by decide) rfl
    (by
      intro ev hev
      rw [(List.mem_replicate.mp hev).2]
      rfl)
  rw [h] at hn
  simp [Outcome.hasReturned] at hn

/-- C19, amended: in the close that the caller starts, after the local CLOSE has been
acknowledged the wait for the peer's CLOSE is not bounded: after every receive timeout and
every segment that is not a CLOSE the call waits again, with the socket open, the state
unchanged and nothing sent but the two CLOSE segments (type `RDT_CLOSE`); only when a CLOSE
arrives does it go on to the final ACK (type `RDT_ACK`, both numbers 0), sent once more
after every further segment, and, after one silent `TIME_WAIT`, to state CLOSED with the
socket closed once. -/
theorem close_connection_wait_unbounded (TIME_WAIT : Nat) (sock : ReliableSocket)
    (elapsed count : Nat) (ack : Segment) (waits : List RecvResult)
    (elapsed2 count2 : Nat) (close : Segment) (replies : List RecvResult) (quiet : Nat)
    (rest : List RecvResult)
    (hst : sock.state ≠ .FIN) (hack : ack.type = RDT_ACK)
    (hwaits : ∀ ev ∈ waits, ev.retried stop_on_close = true)
    (hclose : close.type = RDT_CLOSE)
    (hrep : ∀ ev ∈ replies, ev.hasBytes = true) :
    (∃ sock1, close_connection TIME_WAIT sock (.datagram elapsed count ack :: waits)
        = .blocked sock1
      ∧ sock1.state = sock.state ∧ sock1.fd_closed = sock.fd_closed
      ∧ sock1.sent = sock.sent
          ++ [{ type := RDT_CLOSE, sequence_number := 0, ack_number := 0, data := [] },
              { type := RDT_CLOSE, sequence_number := 0, ack_number := 0, data := [] }])
    ∧ ∃ sock1,
        close_connection TIME_WAIT sock
            (.datagram elapsed count ack
              :: (waits ++ .datagram elapsed2 count2 close
                :: (replies ++ .timeout quiet :: rest)))
          = .returned () sock1 rest
        ∧ sock1.state = .CLOSED ∧ sock1.fd_closed = sock.fd_closed + 1
        ∧ sock1.sent = sock.sent
            ++ [{ type := RDT_CLOSE, sequence_number := 0, ack_number := 0, data := [] },
                { type := RDT_CLOSE, sequence_number := 0, ack_number := 0, data := [] }]
            ++ List.replicate (replies.length + 1)
                { type := RDT_ACK, sequence_number := 0, ack_number := 0, data := [] } :=
  ⟨close_connection_waits_for_close TIME_WAIT sock elapsed count ack waits hst hack
      (fun ev hev => stops_of_retried_stop_on_close ev (hwaits ev hev)),
    close_connection_after_close TIME_WAIT sock elapsed count ack waits elapsed2 count2 close
      replies quiet rest hst hack
      (fun ev hev => stops_of_retried_stop_on_close ev (hwaits ev hev)) hclose hrep⟩

/-- C19, amended, at an established connection: ACK, then three timeouts and a stray ACK,
then the CLOSE, a repeated CLOSE and silence. -/
theorem close_connection_wait_unbounded_witness :
    established.state ≠ .FIN ∧ handshake_ack_segment.type = RDT_ACK
    ∧ (∀ ev ∈ [RecvResult.timeout 140, .timeout 140, .timeout 140,
          .datagram 3 9 handshake_ack_segment],
        ev.retried stop_on_close = true)
    ∧ close_segment.type = RDT_CLOSE
    ∧ (∀ ev ∈ [RecvResult.datagram 3 9 close_segment], ev.hasBytes = true)
    ∧ (∃ sock1,
        close_connection 1000 established
            (.datagram 5 9 handshake_ack_segment
              :: [RecvResult.timeout 140, .timeout 140, .timeout 140,
                  .datagram 3 9 handshake_ack_segment])
          = .blocked sock1
        ∧ sock1.state = established.state ∧ sock1.fd_closed = established.fd_closed
        ∧ sock1.sent = established.sent
            ++ [{ type := RDT_CLOSE, sequence_number := 0, ack_number := 0, data := [] },
                { type := RDT_CLOSE, sequence_number := 0, ack_number := 0, data := [] }])
    ∧ ∃ sock1,
        close_connection 1000 established
            (.datagram 5 9 handshake_ack_segment
              :: ([RecvResult.timeout 140, .timeout 140, .timeout 140,
                    .datagram 3 9 handshake_ack_segment]
                ++ .datagram 4 9 close_segment
                  :: ([RecvResult.datagram 3 9 close_segment] ++ .timeout 1000 :: [])))
          = .returned () sock1 []
        ∧ sock1.state = .CLOSED ∧ sock1.fd_closed = established.fd_closed + 1
        ∧ sock1.sent = established.sent
            ++ [{ type := RDT_CLOSE, sequence_number := 0, ack_number := 0, data := [] },
                { type := RDT_CLOSE, sequence_number := 0, ack_number := 0, data := [] }]
            ++ List.replicate ([RecvResult.datagram 3 9 close_segment].length + 1)
                { type := RDT_ACK, sequence_number := 0, ack_number := 0, data := [] } :=
  ⟨by decide, rfl, by decide, rfl, by decide,
    close_connection_wait_unbounded 1000 established 5 9 handshake_ack_segment
      [RecvResult.timeout 140, .timeout 140, .timeout 140,
        .datagram 3 9 handshake_ack_segment]
      4 9 close_segment [RecvResult.datagram 3 9 close_segment] 1000 []
      (by decide) rfl (by decide) rfl (by decide)⟩

/-- C20 fails on the code: a datagram shorter than the header is not rejected.  When its
header, read from the zero-filled buffer, is neither ACK nor CLOSE and its sequence number
equals `sequence_number`, `receive_data` acknowledges it, increments `sequence_number`,
computes the negative length `recv_count - sizeof(RDTHeader)` and passes it to `memcpy`:
the call does not return a length that is non-negative and equal to the bytes copied. -/
theorem receive_data_short_datagram (sock : ReliableSocket) (buffer : List Nat)
    (elapsed count : Nat) (seg : Segment) (rest : List RecvResult)
    (hst : sock.state = .ESTABLISHED) (hshort : count < RDT_HEADER_SIZE)
    (hack : seg.type ≠ RDT_ACK) (hclose : seg.type ≠ RDT_CLOSE)
    (hseq : seg.sequence_number = sock.sequence_number) :
    receive_data sock buffer (.datagram elapsed count seg :: rest)
      = .undefined
          { sock with
            sequence_number := (sock.sequence_number + 1) % 2 ^ 32,
            sent := sock.sent ++ [ack_segment seg.sequence_number] }
    ∧ (count : Int) - (RDT_HEADER_SIZE : Int) < 0 := by
  have hneg : (count : Int) - (RDT_HEADER_SIZE : Int) < 0 := by omega
  refine ⟨?_, hneg⟩
  rw [receive_data_of_established _ _ _ hst]
  simp only [receive_data_loop, if_neg hack, if_neg hclose, ReliableSocket.sock_send, hseq,
    if_true, hneg]

/-- C20 at a new connection: a datagram of zero bytes, so that the header reads as zeros. -/
theorem receive_data_short_datagram_witness :
    established.state = .ESTABLISHED ∧ 0 < RDT_HEADER_SIZE
    ∧ (zero_segment 0).type ≠ RDT_ACK ∧ (zero_segment 0).type ≠ RDT_CLOSE
    ∧ (zero_segment 0).sequence_number = established.sequence_number
    ∧ receive_data established [7] (.datagram 0 0 (zero_segment 0) :: [])
        = .undefined
            { established with
              sequence_number := (established.sequence_number + 1) % 2 ^ 32,
              sent := established.sent ++ [ack_segment (zero_segment 0).sequence_number] }
    ∧ ((0 : Nat) : Int) - (RDT_HEADER_SIZE : Int) < 0 :=
  ⟨rfl, by decide, by decide, by decide, rfl,
    receive_data_short_datagram established [7] 0 0 (zero_segment 0) [] rfl (by decide)
      (by decide) (by decide) rfl⟩

end RDT
